import Mathlib

/-!
# Fallback storage backend of `DatabaseManager` (src/database.js)

A shallow embedding of the branch of every `DatabaseManager` method that runs
when `this.db` is null: the four record collections kept under the
localStorage keys `roklearn_users`, `roklearn_posts`, `roklearn_comments`
and `roklearn_likes`.

Modelling conventions
* A `Store` holds the four collections in decoded form; every method starts
  with `JSON.parse(localStorage.getItem(key) || '[]')` and every mutating
  method ends with `localStorage.setItem(key, JSON.stringify(coll))`, so a
  method is a function from the old collections to the new ones and a reply.
  Writes to localStorage are taken to succeed.
* `Date.now()` and `new Date().toISOString()` are two clock readings per
  call; they are explicit arguments `now` and `ts` (milliseconds).  The ISO
  text of `created_at` is represented by the millisecond value it encodes.
* Identifiers are JavaScript numbers produced by `Date.now()`; they are
  natural numbers here and `===` on them is equality.
* `likes_count` is an integer, so that `Math.max(0, c - 1)` is not trivial.
* `Array.prototype.sort` is stable; it is rendered as insertion sort.

Further parts
* `JSON.stringify` and `JSON.parse` on the text level, for the fragment the
  stored collections and the database snapshot use (null, integers, strings,
  arrays, objects without whitespace).
* The fallback reads as computations over the localStorage texts, with the
  decoding of each text as a parameter.
* `initDatabase`, `initFallbackStorage`, `createTables`, `saveDatabase` and
  `DatabaseFileHandler.importDatabase` over the fields `db` and
  `isInitialized`; the sql.js engine is a parameter.
* `AuthManager.hashPassword` on UTF-16 code units and
  `AuthManager.isValidEmail` as a regular expression over character classes
  (src/auth.js).
* The relational branch of `toggleLike` and `authenticateUser` over the
  statement interface of sql.js, whose `get` returns the row as an array.
-/

namespace Rok

/-! ## Records -/

/-- Record of the `roklearn_users` collection (database.js 169-175). -/
structure User where
  id : Nat
  name : String
  email : String
  password : String
  created_at : Nat
  deriving DecidableEq, Repr

/-- Record of the `roklearn_posts` collection (database.js 248-259). -/
structure Post where
  id : Nat
  title : String
  description : String
  tags : String
  image_data : Option String
  audio_data : Option String
  video_data : Option String
  author_id : Nat
  created_at : Nat
  likes_count : Int
  deriving DecidableEq, Repr

/-- Record of the `roklearn_comments` collection (database.js 355-361). -/
structure Comment where
  id : Nat
  post_id : Nat
  user_id : Nat
  content : String
  created_at : Nat
  deriving DecidableEq, Repr

/-- Record of the `roklearn_likes` collection (database.js 469-474). -/
structure Like where
  id : Nat
  post_id : Nat
  user_id : Nat
  created_at : Nat
  deriving DecidableEq, Repr

/-- The four collections of the fallback backend. -/
structure Store where
  users : List User
  posts : List Post
  comments : List Comment
  likes : List Like
  deriving DecidableEq, Repr

/-- The store left by `initFallbackStorage` when nothing was saved before
(database.js 58-69): four empty arrays. -/
def Store.empty : Store := ⟨[], [], [], []⟩

/-- Object returned by the mutating methods: `{ success }`,
`{ success, error }` or `{ success, liked }`; an absent key is `none`. -/
structure Reply where
  success : Bool
  error : Option String := none
  liked : Option Bool := none
  deriving DecidableEq, Repr

/-- Result of `getUserById`: the user object with the `password` key removed
by the rest pattern `{ password, ...userWithoutPassword }`. -/
structure PublicUser where
  id : Nat
  name : String
  email : String
  created_at : Nat
  deriving DecidableEq, Repr

/-- Element of the result of `getAllPosts` / `getPostById`:
`{ ...post, author_name }`. -/
structure PostView extends Post where
  author_name : String
  deriving DecidableEq, Repr

/-! ## Array primitives -/

/-- `Array.prototype.findIndex`, with `-1` rendered as `none`. -/
def findIndex {α : Type} (p : α → Bool) : List α → Option Nat
  | [] => none
  | a :: l => if p a then some 0 else (findIndex p l).map (· + 1)

/-- Assignment to one field of the element at index `i`:
`arr[i].field = ...` (no effect past the end). -/
def updateAt {α : Type} (f : α → α) : Nat → List α → List α
  | _, [] => []
  | 0, a :: l => f a :: l
  | i + 1, a :: l => a :: updateAt f i l

/-- The JavaScript expression `x || 0` on a number. -/
def orZero (x : Int) : Int := if x = 0 then 0 else x

/-! ## Methods (fallback branch) -/

/-- `createUser(name, email, password)`, database.js 164-179. -/
def createUser (s : Store) (name email password : String) (now ts : Nat) :
    Store × Reply :=
  match s.users.find? (fun u => u.email == email) with
  | some _ => (s, { success := false, error := some "Email already exists" })
  | none =>
    let newUser : User :=
      { id := now, name := name, email := email, password := password,
        created_at := ts }
    ({ s with users := s.users ++ [newUser] }, { success := true })

/-- `authenticateUser(email, password)`, database.js 198-199. -/
def authenticateUser (s : Store) (email password : String) : Option User :=
  s.users.find? (fun u => u.email == email && u.password == password)

/-- `getUserById(userId)`, database.js 218-224. -/
def getUserById (s : Store) (userId : Nat) : Option PublicUser :=
  match s.users.find? (fun u => u.id == userId) with
  | some user =>
    some { id := user.id, name := user.name, email := user.email,
           created_at := user.created_at }
  | none => none

/-- `createPost(title, description, tags, imageData, audioData, videoData,
authorId)`, database.js 247-263; `unshift` puts the new record first. -/
def createPost (s : Store) (title description tags : String)
    (imageData audioData videoData : Option String) (authorId : Nat)
    (now ts : Nat) : Store × Reply :=
  let newPost : Post :=
    { id := now, title := title, description := description, tags := tags,
      image_data := imageData, audio_data := audioData,
      video_data := videoData, author_id := authorId, created_at := ts,
      likes_count := 0 }
  ({ s with posts := newPost :: s.posts }, { success := true })

/-- The join emulation shared by `getAllPosts` and `getPostById`
(database.js 294-298 and 328-332). -/
def withAuthor (users : List User) (post : Post) : PostView :=
  { toPost := post,
    author_name :=
      match users.find? (fun u => u.id == post.author_id) with
      | some author => author.name
      | none => "Unknown User" }

/-- `getAllPosts()`, database.js 290-299. -/
def getAllPosts (s : Store) : List PostView :=
  s.posts.map (withAuthor s.users)

/-- `getPostById(postId)`, database.js 323-334. -/
def getPostById (s : Store) (postId : Nat) : Option PostView :=
  match s.posts.find? (fun p => p.id == postId) with
  | some post => some (withAuthor s.users post)
  | none => none

/-- `addComment(postId, userId, content)`, database.js 354-365. -/
def addComment (s : Store) (postId userId : Nat) (content : String)
    (now ts : Nat) : Store × Reply :=
  let newComment : Comment :=
    { id := now, post_id := postId, user_id := userId, content := content,
      created_at := ts }
  ({ s with comments := s.comments ++ [newComment] }, { success := true })

/-- The predicate `l => l.post_id === postId && l.user_id === userId`. -/
def likeMatches (postId userId : Nat) (l : Like) : Bool :=
  l.post_id == postId && l.user_id == userId

/-- `toggleLike(postId, userId)`, database.js 452-482. -/
def toggleLike (s : Store) (postId userId : Nat) (now ts : Nat) :
    Store × Reply :=
  let existingLikeIndex := findIndex (likeMatches postId userId) s.likes
  let postIndex := findIndex (fun p => p.id == postId) s.posts
  match existingLikeIndex with
  | some i =>
    let likes := s.likes.eraseIdx i
    let posts :=
      match postIndex with
      | some j =>
        updateAt
          (fun p => { p with likes_count := max 0 (orZero p.likes_count - 1) })
          j s.posts
      | none => s.posts
    ({ s with likes := likes, posts := posts },
     { success := true, liked := some false })
  | none =>
    let newLike : Like :=
      { id := now, post_id := postId, user_id := userId, created_at := ts }
    let likes := s.likes ++ [newLike]
    let posts :=
      match postIndex with
      | some j =>
        updateAt (fun p => { p with likes_count := orZero p.likes_count + 1 })
          j s.posts
      | none => s.posts
    ({ s with likes := likes, posts := posts },
     { success := true, liked := some true })

/-- `isPostLikedByUser(postId, userId)`, database.js 501-502. -/
def isPostLikedByUser (s : Store) (postId userId : Nat) : Bool :=
  s.likes.any (likeMatches postId userId)

/-! ## Sequential executions of the facade -/

/-- The four mutating facade operations with their arguments. -/
inductive Op where
  | createUser (name email password : String)
  | createPost (title description tags : String)
      (imageData audioData videoData : Option String) (authorId : Nat)
  | addComment (postId userId : Nat) (content : String)
  | toggleLike (postId userId : Nat)
  deriving DecidableEq, Repr

/-- One facade call together with the two clock readings it makes:
`now` for `Date.now()` and `ts` for `new Date()`. -/
structure Call where
  op : Op
  now : Nat
  ts : Nat
  deriving DecidableEq, Repr

/-- Effect of one call on the store. -/
def step (s : Store) (c : Call) : Store :=
  match c.op with
  | .createUser n e p => (createUser s n e p c.now c.ts).1
  | .createPost t d g i a v au => (createPost s t d g i a v au c.now c.ts).1
  | .addComment p u x => (addComment s p u x c.now c.ts).1
  | .toggleLike p u => (toggleLike s p u c.now c.ts).1

/-- Calls executed one after another. -/
def run (s : Store) (calls : List Call) : Store :=
  calls.foldl step s

/-- Number of stored Like records that reference the post id. -/
def likesOf (s : Store) (postId : Nat) : Nat :=
  s.likes.countP (fun l => l.post_id == postId)

/-! ## Auxiliary definitions used to state and prove the properties -/

/-- Rewrite of the first element satisfying `p`. -/
def updFirst {α : Type} (p : α → Bool) (f : α → α) : List α → List α
  | [] => []
  | a :: l => if p a then f a :: l else a :: updFirst p f l

/-- Counter update of the remove branch (database.js 462). -/
def decLikes (p : Post) : Post :=
  { p with likes_count := max 0 (orZero p.likes_count - 1) }

/-- Counter update of the add branch (database.js 477). -/
def incLikes (p : Post) : Post :=
  { p with likes_count := orZero p.likes_count + 1 }

/-- No two Like records carry the same (post_id, user_id) pair. -/
def LikesUnique (s : Store) : Prop :=
  (s.likes.map (fun l => (l.post_id, l.user_id))).Nodup

/-- Every stored counter is non-negative. -/
def CountsNonneg (s : Store) : Prop :=
  ∀ P ∈ s.posts, 0 ≤ P.likes_count

/-- No two stored users carry the same email string. -/
def EmailsUnique (s : Store) : Prop :=
  (s.users.map (·.email)).Nodup

/-- The clock reading used as the id of a new post is carried by no stored
post and referenced by no stored Like (vacuous for the other operations). -/
def freshPostId (s : Store) (c : Call) : Bool :=
  match c.op with
  | .createPost _ _ _ _ _ _ _ =>
    s.posts.all (fun P => P.id != c.now) && s.likes.all (fun l => l.post_id != c.now)
  | _ => true

/-- Every `createPost` of the sequence draws a fresh id in the store it runs on. -/
def freshPostIds : Store → List Call → Bool
  | _, [] => true
  | s, c :: cs => freshPostId s c && freshPostIds (step s c) cs

/-- Post ids are pairwise distinct and every counter equals the number of
Like records that reference the post. -/
def Counted (s : Store) : Prop :=
  (s.posts.map (·.id)).Nodup ∧ ∀ P ∈ s.posts, P.likes_count = (likesOf s P.id : Int)

/-- A Like recorded for post id 7 before any post exists, then a post
created at clock reading 7. -/
def likeBeforePost : List Call :=
  [⟨.toggleLike 7 1, 1, 1⟩,
   ⟨.createPost "Intro" "text" "" none none none 3, 7, 7⟩]

/-- A user, a post, three toggles by two users, and a second post. -/
def likedTwice : List Call :=
  [⟨.createUser "Alice" "alice@x.com" "h1", 1, 1⟩,
   ⟨.createPost "Intro" "text" "" none none none 1, 10, 10⟩,
   ⟨.toggleLike 10 1, 11, 11⟩,
   ⟨.toggleLike 10 2, 12, 12⟩,
   ⟨.toggleLike 10 1, 13, 13⟩,
   ⟨.createPost "Second" "more" "a,b" none none none 1, 14, 14⟩]

/-- Consecutive `toggleLike(postId, userId)` calls, one per pair of clock
readings. -/
def toggleLikeTimes (s : Store) (postId userId : Nat) : List (Nat × Nat) → Store
  | [] => s
  | (now, ts) :: cs => toggleLikeTimes (toggleLike s postId userId now ts).1 postId userId cs

/-- Two posts created within one clock tick: both carry id 5. -/
def twoPostsOneTick : List Call :=
  [⟨.createPost "A" "first" "" none none none 1, 5, 5⟩,
   ⟨.createPost "B" "second" "" none none none 1, 5, 5⟩]

/-- The fields of a user record other than `password`. -/
def User.withoutPassword (u : User) : PublicUser :=
  { id := u.id, name := u.name, email := u.email, created_at := u.created_at }

/-- A store holding one registered user. -/
def aliceStore : Store :=
  ⟨[⟨1, "Alice", "alice@x.com", "h1", 2⟩], [], [], []⟩

/-- The records built by the `createPost` calls of a sequence, in call order,
as they are at creation (likes_count 0). -/
def createdPosts : List Call → List Post
  | [] => []
  | c :: cs =>
    match c.op with
    | .createPost t d g i a v au =>
      ⟨c.now, t, d, g, i, a, v, au, c.ts, 0⟩ :: createdPosts cs
    | _ => createdPosts cs

/-- All clock readings of a sequence of calls, in the order they are made. -/
def clockReadings : List Call → List Nat
  | [] => []
  | c :: cs => c.now :: c.ts :: clockReadings cs

/-- A post record with its counter reset, for comparing posts up to likes_count. -/
def Post.resetLikes (p : Post) : Post := { p with likes_count := 0 }

/-- Two posts, the second created in the same tick as a toggle on the first. -/
def postsAndToggles : List Call :=
  [⟨.createUser "Alice" "alice@x.com" "h1", 1, 1⟩,
   ⟨.createPost "Intro" "text" "" none none none 1, 10, 10⟩,
   ⟨.toggleLike 10 1, 11, 12⟩,
   ⟨.createPost "Second" "more" "a,b" none (some "data:audio") none 1, 12, 12⟩,
   ⟨.toggleLike 10 3, 12, 13⟩,
   ⟨.toggleLike 12 1, 13, 13⟩]

/-- Two users registered within one clock tick (both get id 1), then a post
written by the second of them. -/
def sameTickUsers : List Call :=
  [⟨.createUser "Alice" "alice@x.com" "h1", 1, 1⟩,
   ⟨.createUser "Bob" "bob@x.com" "h2", 1, 1⟩,
   ⟨.createPost "Intro" "text" "" none none none 1, 5, 5⟩]

/-- Element of the result of `getCommentsByPostId`: `{ ...comment, user_name }`. -/
structure CommentView extends Comment where
  user_name : String
  deriving DecidableEq, Repr

/-- Insertion of `a` in front of the first element it does not compare
greater than. -/
def insertSorted {α : Type} (cmp : α → α → Int) (a : α) : List α → List α
  | [] => [a]
  | b :: l => if cmp a b ≤ 0 then a :: b :: l else b :: insertSorted cmp a l

/-- `Array.prototype.sort(comparefn)`: the sort is stable (ECMAScript 2019),
so for a consistent comparator its result is the one computed by insertion
sort taking the elements from the right. -/
def sortStable {α : Type} (cmp : α → α → Int) : List α → List α
  | [] => []
  | a :: l => insertSorted cmp a (sortStable cmp l)

/-- The comparator `(a, b) => new Date(a.created_at) - new Date(b.created_at)`
(database.js 405): the difference of the two millisecond values. -/
def byCreatedAt (a b : CommentView) : Int :=
  (a.created_at : Int) - (b.created_at : Int)

/-- The join emulation of `getCommentsByPostId` (database.js 399-403). -/
def withUserName (users : List User) (comment : Comment) : CommentView :=
  { toComment := comment,
    user_name :=
      match users.find? (fun u => u.id == comment.user_id) with
      | some user => user.name
      | none => "Unknown User" }

/-- `getCommentsByPostId(postId)`, database.js 393-405. -/
def getCommentsByPostId (s : Store) (postId : Nat) : List CommentView :=
  sortStable byCreatedAt
    ((s.comments.filter (fun c => c.post_id == postId)).map (withUserName s.users))

/-- Comments stored with timestamps out of insertion order. -/
def shuffledComments : Store :=
  ⟨[⟨1, "Alice", "alice@x.com", "h1", 1⟩], [],
   [⟨10, 5, 1, "late", 30⟩, ⟨11, 5, 2, "early", 10⟩, ⟨12, 6, 1, "other", 5⟩,
    ⟨13, 5, 1, "tie", 10⟩],
   []⟩

/-- A user, a post and one earlier comment on it. -/
def oneComment : List Call :=
  [⟨.createUser "Alice" "alice@x.com" "h1", 1, 1⟩,
   ⟨.createPost "Intro" "text" "" none none none 1, 5, 5⟩,
   ⟨.addComment 5 1 "first", 6, 6⟩,
   ⟨.addComment 9 1 "elsewhere", 6, 7⟩]

/-- The scenario of spec section 8, item 7, up to Bob's registration; the
unspecified arguments and the clock readings are parameters. -/
def scenarioSetup (h1 desc tags : String) (img aud vid : Option String)
    (bobEmail h2 : String) (t1 s1 t2 s2 t3 s3 : Nat) : List Call :=
  [⟨.createUser "Alice" "alice@x.com" h1, t1, s1⟩,
   ⟨.createPost "Intro" desc tags img aud vid t1, t2, s2⟩,
   ⟨.createUser "Bob" bobEmail h2, t3, s3⟩]

/-! ## JSON text -/

/-- A JavaScript string, as the list of its characters. -/
abbrev Text := List Char

/-- JSON values of the fragment the stored collections use: null, integer
numbers, strings, arrays and objects (members in key order). -/
inductive Json where
  | null
  | num (n : Int)
  | str (s : Text)
  | arr (xs : List Json)
  | obj (kvs : List (Text × Json))
  deriving Repr

/-- Decimal digit to character. -/
def digitChar : Nat → Char
  | 0 => '0' | 1 => '1' | 2 => '2' | 3 => '3' | 4 => '4'
  | 5 => '5' | 6 => '6' | 7 => '7' | 8 => '8' | _ => '9'

/-- Character to decimal digit, if it is one. -/
def digitVal (c : Char) : Option Nat :=
  if c = '0' then some 0 else if c = '1' then some 1 else if c = '2' then some 2
  else if c = '3' then some 3 else if c = '4' then some 4 else if c = '5' then some 5
  else if c = '6' then some 6 else if c = '7' then some 7 else if c = '8' then some 8
  else if c = '9' then some 9 else none

/-- Decimal digits of `n`, most significant first, with a recursion bound. -/
def natDigitsFuel : Nat → Nat → Text
  | 0, _ => []
  | f + 1, n => if n < 10 then [digitChar n] else natDigitsFuel f (n / 10) ++ [digitChar (n % 10)]

/-- `Number.prototype.toString` on a non-negative integer below 10^21:
plain decimal digits without leading zeros. -/
def natDigits (n : Nat) : Text := natDigitsFuel (n + 1) n

/-- `Number.prototype.toString` on an integer. -/
def printInt : Int → Text
  | .ofNat n => natDigits n
  | .negSucc n => '-' :: natDigits (n + 1)

/-- Lower-case hexadecimal digit. -/
def hexChar (d : Nat) : Char :=
  if d < 10 then digitChar d else Char.ofNat (87 + d)

/-- One character of `QuoteJSONString`: the two-character escapes, `\u00XX`
for the other control characters, the character itself otherwise. -/
def escapeChar (c : Char) : Text :=
  if c = '"' then ['\\', '"']
  else if c = '\\' then ['\\', '\\']
  else if c = '\x08' then ['\\', 'b']
  else if c = '\x0c' then ['\\', 'f']
  else if c = '\n' then ['\\', 'n']
  else if c = '\r' then ['\\', 'r']
  else if c = '\t' then ['\\', 't']
  else if c.toNat < 32 then ['\\', 'u', '0', '0', hexChar (c.toNat / 16), hexChar (c.toNat % 16)]
  else [c]

/-- `QuoteJSONString`: the escaped characters between double quotes. -/
def quote (s : Text) : Text := '"' :: (s.flatMap escapeChar ++ ['"'])

/-! `JSON.stringify` without indentation: elements and members are separated
by a comma, keys and values by a colon, no whitespace. -/

mutual
/-- `JSON.stringify(value)`. -/
def stringify : Json → Text
  | .null => ['n', 'u', 'l', 'l']
  | .num n => printInt n
  | .str s => quote s
  | .arr xs => '[' :: (stringifyElems xs ++ [']'])
  | .obj kvs => '{' :: (stringifyMembers kvs ++ ['}'])
/-- The elements of a non-empty array. -/
def stringifyElems : List Json → Text
  | [] => []
  | x :: xs => stringify x ++ stringifyElemsTail xs
/-- The elements after the first, each preceded by a comma. -/
def stringifyElemsTail : List Json → Text
  | [] => []
  | x :: xs => ',' :: (stringify x ++ stringifyElemsTail xs)
/-- The members of a non-empty object. -/
def stringifyMembers : List (Text × Json) → Text
  | [] => []
  | (k, v) :: kvs => quote k ++ ':' :: (stringify v ++ stringifyMembersTail kvs)
/-- The members after the first, each preceded by a comma. -/
def stringifyMembersTail : List (Text × Json) → Text
  | [] => []
  | (k, v) :: kvs => ',' :: (quote k ++ ':' :: (stringify v ++ stringifyMembersTail kvs))
end


/-- Value of a hexadecimal digit of either case. -/
def hexVal (c : Char) : Option Nat :=
  match digitVal c with
  | some d => some d
  | none =>
    if c = 'a' ∨ c = 'A' then some 10 else if c = 'b' ∨ c = 'B' then some 11
    else if c = 'c' ∨ c = 'C' then some 12 else if c = 'd' ∨ c = 'D' then some 13
    else if c = 'e' ∨ c = 'E' then some 14 else if c = 'f' ∨ c = 'F' then some 15
    else none

/-- The character denoted by a two-character escape. -/
def unescape (e : Char) : Option Char :=
  if e = '"' then some '"' else if e = '\\' then some '\\' else if e = '/' then some '/'
  else if e = 'b' then some '\x08' else if e = 'f' then some '\x0c'
  else if e = 'n' then some '\n' else if e = 'r' then some '\r'
  else if e = 't' then some '\t' else none

/-- Where the scanner of a string literal stands: between characters, right
after a backslash, or inside a `\u` escape with `k` hex digits read. -/
inductive StrState where
  | normal
  | escape
  | hex (k : Nat) (acc : Nat)

/-- Mapping a function over the characters read so far. -/
def consChar (c : Char) : Option (Text × Text) → Option (Text × Text)
  | some (s, r) => some (c :: s, r)
  | none => none

/-- Scanner of a JSON string literal, started after the opening quote; returns
the decoded characters and the text after the closing quote. -/
def parseBodyAux : StrState → Text → Option (Text × Text)
  | _, [] => none
  | .normal, c :: cs =>
    if c = '"' then some ([], cs)
    else if c = '\\' then parseBodyAux .escape cs
    else if c.toNat < 32 then none
    else consChar c (parseBodyAux .normal cs)
  | .escape, e :: cs =>
    if e = 'u' then parseBodyAux (.hex 0 0) cs
    else
      match unescape e with
      | none => none
      | some ch => consChar ch (parseBodyAux .normal cs)
  | .hex k acc, h :: cs =>
    match hexVal h with
    | none => none
    | some v =>
      if k = 3 then
        if 0xD800 ≤ acc * 16 + v ∧ acc * 16 + v ≤ 0xDFFF then none
        else consChar (Char.ofNat (acc * 16 + v)) (parseBodyAux .normal cs)
      else parseBodyAux (.hex (k + 1) (acc * 16 + v)) cs

/-- Scanner of a string literal after its opening quote. -/
def parseBody (t : Text) : Option (Text × Text) := parseBodyAux .normal t

/-- Reads decimal digits, accumulating their value. -/
def parseDigits : Text → Nat → Nat × Text
  | [], acc => (acc, [])
  | c :: cs, acc =>
    match digitVal c with
    | some d => parseDigits cs (acc * 10 + d)
    | none => (acc, c :: cs)

/-- An unsigned JSON integer literal: no leading zero, and not followed by
a further digit, a fraction or an exponent (those are outside the fragment). -/
def parseNat : Text → Option (Nat × Text)
  | [] => none
  | c :: cs =>
    match digitVal c with
    | none => none
    | some d =>
      let r := if d = 0 then (0, cs) else parseDigits cs d
      match r.2 with
      | [] => some r
      | c2 :: _ =>
        if (digitVal c2).isSome ∨ c2 = '.' ∨ c2 = 'e' ∨ c2 = 'E' then none else some r

/-- A JSON integer literal with optional minus sign. -/
def parseInt : Text → Option (Int × Text)
  | [] => none
  | c :: cs =>
    if c = '-' then
      match parseNat cs with
      | some (n, r) => some (-(n : Int), r)
      | none => none
    else
      match parseNat (c :: cs) with
      | some (n, r) => some ((n : Int), r)
      | none => none

/-! `JSON.parse` restricted to the fragment; the first argument bounds the
recursion and one more than the length of the text is always enough. -/

mutual
/-- One value at the start of the text, with the rest of the text. -/
def parseValue : Nat → Text → Option (Json × Text)
  | 0, _ => none
  | _ + 1, [] => none
  | f + 1, c :: rest =>
    if c = '"' then
      match parseBody rest with
      | some (s, r) => some (.str s, r)
      | none => none
    else if c = '[' then
      match rest with
      | [] => none
      | c2 :: r2 =>
        if c2 = ']' then some (.arr [], r2)
        else
          match parseElems f rest with
          | some (xs, r) => some (.arr xs, r)
          | none => none
    else if c = '{' then
      match rest with
      | [] => none
      | c2 :: r2 =>
        if c2 = '}' then some (.obj [], r2)
        else
          match parseMembers f rest with
          | some (kvs, r) => some (.obj kvs, r)
          | none => none
    else if c = 'n' then
      match rest with
      | a :: b :: d :: r => if a = 'u' ∧ b = 'l' ∧ d = 'l' then some (.null, r) else none
      | _ => none
    else
      match parseInt (c :: rest) with
      | some (n, r) => some (.num n, r)
      | none => none
/-- The elements of a non-empty array up to the closing bracket. -/
def parseElems : Nat → Text → Option (List Json × Text)
  | 0, _ => none
  | f + 1, cs =>
    match parseValue f cs with
    | some (v, c :: r) =>
      if c = ',' then
        match parseElems f r with
        | some (xs, r2) => some (v :: xs, r2)
        | none => none
      else if c = ']' then some ([v], r)
      else none
    | _ => none
/-- The members of a non-empty object up to the closing brace. -/
def parseMembers : Nat → Text → Option (List (Text × Json) × Text)
  | 0, _ => none
  | _ + 1, [] => none
  | f + 1, q :: cs =>
    if q = '"' then
      match parseBody cs with
      | some (k, c1 :: r1) =>
        if c1 = ':' then
          match parseValue f r1 with
          | some (v, c :: r) =>
            if c = ',' then
              match parseMembers f r with
              | some (kvs, r2) => some ((k, v) :: kvs, r2)
              | none => none
            else if c = '}' then some ([(k, v)], r)
            else none
          | _ => none
        else none
      | _ => none
    else none
end

/-- `JSON.parse(text)` on the fragment: the whole text must be one value. -/
def parse (t : Text) : Option Json :=
  match parseValue (t.length + 1) t with
  | some (v, []) => some v
  | _ => none

/-- The text after a number literal does not continue it. -/
def NumEnd : Text → Prop
  | [] => True
  | c :: _ => digitVal c = none ∧ c ≠ '.' ∧ c ≠ 'e' ∧ c ≠ 'E'

/-! ## Snapshot codecs -/

/-- The text stored by `saveDatabase`: `JSON.stringify(Array.from(data))`
(database.js 138-139). -/
def stringifyBytes (data : List Nat) : Text :=
  stringify (.arr (data.map (fun (x : Nat) => Json.num (x : Int))))

/-- Conversion of a number to an element of a `Uint8Array`: modulo 256. -/
def toUint8 (n : Int) : Nat := (n % 256).toNat

/-- Elements of a `Uint8Array` built from a parsed array of integers. -/
def uint8Elems : List Json → Option (List Nat)
  | [] => some []
  | .num n :: xs =>
    match uint8Elems xs with
    | some l => some (toUint8 n :: l)
    | none => none
  | _ :: _ => none

/-- `new Uint8Array(JSON.parse(savedDb))` (database.js 21) on the texts
`saveDatabase` writes: an array of integers without whitespace. On any other
text the result is `none`, which says only that the text is not of that
form: it covers the texts `JSON.parse` rejects as well as JSON texts the
built-ins accept but this fragment does not render (`null`, `5`, an object,
whitespace, fractions). -/
def parseBytes (savedDb : Text) : Option (List Nat) :=
  match parse savedDb with
  | some (.arr xs) => uint8Elems xs
  | _ => none

/-- A media payload or `null`. -/
def jsonOfMedia : Option String → Json
  | some d => .str d.toList
  | none => .null

/-- A user record as the JSON object `JSON.stringify` sees: keys in creation
order (database.js 169-175); `iso` renders `created_at` as ISO text. -/
def User.toJson (iso : Nat → Text) (u : User) : Json :=
  .obj [("id".toList, .num u.id), ("name".toList, .str u.name.toList),
        ("email".toList, .str u.email.toList), ("password".toList, .str u.password.toList),
        ("created_at".toList, .str (iso u.created_at))]

/-- A post record as a JSON object (database.js 248-259). -/
def Post.toJson (iso : Nat → Text) (p : Post) : Json :=
  .obj [("id".toList, .num p.id), ("title".toList, .str p.title.toList),
        ("description".toList, .str p.description.toList), ("tags".toList, .str p.tags.toList),
        ("image_data".toList, jsonOfMedia p.image_data),
        ("audio_data".toList, jsonOfMedia p.audio_data),
        ("video_data".toList, jsonOfMedia p.video_data),
        ("author_id".toList, .num p.author_id),
        ("created_at".toList, .str (iso p.created_at)),
        ("likes_count".toList, .num p.likes_count)]

/-- A comment record as a JSON object (database.js 355-361). -/
def Comment.toJson (iso : Nat → Text) (c : Comment) : Json :=
  .obj [("id".toList, .num c.id), ("post_id".toList, .num c.post_id),
        ("user_id".toList, .num c.user_id), ("content".toList, .str c.content.toList),
        ("created_at".toList, .str (iso c.created_at))]

/-- A like record as a JSON object (database.js 469-474). -/
def Like.toJson (iso : Nat → Text) (l : Like) : Json :=
  .obj [("id".toList, .num l.id), ("post_id".toList, .num l.post_id),
        ("user_id".toList, .num l.user_id), ("created_at".toList, .str (iso l.created_at))]

/-- Rendering of a timestamp used in examples: its decimal digits. -/
def isoDigits (t : Nat) : Text := natDigits t

/-! ## The fallback methods over localStorage texts -/

/-- The localStorage keys the program uses: `roklearn_database` and the four
fallback collections `roklearn_users`, `roklearn_posts`, `roklearn_comments`,
`roklearn_likes`. -/
inductive StorageKey where
  | database
  | users
  | posts
  | comments
  | likes
  deriving DecidableEq, Repr

/-- Content of localStorage under those keys; `none` is an absent key. -/
structure LocalStorage where
  database : Option Text
  users : Option Text
  posts : Option Text
  comments : Option Text
  likes : Option Text
  deriving DecidableEq, Repr

/-- `localStorage.getItem(key)`. -/
def LocalStorage.getItem (ls : LocalStorage) : StorageKey → Option Text
  | .database => ls.database
  | .users => ls.users
  | .posts => ls.posts
  | .comments => ls.comments
  | .likes => ls.likes

/-- `localStorage.setItem(key, value)`. -/
def LocalStorage.setItem (ls : LocalStorage) (k : StorageKey) (v : Text) : LocalStorage :=
  match k with
  | .database => { ls with database := some v }
  | .users => { ls with users := some v }
  | .posts => { ls with posts := some v }
  | .comments => { ls with comments := some v }
  | .likes => { ls with likes := some v }

/-- The expression `item || '[]'`: `null` and the empty string are falsy. -/
def orEmptyArray : Option Text → Text
  | some (c :: cs) => c :: cs
  | _ => ['[', ']']

/-- A computation over localStorage: it returns a value or throws (`none`),
and leaves a storage behind in both cases. -/
def Eff (α : Type) : Type := LocalStorage → Option α × LocalStorage

/-- Sequencing: a throw skips the rest. -/
def Eff.bind {α β : Type} (m : Eff α) (f : α → Eff β) : Eff β :=
  fun ls =>
    match m ls with
    | (some a, ls1) => f a ls1
    | (none, ls1) => (none, ls1)

instance : Monad Eff where
  pure a := fun ls => (some a, ls)
  bind := Eff.bind

/-- `localStorage.getItem(key)` as a step of a computation. -/
def Eff.getItem (k : StorageKey) : Eff (Option Text) :=
  fun ls => (some (ls.getItem k), ls)

/-- `localStorage.setItem(key, value)` as a step of a computation. -/
def Eff.setItem (k : StorageKey) (v : Text) : Eff Unit :=
  fun ls => (some (), ls.setItem k v)

/-- `JSON.parse(text)` read as a list of records; `none` from the decoder is
the SyntaxError thrown by `JSON.parse`. -/
def Eff.parseWith {α : Type} (decode : Text → Option α) (text : Text) : Eff α :=
  fun ls => (decode text, ls)

/-- What `JSON.parse` yields for the text of each collection. -/
structure Decoders where
  users : Text → Option (List User)
  posts : Text → Option (List Post)
  comments : Text → Option (List Comment)
  likes : Text → Option (List Like)

/-- `JSON.parse(localStorage.getItem('roklearn_users') || '[]')`. -/
def readUsers (D : Decoders) : Eff (List User) := do
  let item ← Eff.getItem .users
  Eff.parseWith D.users (orEmptyArray item)

/-- `JSON.parse(localStorage.getItem('roklearn_posts') || '[]')`. -/
def readPosts (D : Decoders) : Eff (List Post) := do
  let item ← Eff.getItem .posts
  Eff.parseWith D.posts (orEmptyArray item)

/-- `JSON.parse(localStorage.getItem('roklearn_comments') || '[]')`. -/
def readComments (D : Decoders) : Eff (List Comment) := do
  let item ← Eff.getItem .comments
  Eff.parseWith D.comments (orEmptyArray item)

/-- `JSON.parse(localStorage.getItem('roklearn_likes') || '[]')`. -/
def readLikes (D : Decoders) : Eff (List Like) := do
  let item ← Eff.getItem .likes
  Eff.parseWith D.likes (orEmptyArray item)

/-- `authenticateUser`, fallback branch with its storage accesses
(database.js 198-199). -/
def Storage.authenticateUser (D : Decoders) (email password : String) :
    Eff (Option User) := do
  let users ← readUsers D
  pure (users.find? (fun u => u.email == email && u.password == password))

/-- `getUserById`, fallback branch with its storage accesses
(database.js 218-224). -/
def Storage.getUserById (D : Decoders) (userId : Nat) : Eff (Option PublicUser) := do
  let users ← readUsers D
  match users.find? (fun u => u.id == userId) with
  | some user =>
    pure (some { id := user.id, name := user.name, email := user.email,
                 created_at := user.created_at })
  | none => pure none

/-- `getAllPosts`, fallback branch with its storage accesses
(database.js 290-299). -/
def Storage.getAllPosts (D : Decoders) : Eff (List PostView) := do
  let posts ← readPosts D
  let users ← readUsers D
  pure (posts.map (withAuthor users))

/-- `getPostById`, fallback branch with its storage accesses
(database.js 323-334). -/
def Storage.getPostById (D : Decoders) (postId : Nat) : Eff (Option PostView) := do
  let posts ← readPosts D
  let users ← readUsers D
  match posts.find? (fun p => p.id == postId) with
  | some post => pure (some (withAuthor users post))
  | none => pure none

/-- `getCommentsByPostId`, fallback branch with its storage accesses
(database.js 393-405). -/
def Storage.getCommentsByPostId (D : Decoders) (postId : Nat) :
    Eff (List CommentView) := do
  let comments ← readComments D
  let users ← readUsers D
  pure (sortStable byCreatedAt
    ((comments.filter (fun c => c.post_id == postId)).map (withUserName users)))

/-- `isPostLikedByUser`, fallback branch with its storage accesses
(database.js 501-502). -/
def Storage.isPostLikedByUser (D : Decoders) (postId userId : Nat) : Eff Bool := do
  let likes ← readLikes D
  pure (likes.any (likeMatches postId userId))

/-- A computation that leaves localStorage as it found it, whether it returns
or throws. -/
def ReadOnly {α : Type} (m : Eff α) : Prop := ∀ ls, (m ls).2 = ls

/-- The store a localStorage content decodes to, when all four texts parse. -/
def decodeStore (D : Decoders) (ls : LocalStorage) : Option Store :=
  match D.users (orEmptyArray ls.users), D.posts (orEmptyArray ls.posts),
        D.comments (orEmptyArray ls.comments), D.likes (orEmptyArray ls.likes) with
  | some us, some ps, some cs, some lk => some ⟨us, ps, cs, lk⟩
  | _, _, _, _ => none

/-! ## Backend selection: `initDatabase` and `importDatabase` -/

/-- The sql.js engine as the program uses it; the engine is an external
library, so its behaviour is a parameter. -/
structure SqlEngine (Db : Type) where
  /-- `new SQL.Database(bytes)`; `none` when the constructor throws. -/
  openBytes : List Nat → Option Db
  /-- `new SQL.Database()`. -/
  fresh : Db
  /-- `db.run(sql)`: the database afterwards, and whether the call threw. -/
  exec : Db → String → Db × Bool
  /-- `db.export()`. -/
  exportBytes : Db → List Nat

/-- The fields of a `DatabaseManager` instance. -/
structure Manager (Db : Type) where
  db : Option Db
  isInitialized : Bool
  deriving DecidableEq, Repr

/-- The fields as the constructor sets them (database.js 4-5). -/
def Manager.new {Db : Type} : Manager Db := { db := none, isInitialized := false }

/-- JavaScript truthiness of `localStorage.getItem(key)`: a non-empty string. -/
def isTruthy : Option Text → Bool
  | some (_ :: _) => true
  | _ => false

/-- One `if (!localStorage.getItem(key)) localStorage.setItem(key, '[]')`. -/
def ensureKey (k : StorageKey) (ls : LocalStorage) : LocalStorage :=
  if isTruthy (ls.getItem k) then ls else ls.setItem k ['[', ']']

/-- `initFallbackStorage()`, database.js 53-70. -/
def initFallbackStorage {Db : Type} (m : Manager Db) (ls : LocalStorage) :
    Manager Db × LocalStorage :=
  ({ m with isInitialized := true },
   ensureKey .likes (ensureKey .comments (ensureKey .posts (ensureKey .users ls))))

/-- `saveDatabase()`, database.js 132-146; the export and the write are taken
to succeed. -/
def saveDatabase {Db : Type} (E : SqlEngine Db) (m : Manager Db) (ls : LocalStorage) :
    LocalStorage :=
  match m.db with
  | some d => ls.setItem .database (stringifyBytes (E.exportBytes d))
  | none => ls

/-- The four statements of `createTables` (database.js 76-127), whitespace
normalised. -/
def createTableStatements : List String :=
  ["CREATE TABLE IF NOT EXISTS users (id INTEGER PRIMARY KEY AUTOINCREMENT, name TEXT NOT NULL, email TEXT UNIQUE NOT NULL, password TEXT NOT NULL, created_at DATETIME DEFAULT CURRENT_TIMESTAMP)",
   "CREATE TABLE IF NOT EXISTS posts (id INTEGER PRIMARY KEY AUTOINCREMENT, title TEXT NOT NULL, description TEXT NOT NULL, tags TEXT, image_data TEXT, audio_data TEXT, video_data TEXT, author_id INTEGER NOT NULL, created_at DATETIME DEFAULT CURRENT_TIMESTAMP, likes_count INTEGER DEFAULT 0, FOREIGN KEY (author_id) REFERENCES users (id))",
   "CREATE TABLE IF NOT EXISTS comments (id INTEGER PRIMARY KEY AUTOINCREMENT, post_id INTEGER NOT NULL, user_id INTEGER NOT NULL, content TEXT NOT NULL, created_at DATETIME DEFAULT CURRENT_TIMESTAMP, FOREIGN KEY (post_id) REFERENCES posts (id), FOREIGN KEY (user_id) REFERENCES users (id))",
   "CREATE TABLE IF NOT EXISTS likes (id INTEGER PRIMARY KEY AUTOINCREMENT, post_id INTEGER NOT NULL, user_id INTEGER NOT NULL, created_at DATETIME DEFAULT CURRENT_TIMESTAMP, UNIQUE(post_id, user_id), FOREIGN KEY (post_id) REFERENCES posts (id), FOREIGN KEY (user_id) REFERENCES users (id))"]

/-- Statements run one after another until one throws; the flag tells whether
one did. -/
def execAll {Db : Type} (E : SqlEngine Db) : Db → List String → Db × Bool
  | d, [] => (d, false)
  | d, q :: qs =>
    match E.exec d q with
    | (d1, true) => (d1, true)
    | (d1, false) => execAll E d1 qs

/-- `createTables()`, database.js 72-130; the flag tells whether it threw. -/
def createTables {Db : Type} (E : SqlEngine Db) (m : Manager Db) (ls : LocalStorage) :
    (Manager Db × LocalStorage) × Bool :=
  match m.db with
  | none => ((m, ls), false)
  | some d =>
    match execAll E d createTableStatements with
    | (d1, true) => (({ m with db := some d1 }, ls), true)
    | (d1, false) =>
      (({ m with db := some d1 }, saveDatabase E { m with db := some d1 } ls), false)

/-- What `initDatabase` gets from outside the program. -/
structure InitEnv (Db : Type) where
  /-- `await initSqlJs(...)`; `none` when the engine fails to load. -/
  sql : Option (SqlEngine Db)
  /-- `new Uint8Array(JSON.parse(savedDb))`; `none` when `JSON.parse` throws. -/
  bytesOfJson : Text → Option (List Nat)
  /-- `fetch('./db.sqlite')`: the bytes of an ok response, `none` otherwise. -/
  fetched : Option (List Nat)

/-- `initDatabase()`, database.js 9-51: the fields and localStorage
afterwards, and the returned boolean. -/
def initDatabase {Db : Type} (env : InitEnv Db) (m : Manager Db) (ls : LocalStorage) :
    (Manager Db × LocalStorage) × Bool :=
  match env.sql with
  | none => (initFallbackStorage m ls, false)
  | some E =>
    match ls.getItem .database with
    | some (c :: cs) =>
      match env.bytesOfJson (c :: cs) with
      | none => (initFallbackStorage m ls, false)
      | some bytes =>
        match E.openBytes bytes with
        | none => (initFallbackStorage m ls, false)
        | some d => (({ db := some d, isInitialized := true }, ls), true)
    | _ =>
      match env.fetched.bind E.openBytes with
      | some d => (({ db := some d, isInitialized := true }, ls), true)
      | none =>
        match createTables E { m with db := some E.fresh } ls with
        | ((m2, ls2), true) => (initFallbackStorage m2 ls2, false)
        | ((m2, ls2), false) => (({ m2 with isInitialized := true }, ls2), true)

/-- `DatabaseFileHandler.importDatabase(event)`, db-handler.js 108-151, on the
manager's fields: `file` is `event.target.files[0]` read as bytes, `engine`
is `window.SQL`, loaded first when absent (`none` when loading fails). -/
def importDatabase {Db : Type} (file : Option (List Nat)) (engine : Option (SqlEngine Db))
    (m : Manager Db) : Manager Db :=
  match file with
  | none => m
  | some bytes =>
    match engine with
    | none => m
    | some E =>
      match E.openBytes bytes with
      | none => m
      | some newDb => { m with db := some newDb }

/-- A call of one of the ten facade methods. -/
inductive FacadeCall where
  | mutating (op : Op)
  | authenticateUser (email password : String)
  | getUserById (userId : Nat)
  | getAllPosts
  | getPostById (postId : Nat)
  | getCommentsByPostId (postId : Nat)
  | isPostLikedByUser (postId userId : Nat)

/-- The operations the program can perform on a `DatabaseManager` after
construction. -/
inductive ProgramOp (Db : Type) where
  | facade (c : FacadeCall)
  | saveDatabase
  | createTables
  | exportDatabase
  | autoSave
  | importDatabase (file : Option (List Nat)) (engine : Option (SqlEngine Db))

/-- Whether the operation is `importDatabase`. -/
def ProgramOp.isImport {Db : Type} : ProgramOp Db → Bool
  | .importDatabase _ _ => true
  | _ => false

/-- Effect of one operation on the manager's fields. A facade method never
assigns `this.db`: with `db` null it runs the fallback branch, otherwise it
changes the content of the database, given by `relational`. -/
def programStep {Db : Type} (E : SqlEngine Db) (relational : Db → FacadeCall → Db)
    (m : Manager Db) : ProgramOp Db → Manager Db
  | .facade c =>
    match m.db with
    | some d => { m with db := some (relational d c) }
    | none => m
  | .saveDatabase => m
  | .createTables =>
    match m.db with
    | some d => { m with db := some (execAll E d createTableStatements).1 }
    | none => m
  | .exportDatabase => m
  | .autoSave => m
  | .importDatabase file engine => importDatabase file engine m

/-- A stand-in engine whose databases are their bytes. -/
def bytesEngine : SqlEngine (List Nat) :=
  { openBytes := fun b => some b, fresh := [], exec := fun d _ => (d, false),
    exportBytes := fun d => d }

/-- The engine loads, localStorage holds a snapshot that is not JSON, and no
db.sqlite file is served. The decoder is consulted on the stored text only,
here `oops`, which `JSON.parse` rejects. -/
def corruptSnapshotEnv : InitEnv (List Nat) :=
  { sql := some bytesEngine, bytesOfJson := parseBytes, fetched := none }

/-- A localStorage whose snapshot slot holds the text `oops`. -/
def corruptSnapshotStorage : LocalStorage :=
  { database := some ['o', 'o', 'p', 's'], users := none, posts := none,
    comments := none, likes := none }

/-! ## Auxiliary definitions for the remaining fallback properties -/

/-- The name shown for a referenced user id: the placeholder when no stored
user has the id, the name of the first stored user with the id otherwise. -/
def ResolvesTo (users : List User) (id : Nat) (name : String) : Prop :=
  ((∀ u ∈ users, u.id ≠ id) → name = "Unknown User") ∧
  (∀ (l1 l2 : List User) (u : User), users = l1 ++ u :: l2 →
    (∀ w ∈ l1, w.id ≠ id) → u.id = id → name = u.name)

/-- A store with a post whose author is not stored, a comment by an unknown
user on an unknown post, and two users sharing id 1. -/
def danglingStore : Store :=
  ⟨[⟨1, "Alice", "alice@x.com", "h1", 1⟩, ⟨1, "Bob", "bob@x.com", "h2", 1⟩],
   [⟨5, "Intro", "text", "", none, none, none, 9, 5, 0⟩,
    ⟨6, "Second", "more", "", none, none, none, 1, 6, 2⟩],
   [⟨7, 6, 1, "hi", 7⟩, ⟨8, 6, 4, "anon", 8⟩],
   [⟨9, 6, 1, 9⟩, ⟨10, 6, 4, 10⟩]⟩

/-- Two users registered within one clock tick. -/
def sameTickPair : List Call :=
  [⟨.createUser "Alice" "alice@x.com" "h1", 1, 1⟩,
   ⟨.createUser "Bob" "bob@x.com" "h2", 1, 1⟩]

/-! ## `AuthManager.hashPassword` and `AuthManager.isValidEmail` (src/auth.js) -/

/-- A UTF-16 code unit, the value `charCodeAt` returns. -/
abbrev CodeUnit := Fin 65536

/-- `ToInt32`: the value modulo 2^32, mapped into [-2^31, 2^31 - 1]. -/
def toInt32 (x : Int) : Int :=
  if x % 2 ^ 32 < 2 ^ 31 then x % 2 ^ 32 else x % 2 ^ 32 - 2 ^ 32

/-- `hash << 5`: ToInt32 of the operand, shifted left by five bits within 32
bits. -/
def shiftLeft5 (h : Int) : Int := toInt32 (toInt32 h * 2 ^ 5)

/-- One iteration of the loop of `hashPassword` (auth.js 202-204):
`hash = ((hash << 5) - hash) + char; hash = hash & hash`. The subtraction and
the addition are on doubles and exact, all operands being below 2^33. -/
def hashStep (hash : Int) (char : CodeUnit) : Int :=
  let hash1 := (shiftLeft5 hash - hash) + ((char : Nat) : Int)
  toInt32 hash1

/-- The value of `hash` when the loop of `hashPassword` ends. -/
def hashValue (password : List CodeUnit) : Int := password.foldl hashStep 0

/-- `hashPassword(password)`, auth.js 198-207, on the code units of the
password: the loop followed by `hash.toString()`. -/
def hashPassword (password : List CodeUnit) : Text := printInt (hashValue password)

/-- The sum over i of c_i * 31^(n-1-i): each code unit weighted by 31 to the
number of code units after it. -/
def weightedSum : List CodeUnit → Int
  | [] => 0
  | c :: cs => ((c : Nat) : Int) * 31 ^ cs.length + weightedSum cs

/-- The characters the class `\s` of a JavaScript regular expression matches. -/
def isWhiteSpace (c : Char) : Bool :=
  c.toNat ∈ [0x09, 0x0a, 0x0b, 0x0c, 0x0d, 0x20, 0xa0, 0x1680, 0x2028, 0x2029, 0x202f,
    0x205f, 0x3000, 0xfeff] || (0x2000 ≤ c.toNat && c.toNat ≤ 0x200a)

/-- The distinctions the pattern of `isValidEmail` makes between characters. -/
inductive EmailChar where
  | space
  | atSign
  | dot
  | other
  deriving DecidableEq, Repr

/-- The class of a character. -/
def classify (c : Char) : EmailChar :=
  if isWhiteSpace c then .space
  else if c = '@' then .atSign
  else if c = '.' then .dot
  else .other

/-- The class `[^\s@]`. -/
def notSpaceAt : RegularExpression EmailChar :=
  RegularExpression.char .dot + RegularExpression.char .other

/-- The quantifier `+`: one or more. -/
def oneOrMore (r : RegularExpression EmailChar) : RegularExpression EmailChar :=
  r * RegularExpression.star r

/-- The pattern `/^[^\s@]+@[^\s@]+\.[^\s@]+$/` (auth.js 210) over character
classes; the anchors make `test` a match of the whole string. -/
def emailRegex : RegularExpression EmailChar :=
  oneOrMore notSpaceAt * RegularExpression.char .atSign * oneOrMore notSpaceAt *
    RegularExpression.char .dot * oneOrMore notSpaceAt

/-- `isValidEmail(email)`, auth.js 209-212. -/
def isValidEmail (email : Text) : Bool :=
  emailRegex.rmatch (email.map classify)

/-- The classes of characters that `[^\s@]` matches. -/
def Plain (a : EmailChar) : Prop := a = .dot ∨ a = .other

/-! ## The relational branch of `toggleLike` and `authenticateUser` -/

/-- A value bound to a statement parameter or read from a column: the
`SqlValue` of sql.js restricted to integers, text and NULL. -/
inductive SqlValue where
  | int (n : Int)
  | text (s : String)
  | null
  deriving DecidableEq, Repr

/-- The statement interface of sql.js as the facade uses it; the engine is an
external library, so it is a parameter. `get` stands for
`db.prepare(sql)` followed by `stmt.get(params)`: sql.js binds the
parameters, steps once and returns the current row as an array with one
value per column, which is the empty array when the step produced no row.
`run` stands for `db.prepare(sql)` followed by `stmt.run(params)`. An
`error` carries the message of the exception thrown. -/
structure SqlStatements (Db : Type) where
  get : Db → String → List SqlValue → Except String (List SqlValue)
  run : Db → String → List SqlValue → Except String Db

/-- JavaScript `ToBoolean` of an array: every object is truthy, the empty
array included. -/
def arrayTruthy (_ : List SqlValue) : Bool := true

/-- The query of database.js 416. -/
def selectLikeSql : String := "SELECT id FROM likes WHERE post_id = ? AND user_id = ?"

/-- The statement of database.js 422. -/
def deleteLikeSql : String := "DELETE FROM likes WHERE post_id = ? AND user_id = ?"

/-- The statement of database.js 427. -/
def decrementLikesSql : String :=
  "UPDATE posts SET likes_count = likes_count - 1 WHERE id = ?"

/-- The statement of database.js 435. -/
def insertLikeSql : String := "INSERT INTO likes (post_id, user_id) VALUES (?, ?)"

/-- The statement of database.js 440. -/
def incrementLikesSql : String :=
  "UPDATE posts SET likes_count = likes_count + 1 WHERE id = ?"

/-- The query of database.js 188. -/
def selectUserSql : String := "SELECT * FROM users WHERE email = ? AND password = ?"

/-- `toggleLike(postId, userId)`, relational branch, database.js 414-449:
the database afterwards and the object returned. An exception at any
statement is caught and reported; the statements before it keep their
effect. The snapshot written by `saveDatabase` is not part of the result. -/
def Relational.toggleLike {Db : Type} (Q : SqlStatements Db) (db : Db)
    (postId userId : Nat) : Db × Reply :=
  match Q.get db selectLikeSql [.int postId, .int userId] with
  | .error e => (db, { success := false, error := some e })
  | .ok existingLike =>
    if arrayTruthy existingLike then
      match Q.run db deleteLikeSql [.int postId, .int userId] with
      | .error e => (db, { success := false, error := some e })
      | .ok db1 =>
        match Q.run db1 decrementLikesSql [.int postId] with
        | .error e => (db1, { success := false, error := some e })
        | .ok db2 => (db2, { success := true, liked := some false })
    else
      match Q.run db insertLikeSql [.int postId, .int userId] with
      | .error e => (db, { success := false, error := some e })
      | .ok db1 =>
        match Q.run db1 incrementLikesSql [.int postId] with
        | .error e => (db1, { success := false, error := some e })
        | .ok db2 => (db2, { success := true, liked := some true })

/-- `authenticateUser(email, password)`, relational branch, database.js
187-195: `result || null`, where `none` is `null` and `some row` is the array
returned by `stmt.get`. -/
def Relational.authenticateUser {Db : Type} (Q : SqlStatements Db) (db : Db)
    (email password : String) : Option (List SqlValue) :=
  match Q.get db selectUserSql [.text email, .text password] with
  | .error _ => none
  | .ok result => if arrayTruthy result then some result else none

/-- The row of a stored user as `SELECT *` returns it. -/
def userRow (u : User) : List SqlValue :=
  [.int u.id, .text u.name, .text u.email, .text u.password, .int u.created_at]

/-- The six statements above over tables held as lists of rows, following
SQLite: the lookups return the first matching row or no row, DELETE removes
every matching row, UPDATE changes every row with the id, INSERT appends a
row with the next id unless the pair is already present. `now` is
CURRENT_TIMESTAMP. -/
def tableStatements (now : Nat) : SqlStatements Store where
  get db sql params :=
    if sql = selectLikeSql then
      match params with
      | [.int p, .int u] =>
        match db.likes.find? (fun l => (l.post_id : Int) = p ∧ (l.user_id : Int) = u) with
        | some l => .ok [.int l.id]
        | none => .ok []
      | _ => .error "Wrong number or type of bound values"
    else if sql = selectUserSql then
      match params with
      | [.text e, .text pw] =>
        match db.users.find? (fun u => u.email = e ∧ u.password = pw) with
        | some u => .ok (userRow u)
        | none => .ok []
      | _ => .error "Wrong number or type of bound values"
    else .error "statement not modelled"
  run db sql params :=
    if sql = deleteLikeSql then
      match params with
      | [.int p, .int u] =>
        .ok { db with likes :=
                db.likes.filter (fun l => ¬ ((l.post_id : Int) = p ∧ (l.user_id : Int) = u)) }
      | _ => .error "Wrong number or type of bound values"
    else if sql = decrementLikesSql then
      match params with
      | [.int p] =>
        .ok { db with posts := db.posts.map (fun q =>
                if (q.id : Int) = p then { q with likes_count := q.likes_count - 1 } else q) }
      | _ => .error "Wrong number or type of bound values"
    else if sql = incrementLikesSql then
      match params with
      | [.int p] =>
        .ok { db with posts := db.posts.map (fun q =>
                if (q.id : Int) = p then { q with likes_count := q.likes_count + 1 } else q) }
      | _ => .error "Wrong number or type of bound values"
    else if sql = insertLikeSql then
      match params with
      | [.int p, .int u] =>
        if db.likes.any (fun l => (l.post_id : Int) = p ∧ (l.user_id : Int) = u) then
          .error "UNIQUE constraint failed: likes.post_id, likes.user_id"
        else
          .ok { db with likes := db.likes ++
                  [⟨(db.likes.map (·.id)).foldl max 0 + 1, p.toNat, u.toNat, now⟩] }
      | _ => .error "Wrong number or type of bound values"
    else .error "statement not modelled"

/-- A database with two users, one post by the first and no Like. -/
def unlikedDb : Store :=
  ⟨[⟨1, "Alice", "alice@x.com", "h1", 100⟩, ⟨2, "Bob", "bob@x.com", "h2", 101⟩],
   [⟨1, "Intro", "text", "", none, none, none, 1, 102, 0⟩], [], []⟩

/-! ## Reading the collections back from their JSON text -/

/-- A parsed value read as a non-negative integer. -/
def asNat : Json → Option Nat
  | .num n => if 0 ≤ n then some n.toNat else none
  | _ => none

/-- A parsed value read as an integer. -/
def asInt : Json → Option Int
  | .num n => some n
  | _ => none

/-- A parsed value read as a string. -/
def asString : Json → Option String
  | .str s => some (String.mk s)
  | _ => none

/-- A parsed value read as a media payload: a string or `null`. -/
def asMedia : Json → Option (Option String)
  | .null => some none
  | .str s => some (some (String.mk s))
  | _ => none

/-- A parsed value read as a timestamp: a string that `unIso` reads back as
milliseconds (what `new Date(text)` does with an ISO text). -/
def asTime (unIso : Text → Option Nat) : Json → Option Nat
  | .str s => unIso s
  | _ => none

/-- The value of a member, provided its key is the expected one. -/
def expectKey (k : String) (kv : Text × Json) : Option Json :=
  if kv.1 = k.toList then some kv.2 else none

/-- A parsed object read as a user record: exactly the five members of
database.js 169-175, in that order. -/
def User.ofJson (unIso : Text → Option Nat) : Json → Option User
  | .obj [m1, m2, m3, m4, m5] => do
    let id ← (expectKey "id" m1).bind asNat
    let name ← (expectKey "name" m2).bind asString
    let email ← (expectKey "email" m3).bind asString
    let password ← (expectKey "password" m4).bind asString
    let created_at ← (expectKey "created_at" m5).bind (asTime unIso)
    pure { id := id, name := name, email := email, password := password,
           created_at := created_at }
  | _ => none

/-- A parsed object read as a post record: exactly the ten members of
database.js 248-259, in that order. -/
def Post.ofJson (unIso : Text → Option Nat) : Json → Option Post
  | .obj [m1, m2, m3, m4, m5, m6, m7, m8, m9, m10] => do
    let id ← (expectKey "id" m1).bind asNat
    let title ← (expectKey "title" m2).bind asString
    let description ← (expectKey "description" m3).bind asString
    let tags ← (expectKey "tags" m4).bind asString
    let image_data ← (expectKey "image_data" m5).bind asMedia
    let audio_data ← (expectKey "audio_data" m6).bind asMedia
    let video_data ← (expectKey "video_data" m7).bind asMedia
    let author_id ← (expectKey "author_id" m8).bind asNat
    let created_at ← (expectKey "created_at" m9).bind (asTime unIso)
    let likes_count ← (expectKey "likes_count" m10).bind asInt
    pure { id := id, title := title, description := description, tags := tags,
           image_data := image_data, audio_data := audio_data,
           video_data := video_data, author_id := author_id,
           created_at := created_at, likes_count := likes_count }
  | _ => none

/-- A parsed object read as a comment record: exactly the five members of
database.js 355-361, in that order. -/
def Comment.ofJson (unIso : Text → Option Nat) : Json → Option Comment
  | .obj [m1, m2, m3, m4, m5] => do
    let id ← (expectKey "id" m1).bind asNat
    let post_id ← (expectKey "post_id" m2).bind asNat
    let user_id ← (expectKey "user_id" m3).bind asNat
    let content ← (expectKey "content" m4).bind asString
    let created_at ← (expectKey "created_at" m5).bind (asTime unIso)
    pure { id := id, post_id := post_id, user_id := user_id, content := content,
           created_at := created_at }
  | _ => none

/-- A parsed object read as a like record: exactly the four members of
database.js 469-474, in that order. -/
def Like.ofJson (unIso : Text → Option Nat) : Json → Option Like
  | .obj [m1, m2, m3, m4] => do
    let id ← (expectKey "id" m1).bind asNat
    let post_id ← (expectKey "post_id" m2).bind asNat
    let user_id ← (expectKey "user_id" m3).bind asNat
    let created_at ← (expectKey "created_at" m4).bind (asTime unIso)
    pure { id := id, post_id := post_id, user_id := user_id, created_at := created_at }
  | _ => none

/-- The elements of a parsed array read one by one; one unreadable element
makes the whole array unreadable. -/
def readAll {α : Type} (f : Json → Option α) : List Json → Option (List α)
  | [] => some []
  | x :: xs =>
    match f x, readAll f xs with
    | some a, some l => some (a :: l)
    | _, _ => none

/-- `JSON.parse(text)` read as a list of records. -/
def readCollection {α : Type} (f : Json → Option α) (text : Text) : Option (List α) :=
  match parse text with
  | some (.arr xs) => readAll f xs
  | _ => none

/-- `JSON.stringify(users)`, the text written under `roklearn_users`. -/
def stringifyUsers (iso : Nat → Text) (users : List User) : Text :=
  stringify (.arr (users.map (User.toJson iso)))

/-- `JSON.stringify(posts)`, the text written under `roklearn_posts`. -/
def stringifyPosts (iso : Nat → Text) (posts : List Post) : Text :=
  stringify (.arr (posts.map (Post.toJson iso)))

/-- `JSON.stringify(comments)`, the text written under `roklearn_comments`. -/
def stringifyComments (iso : Nat → Text) (comments : List Comment) : Text :=
  stringify (.arr (comments.map (Comment.toJson iso)))

/-- `JSON.stringify(likes)`, the text written under `roklearn_likes`. -/
def stringifyLikes (iso : Nat → Text) (likes : List Like) : Text :=
  stringify (.arr (likes.map (Like.toJson iso)))

/-- Reading back the rendering `isoDigits`: a decimal literal and nothing
after it. -/
def unIsoDigits (t : Text) : Option Nat :=
  match parseNat t with
  | some (n, []) => some n
  | _ => none

/-- A user, two posts (one with an image), overlapping likes and a comment. -/
def busyTrace : List Call :=
  [⟨.createUser "Alice" "alice@x.com" "h1", 1, 1⟩,
   ⟨.createPost "Intro" "a \"quoted\" text" "" none none none 1, 10, 10⟩,
   ⟨.createPost "Second" "line\nbreak" "a,b" (some "data:image/png;base64,AA==") none none 1,
     11, 11⟩,
   ⟨.toggleLike 10 1, 12, 12⟩,
   ⟨.toggleLike 10 2, 13, 13⟩,
   ⟨.toggleLike 11 1, 14, 14⟩,
   ⟨.addComment 10 1 "Nice post", 15, 15⟩]

/-- When no stored user is named like the placeholder, the name shown is the
placeholder exactly when no stored user has the referenced id. -/
def PlaceholderExactly (users : List User) (id : Nat) (name : String) : Prop :=
  (∀ u ∈ users, u.name ≠ "Unknown User") →
    (name = "Unknown User" ↔ ∀ u ∈ users, u.id ≠ id)

/-- A user registered under the name 'Unknown User' who writes a post and
comments on it. -/
def placeholderNamed : List Call :=
  [⟨.createUser "Unknown User" "u@x.com" "h1", 1, 1⟩,
   ⟨.createPost "Intro" "text" "" none none none 1, 5, 5⟩,
   ⟨.addComment 5 1 "hi", 6, 6⟩]

/-! # Theorems -/

/-! ## Lemmas on the array primitives -/

theorem orZero_eq (x : Int) : orZero x = x := by
  unfold orZero
  split <;> simp_all

theorem findIndex_eq_none {α : Type} (p : α → Bool) (l : List α) :
    findIndex p l = none ↔ ∀ a ∈ l, p a = false := by
  induction l with
  | nil => simp [findIndex]
  | cons a l ih =>
    by_cases h : p a = true
    · simp [findIndex, h]
    · simp [findIndex, h, ih]

theorem any_eq_isSome_findIndex {α : Type} (p : α → Bool) (l : List α) :
    l.any p = (findIndex p l).isSome := by
  induction l with
  | nil => simp [findIndex]
  | cons a l ih =>
    by_cases h : p a = true
    · simp [findIndex, h]
    · simp [findIndex, h, ih]

theorem eraseIdx_findIndex {α : Type} (p : α → Bool) (l : List α) (i : Nat)
    (h : findIndex p l = some i) : l.eraseIdx i = l.eraseP p := by
  induction l generalizing i with
  | nil => simp [findIndex] at h
  | cons a l ih =>
    by_cases hp : p a = true
    · simp [findIndex, hp] at h
      subst h
      simp [List.eraseP_cons, hp]
    · simp [findIndex, hp] at h
      obtain ⟨j, hj, rfl⟩ := h
      simp [List.eraseP_cons, hp, ih j hj]

theorem updateAt_findIndex {α : Type} (p : α → Bool) (f : α → α) (l : List α) :
    (match findIndex p l with
      | some j => updateAt f j l
      | none => l) = updFirst p f l := by
  induction l with
  | nil => simp [findIndex, updFirst]
  | cons a l ih =>
    by_cases hp : p a = true
    · simp [findIndex, hp, updFirst, updateAt]
    · simp only [findIndex, hp, updFirst]
      rw [← ih]
      cases findIndex p l <;> simp [updateAt]

/-! ## Closed forms of `toggleLike` -/

theorem toggleLike_liked (s : Store) (p u now ts : Nat)
    (h : isPostLikedByUser s p u = true) :
    toggleLike s p u now ts =
      ({ s with likes := s.likes.eraseP (likeMatches p u),
                posts := updFirst (fun q => q.id == p) decLikes s.posts },
       { success := true, liked := some false }) := by
  unfold isPostLikedByUser at h
  rw [any_eq_isSome_findIndex] at h
  obtain ⟨i, hi⟩ := Option.isSome_iff_exists.mp h
  rw [← updateAt_findIndex (fun q : Post => q.id == p) decLikes s.posts]
  simp only [toggleLike, hi, eraseIdx_findIndex _ _ _ hi]
  rfl

theorem toggleLike_not_liked (s : Store) (p u now ts : Nat)
    (h : isPostLikedByUser s p u = false) :
    toggleLike s p u now ts =
      ({ s with likes := s.likes ++ [⟨now, p, u, ts⟩],
                posts := updFirst (fun q => q.id == p) incLikes s.posts },
       { success := true, liked := some true }) := by
  unfold isPostLikedByUser at h
  rw [any_eq_isSome_findIndex] at h
  have hi : findIndex (likeMatches p u) s.likes = none := by
    cases hf : findIndex (likeMatches p u) s.likes with
    | none => rfl
    | some i => simp [hf] at h
  rw [← updateAt_findIndex (fun q : Post => q.id == p) incLikes s.posts]
  simp only [toggleLike, hi]
  rfl

/-! ## Lemmas on `updFirst` and `eraseP` -/

theorem map_updFirst {α β : Type} (p : α → Bool) (f : α → α) (g : α → β)
    (hg : ∀ a, g (f a) = g a) (l : List α) :
    (updFirst p f l).map g = l.map g := by
  induction l with
  | nil => rfl
  | cons a l ih =>
    by_cases hp : p a = true
    · simp [updFirst, hp, hg]
    · simp [updFirst, hp, ih]

theorem find_updFirst {α : Type} (p : α → Bool) (f : α → α)
    (hp : ∀ a, p (f a) = p a) (l : List α) :
    (updFirst p f l).find? p = (l.find? p).map f := by
  induction l with
  | nil => rfl
  | cons a l ih =>
    by_cases h : p a = true
    · simp [updFirst, h, hp]
    · simp [updFirst, h, ih]

theorem updFirst_of_none {α : Type} (p : α → Bool) (f : α → α) (l : List α)
    (h : l.find? p = none) : updFirst p f l = l := by
  induction l with
  | nil => rfl
  | cons a l ih =>
    by_cases hp : p a = true
    · simp [hp] at h
    · simp [hp] at h
      simp [updFirst, hp]
      exact ih (by simpa using h)

theorem mem_updFirst_nodup (pid : Nat) (f : Post → Post) (l : List Post)
    (hnd : (l.map (·.id)).Nodup) (q : Post)
    (hq : q ∈ updFirst (fun x => x.id == pid) f l) :
    (q.id ≠ pid ∧ q ∈ l) ∨ (∃ x ∈ l, x.id = pid ∧ q = f x) := by
  induction l with
  | nil => simp [updFirst] at hq
  | cons a l ih =>
    rw [List.map_cons, List.nodup_cons] at hnd
    by_cases hp : a.id = pid
    · have hb : (a.id == pid) = true := by simpa using hp
      simp only [updFirst, hb, if_true, List.mem_cons] at hq
      rcases hq with rfl | hq
      · exact Or.inr ⟨a, List.mem_cons_self _ _, hp, rfl⟩
      · refine Or.inl ⟨?_, List.mem_cons_of_mem _ hq⟩
        intro hqid
        exact hnd.1 (List.mem_map.mpr ⟨q, hq, by rw [hqid, hp]⟩)
    · have hb : (a.id == pid) = false := by simpa using hp
      simp only [updFirst, hb, Bool.false_eq_true, if_false, List.mem_cons] at hq
      rcases hq with rfl | hq
      · exact Or.inl ⟨hp, List.mem_cons_self _ _⟩
      · rcases ih hnd.2 hq with ⟨h1, h2⟩ | ⟨x, hx, hxp, rfl⟩
        · exact Or.inl ⟨h1, List.mem_cons_of_mem _ h2⟩
        · exact Or.inr ⟨x, List.mem_cons_of_mem _ hx, hxp, rfl⟩

theorem countP_eraseP_of_not {α : Type} (q m : α → Bool) (l : List α)
    (h : ∀ a ∈ l, m a = true → q a = false) :
    (l.eraseP m).countP q = l.countP q := by
  induction l with
  | nil => rfl
  | cons a l ih =>
    have ih1 := ih (fun b hb => h b (List.mem_cons_of_mem _ hb))
    by_cases hm : m a = true
    · have hqa := h a (List.mem_cons_self _ _) hm
      simp [List.eraseP_cons, hm, List.countP_cons, hqa]
    · simp [List.eraseP_cons, hm, List.countP_cons, ih1]

theorem countP_eraseP_of_imp {α : Type} (q m : α → Bool) (l : List α)
    (h : ∀ a ∈ l, m a = true → q a = true) (hex : l.any m = true) :
    (l.eraseP m).countP q + 1 = l.countP q := by
  induction l with
  | nil => simp at hex
  | cons a l ih =>
    by_cases hm : m a = true
    · have hqa := h a (List.mem_cons_self _ _) hm
      simp [List.eraseP_cons, hm, List.countP_cons, hqa]
    · have hex1 : l.any m = true := by simpa [hm] using hex
      have ih1 := ih (fun b hb => h b (List.mem_cons_of_mem _ hb)) hex1
      by_cases hqa : q a = true
      · simp [List.eraseP_cons, hm, List.countP_cons, hqa]
        omega
      · simp [List.eraseP_cons, hm, List.countP_cons, hqa]
        omega

/-! ## Frame lemmas: what each method leaves alone -/

theorem createUser_frame (s : Store) (n e p : String) (now ts : Nat) :
    (createUser s n e p now ts).1.posts = s.posts ∧
    (createUser s n e p now ts).1.likes = s.likes ∧
    (createUser s n e p now ts).1.comments = s.comments := by
  unfold createUser
  split <;> simp

theorem toggleLike_users (s : Store) (p u now ts : Nat) :
    (toggleLike s p u now ts).1.users = s.users := by
  cases h : isPostLikedByUser s p u
  · rw [toggleLike_not_liked s p u now ts h]
  · rw [toggleLike_liked s p u now ts h]

theorem toggleLike_comments (s : Store) (p u now ts : Nat) :
    (toggleLike s p u now ts).1.comments = s.comments := by
  cases h : isPostLikedByUser s p u
  · rw [toggleLike_not_liked s p u now ts h]
  · rw [toggleLike_liked s p u now ts h]

theorem mem_updFirst {α : Type} (p : α → Bool) (f : α → α) (l : List α) (q : α)
    (hq : q ∈ updFirst p f l) : q ∈ l ∨ ∃ x ∈ l, p x = true ∧ q = f x := by
  induction l with
  | nil => simp [updFirst] at hq
  | cons a l ih =>
    by_cases hp : p a = true
    · simp only [updFirst, hp, if_true, List.mem_cons] at hq
      rcases hq with rfl | hq
      · exact Or.inr ⟨a, List.mem_cons_self _ _, hp, rfl⟩
      · exact Or.inl (List.mem_cons_of_mem _ hq)
    · rw [updFirst, if_neg hp, List.mem_cons] at hq
      rcases hq with rfl | hq
      · exact Or.inl (List.mem_cons_self _ _)
      · rcases ih hq with h | ⟨x, hx, hpx, rfl⟩
        · exact Or.inl (List.mem_cons_of_mem _ h)
        · exact Or.inr ⟨x, List.mem_cons_of_mem _ hx, hpx, rfl⟩

/-! ## Invariants of sequential executions -/

theorem run_nil (s : Store) : run s [] = s := rfl

theorem run_cons (s : Store) (c : Call) (cs : List Call) :
    run s (c :: cs) = run (step s c) cs := rfl

theorem run_append (s : Store) (cs ds : List Call) :
    run s (cs ++ ds) = run (run s cs) ds := by
  simp [run, List.foldl_append]

theorem run_invariant (I : Store → Prop) (hstep : ∀ s c, I s → I (step s c))
    (calls : List Call) (s : Store) (h : I s) : I (run s calls) := by
  induction calls generalizing s with
  | nil => exact h
  | cons c cs ih => exact ih (step s c) (hstep s c h)

theorem step_likesUnique (s : Store) (c : Call) (h : LikesUnique s) :
    LikesUnique (step s c) := by
  unfold LikesUnique at *
  obtain ⟨op, now, ts⟩ := c
  cases op with
  | createUser n e p =>
    simp only [step]
    rw [(createUser_frame s n e p now ts).2.1]
    exact h
  | createPost t d g i a v au => exact h
  | addComment p u x => exact h
  | toggleLike p u =>
    simp only [step]
    cases hl : isPostLikedByUser s p u
    · rw [toggleLike_not_liked s p u now ts hl]
      simp only [List.map_append, List.map_cons, List.map_nil]
      rw [List.nodup_append]
      refine ⟨h, List.nodup_singleton _, ?_⟩
      intro a ha hb
      rw [List.mem_singleton] at hb
      subst hb
      obtain ⟨l, hlmem, hleq⟩ := List.mem_map.mp ha
      have hno : ∀ x ∈ s.likes, likeMatches p u x = false := by
        simpa [isPostLikedByUser] using hl
      have := hno l hlmem
      simp only [Prod.mk.injEq] at hleq
      simp [likeMatches, hleq.1, hleq.2] at this
    · rw [toggleLike_liked s p u now ts hl]
      exact h.sublist ((List.eraseP_sublist _).map _)

theorem step_countsNonneg (s : Store) (c : Call) (h : CountsNonneg s) :
    CountsNonneg (step s c) := by
  unfold CountsNonneg at *
  obtain ⟨op, now, ts⟩ := c
  cases op with
  | createUser n e p =>
    simp only [step]
    rw [(createUser_frame s n e p now ts).1]
    exact h
  | createPost t d g i a v au =>
    intro P hP
    simp only [step, createPost, List.mem_cons] at hP
    rcases hP with rfl | hP
    · exact le_refl _
    · exact h P hP
  | addComment p u x => exact h
  | toggleLike p u =>
    simp only [step]
    intro P hP
    cases hl : isPostLikedByUser s p u
    · rw [toggleLike_not_liked s p u now ts hl] at hP
      rcases mem_updFirst _ _ _ _ hP with hP | ⟨x, hx, _, rfl⟩
      · exact h P hP
      · have := h x hx
        simp only [incLikes, orZero_eq]
        omega
    · rw [toggleLike_liked s p u now ts hl] at hP
      rcases mem_updFirst _ _ _ _ hP with hP | ⟨x, hx, _, rfl⟩
      · exact h P hP
      · simp only [decLikes]
        exact le_max_left _ _

theorem step_emailsUnique (s : Store) (c : Call) (h : EmailsUnique s) :
    EmailsUnique (step s c) := by
  unfold EmailsUnique at *
  obtain ⟨op, now, ts⟩ := c
  cases op with
  | createUser n e p =>
    simp only [step, createUser]
    cases hf : s.users.find? (fun u => u.email == e) with
    | some u => exact h
    | none =>
      simp only [List.map_append, List.map_cons, List.map_nil]
      rw [List.nodup_append]
      refine ⟨h, List.nodup_singleton _, ?_⟩
      intro a ha hb
      rw [List.mem_singleton] at hb
      subst hb
      obtain ⟨v, hv, hve⟩ := List.mem_map.mp ha
      have := List.find?_eq_none.mp hf v hv
      simp [hve] at this
  | createPost t d g i a v au => exact h
  | addComment p u x => exact h
  | toggleLike p u =>
    simp only [step]
    rw [toggleLike_users]
    exact h

theorem likesUnique_empty : LikesUnique Store.empty := List.nodup_nil

theorem countsNonneg_empty : CountsNonneg Store.empty := by
  intro P hP
  simp [Store.empty] at hP

theorem emailsUnique_empty : EmailsUnique Store.empty := List.nodup_nil

/-! ## Counter consistency -/

theorem counted_empty : Counted Store.empty := by
  refine ⟨List.nodup_nil, ?_⟩
  intro P hP
  simp [Store.empty] at hP

theorem step_counted (s : Store) (c : Call) (h : Counted s)
    (hf : freshPostId s c = true) : Counted (step s c) := by
  obtain ⟨hnd, hcnt⟩ := h
  obtain ⟨op, now, ts⟩ := c
  cases op with
  | createUser n e p =>
    unfold Counted likesOf
    simp only [step]
    rw [(createUser_frame s n e p now ts).1, (createUser_frame s n e p now ts).2.1]
    exact ⟨hnd, hcnt⟩
  | addComment p u x => exact ⟨hnd, hcnt⟩
  | createPost t d g i a v au =>
    simp only [freshPostId, Bool.and_eq_true, List.all_eq_true, bne_iff_ne, ne_eq] at hf
    obtain ⟨hfp, hfl⟩ := hf
    refine ⟨?_, ?_⟩
    · simp only [step, createPost, List.map_cons, List.nodup_cons]
      refine ⟨?_, hnd⟩
      intro hmem
      obtain ⟨P, hP, hPid⟩ := List.mem_map.mp hmem
      exact hfp P hP hPid
    · intro P hP
      simp only [step, createPost, List.mem_cons] at hP
      rcases hP with rfl | hP
      · simp only [likesOf, step, createPost]
        have : s.likes.countP (fun l => l.post_id == now) = 0 := by
          rw [List.countP_eq_zero]
          intro l hl
          simpa using hfl l hl
        simp [this]
      · exact hcnt P hP
  | toggleLike p u =>
    simp only [step]
    cases hl : isPostLikedByUser s p u
    · rw [toggleLike_not_liked s p u now ts hl]
      refine ⟨?_, ?_⟩
      · simp only
        rw [map_updFirst _ incLikes (·.id) (fun a => rfl)]
        exact hnd
      · intro P hP
        simp only [likesOf, List.countP_append]
        rcases mem_updFirst_nodup p incLikes s.posts hnd P hP with ⟨hne, hP⟩ | ⟨x, hx, hxp, rfl⟩
        · have := hcnt P hP
          simp only [likesOf] at this
          have hb : (p == P.id) = false := by simpa using fun h => hne h.symm
          simp [List.countP_cons, hb, this]
        · have := hcnt x hx
          simp only [likesOf] at this
          simp [incLikes, orZero_eq, List.countP_cons, hxp, this]
    · rw [toggleLike_liked s p u now ts hl]
      refine ⟨?_, ?_⟩
      · simp only
        rw [map_updFirst _ decLikes (·.id) (fun a => rfl)]
        exact hnd
      · intro P hP
        simp only [likesOf]
        rcases mem_updFirst_nodup p decLikes s.posts hnd P hP with ⟨hne, hP⟩ | ⟨x, hx, hxp, rfl⟩
        · have := hcnt P hP
          simp only [likesOf] at this
          rw [countP_eraseP_of_not, this]
          intro a _ hm
          simp only [likeMatches, Bool.and_eq_true, beq_iff_eq] at hm
          simp only [beq_eq_false_iff_ne, ne_eq]
          intro h
          exact hne (h.symm.trans hm.1)
        · have := hcnt x hx
          simp only [likesOf] at this
          have hdec : (decLikes x).id = x.id := rfl
          have hc := countP_eraseP_of_imp (fun l : Like => l.post_id == x.id)
            (likeMatches p u) s.likes
            (by
              intro a _ hm
              simp only [likeMatches, Bool.and_eq_true, beq_iff_eq] at hm
              simp [hm.1, hxp])
            hl
          rw [hdec]
          simp only [decLikes, orZero_eq, this]
          omega

theorem run_counted (calls : List Call) (s : Store) (h : Counted s)
    (hf : freshPostIds s calls = true) : Counted (run s calls) := by
  induction calls generalizing s with
  | nil => exact h
  | cons c cs ih =>
    simp only [freshPostIds, Bool.and_eq_true] at hf
    exact ih (step s c) (step_counted s c h hf.1) hf.2

/-! ## Claims on likes -/

/-- C1 (counterexample): after toggleLike(7, 1) on the empty store and a
createPost that reads clock value 7, the stored post has likes_count 0 while
one stored Like references its id. -/
theorem likes_count_mismatch :
    ∃ P ∈ (run Store.empty likeBeforePost).posts,
      P.likes_count = 0 ∧ likesOf (run Store.empty likeBeforePost) P.id = 1 := by
  decide

/-- C1 (amended): in every state reached from the empty store by a sequence
of createUser, createPost, addComment and toggleLike calls in which each
createPost draws an id carried by no stored post and referenced by no stored
Like, every stored post's likes_count equals the number of stored Like
records whose post_id is that post's id. -/
theorem likes_count_eq_likesOf (calls : List Call)
    (hf : freshPostIds Store.empty calls = true) :
    ∀ P ∈ (run Store.empty calls).posts,
      P.likes_count = (likesOf (run Store.empty calls) P.id : Int) :=
  (run_counted calls Store.empty counted_empty hf).2

theorem likes_count_eq_likesOf_witness :
    freshPostIds Store.empty likedTwice = true ∧
    ∀ P ∈ (run Store.empty likedTwice).posts,
      P.likes_count = (likesOf (run Store.empty likedTwice) P.id : Int) :=
  ⟨by decide, likes_count_eq_likesOf likedTwice (by decide)⟩

/-- C2: in every state reached from the empty store by sequentially executed
facade operations, no two Like records carry the same (post_id, user_id)
pair. -/
theorem likes_pairs_nodup (calls : List Call) :
    ((run Store.empty calls).likes.map (fun l => (l.post_id, l.user_id))).Nodup :=
  run_invariant LikesUnique step_likesUnique calls Store.empty likesUnique_empty

/-! ## Behaviour of one toggle -/

theorem toggleLike_reply (s : Store) (p u now ts : Nat) :
    (toggleLike s p u now ts).2 =
      { success := true, liked := some (!isPostLikedByUser s p u) } := by
  cases h : isPostLikedByUser s p u
  · rw [toggleLike_not_liked s p u now ts h]; rfl
  · rw [toggleLike_liked s p u now ts h]; rfl

theorem any_eraseP_of_nodup (p u : Nat) (l : List Like)
    (hnd : (l.map (fun x => (x.post_id, x.user_id))).Nodup) :
    (l.eraseP (likeMatches p u)).any (likeMatches p u) = false := by
  induction l with
  | nil => rfl
  | cons a l ih =>
    rw [List.map_cons, List.nodup_cons] at hnd
    by_cases hm : likeMatches p u a = true
    · rw [List.eraseP_cons]
      simp only [hm, cond_true]
      rw [List.any_eq_false]
      intro b hb hmb
      apply hnd.1
      refine List.mem_map.mpr ⟨b, hb, ?_⟩
      simp only [likeMatches, Bool.and_eq_true, beq_iff_eq] at hm hmb
      rw [hm.1, hm.2, hmb.1, hmb.2]
    · have hm2 : likeMatches p u a = false := by simpa using hm
      rw [List.eraseP_cons]
      simp only [hm2, cond_false, List.any_cons, Bool.false_or]
      exact ih hnd.2

theorem toggleLike_flips (s : Store) (hJ : LikesUnique s) (p u now ts : Nat) :
    isPostLikedByUser (toggleLike s p u now ts).1 p u = !isPostLikedByUser s p u := by
  cases h : isPostLikedByUser s p u
  · rw [toggleLike_not_liked s p u now ts h]
    simp [isPostLikedByUser, likeMatches]
  · rw [toggleLike_liked s p u now ts h]
    exact any_eraseP_of_nodup p u s.likes hJ

theorem toggleLike_find (s : Store) (p u now ts : Nat) :
    (toggleLike s p u now ts).1.posts.find? (fun q => q.id == p) =
      (s.posts.find? (fun q => q.id == p)).map
        (if isPostLikedByUser s p u then decLikes else incLikes) := by
  cases h : isPostLikedByUser s p u
  · rw [toggleLike_not_liked s p u now ts h]
    simpa using find_updFirst (fun q : Post => q.id == p) incLikes (fun a => rfl) s.posts
  · rw [toggleLike_liked s p u now ts h]
    simpa using find_updFirst (fun q : Post => q.id == p) decLikes (fun a => rfl) s.posts

theorem decLikes_incLikes (P : Post) (h : 0 ≤ P.likes_count) :
    decLikes (incLikes P) = P := by
  cases P
  simp only [decLikes, incLikes, orZero_eq] at *
  congr
  omega

theorem incLikes_decLikes (P : Post) (h : 1 ≤ P.likes_count) :
    incLikes (decLikes P) = P := by
  cases P
  simp only [decLikes, incLikes, orZero_eq] at *
  congr
  omega

theorem reachable_likesUnique (calls : List Call) : LikesUnique (run Store.empty calls) :=
  run_invariant LikesUnique step_likesUnique calls Store.empty likesUnique_empty

theorem reachable_countsNonneg (calls : List Call) : CountsNonneg (run Store.empty calls) :=
  run_invariant CountsNonneg step_countsNonneg calls Store.empty countsNonneg_empty

theorem reachable_emailsUnique (calls : List Call) : EmailsUnique (run Store.empty calls) :=
  run_invariant EmailsUnique step_emailsUnique calls Store.empty emailsUnique_empty

/-- C3 (counterexample): two posts created in one clock tick share id 5;
toggleLike(5, 1) raises the counter of the first element of the posts
collection only, so the other stored post with id 5, on which user 1 has no
Like either, keeps likes_count 0. -/
theorem toggle_misses_second_post :
    (run Store.empty twoPostsOneTick).posts.map (fun P => (P.id, P.title, P.likes_count))
        = [(5, "B", 0), (5, "A", 0)] ∧
    isPostLikedByUser (run Store.empty twoPostsOneTick) 5 1 = false ∧
    (toggleLike (run Store.empty twoPostsOneTick) 5 1 6 6).1.posts.map
        (fun P => (P.id, P.title, P.likes_count)) = [(5, "B", 1), (5, "A", 0)] := by
  decide

/-- C3 (amended): in every state reached from the empty store, for every
post id p whose first stored post is P and every user id u with no Like on
(p, u): toggleLike(p, u) returns success true and liked true, makes the first
stored post with id p equal to P with likes_count raised by exactly 1 and
makes isPostLikedByUser(p, u) true; a second toggleLike(p, u) returns success
true and liked false, brings that post back to P (likes_count lowered by
exactly 1) and makes isPostLikedByUser(p, u) false. -/
theorem toggle_twice_on_first_post (calls : List Call) (p u now ts now2 ts2 : Nat)
    (P : Post)
    (hP : (run Store.empty calls).posts.find? (fun q => q.id == p) = some P)
    (hno : isPostLikedByUser (run Store.empty calls) p u = false) :
    (toggleLike (run Store.empty calls) p u now ts).2
        = { success := true, liked := some true } ∧
    (toggleLike (run Store.empty calls) p u now ts).1.posts.find? (fun q => q.id == p)
        = some { P with likes_count := P.likes_count + 1 } ∧
    isPostLikedByUser (toggleLike (run Store.empty calls) p u now ts).1 p u = true ∧
    (toggleLike (toggleLike (run Store.empty calls) p u now ts).1 p u now2 ts2).2
        = { success := true, liked := some false } ∧
    (toggleLike (toggleLike (run Store.empty calls) p u now ts).1 p u now2 ts2).1.posts.find?
        (fun q => q.id == p) = some P ∧
    isPostLikedByUser
      (toggleLike (toggleLike (run Store.empty calls) p u now ts).1 p u now2 ts2).1 p u
        = false := by
  have hJ := reachable_likesUnique calls
  have hN := reachable_countsNonneg calls
  have hPmem : P ∈ (run Store.empty calls).posts := List.mem_of_find?_eq_some hP
  have hJ1 : LikesUnique (toggleLike (run Store.empty calls) p u now ts).1 :=
    step_likesUnique _ ⟨.toggleLike p u, now, ts⟩ hJ
  have h1 : isPostLikedByUser (toggleLike (run Store.empty calls) p u now ts).1 p u = true := by
    rw [toggleLike_flips _ hJ, hno]; rfl
  have hf1 : (toggleLike (run Store.empty calls) p u now ts).1.posts.find?
      (fun q => q.id == p) = some (incLikes P) := by
    rw [toggleLike_find, hP, hno]; rfl
  refine ⟨?_, ?_, h1, ?_, ?_, ?_⟩
  · rw [toggleLike_reply, hno]; rfl
  · rw [hf1]; simp [incLikes, orZero_eq]
  · rw [toggleLike_reply, h1]; rfl
  · rw [toggleLike_find, hf1, h1]
    simp only [if_true, Option.map_some']
    rw [decLikes_incLikes P (hN P hPmem)]
  · rw [toggleLike_flips _ hJ1, h1]; rfl

theorem toggle_twice_on_first_post_witness :
    (toggleLike (run Store.empty likedTwice) 10 7 20 20).2
        = { success := true, liked := some true } ∧
    (toggleLike (run Store.empty likedTwice) 10 7 20 20).1.posts.find? (fun q => q.id == 10)
        = some { (⟨10, "Intro", "text", "", none, none, none, 1, 10, 1⟩ : Post) with
                 likes_count := 1 + 1 } ∧
    isPostLikedByUser (toggleLike (run Store.empty likedTwice) 10 7 20 20).1 10 7 = true ∧
    (toggleLike (toggleLike (run Store.empty likedTwice) 10 7 20 20).1 10 7 21 21).2
        = { success := true, liked := some false } ∧
    (toggleLike (toggleLike (run Store.empty likedTwice) 10 7 20 20).1 10 7 21 21).1.posts.find?
        (fun q => q.id == 10) = some ⟨10, "Intro", "text", "", none, none, none, 1, 10, 1⟩ ∧
    isPostLikedByUser
      (toggleLike (toggleLike (run Store.empty likedTwice) 10 7 20 20).1 10 7 21 21).1 10 7
        = false :=
  toggle_twice_on_first_post likedTwice 10 7 20 20 21 21
    ⟨10, "Intro", "text", "", none, none, none, 1, 10, 1⟩ (by decide) (by decide)

/-! ## Repeated toggles -/

theorem updFirst_fix {α : Type} (p : α → Bool) (f : α → α) (l : List α)
    (h : ∀ a, l.find? p = some a → f a = a) : updFirst p f l = l := by
  induction l with
  | nil => rfl
  | cons a l ih =>
    by_cases hp : p a = true
    · rw [updFirst, if_pos hp, h a (by simp [hp])]
    · rw [updFirst, if_neg hp, ih]
      intro b hb
      exact h b (by simpa [hp] using hb)

theorem updFirst_updFirst {α : Type} (p : α → Bool) (f g : α → α)
    (hp : ∀ a, p (f a) = p a) (l : List α) :
    updFirst p g (updFirst p f l) = updFirst p (fun a => g (f a)) l := by
  induction l with
  | nil => rfl
  | cons a l ih =>
    by_cases h : p a = true
    · have hfa : p (f a) = true := by rw [hp, h]
      simp only [updFirst, h, if_true, hfa]
    · simp only [updFirst, h, if_false, ih]
      rfl

/-- Invariant carried through pairs of toggles on (p, u). -/
theorem toggle_pair_posts (s : Store) (p u now ts now2 ts2 : Nat)
    (hJ : LikesUnique s) (hN : CountsNonneg s)
    (hH : isPostLikedByUser s p u = true →
      ∀ P, s.posts.find? (fun q => q.id == p) = some P → 1 ≤ P.likes_count) :
    (toggleLike (toggleLike s p u now ts).1 p u now2 ts2).1.posts = s.posts ∧
    isPostLikedByUser (toggleLike (toggleLike s p u now ts).1 p u now2 ts2).1 p u
      = isPostLikedByUser s p u := by
  have hJ1 : LikesUnique (toggleLike s p u now ts).1 :=
    step_likesUnique s ⟨.toggleLike p u, now, ts⟩ hJ
  have hflip1 := toggleLike_flips s hJ p u now ts
  have hflip2 := toggleLike_flips _ hJ1 p u now2 ts2
  refine ⟨?_, by rw [hflip2, hflip1, Bool.not_not]⟩
  cases h : isPostLikedByUser s p u
  · have h1 : isPostLikedByUser (toggleLike s p u now ts).1 p u = true := by
      rw [hflip1, h]; rfl
    rw [toggleLike_liked _ p u now2 ts2 h1]
    rw [toggleLike_not_liked s p u now ts h]
    simp only
    rw [updFirst_updFirst (fun q : Post => q.id == p) incLikes decLikes (fun a => rfl)]
    apply updFirst_fix
    intro a ha
    exact decLikes_incLikes a (hN a (List.mem_of_find?_eq_some ha))
  · have h1 : isPostLikedByUser (toggleLike s p u now ts).1 p u = false := by
      rw [hflip1, h]; rfl
    rw [toggleLike_not_liked _ p u now2 ts2 h1]
    rw [toggleLike_liked s p u now ts h]
    simp only
    rw [updFirst_updFirst (fun q : Post => q.id == p) decLikes incLikes (fun a => rfl)]
    apply updFirst_fix
    intro a ha
    exact incLikes_decLikes a (hH h a ha)

theorem toggleLikeTimes_even (n : Nat) :
    ∀ (s : Store) (p u : Nat) (clocks : List (Nat × Nat)),
      clocks.length = 2 * n → LikesUnique s → CountsNonneg s →
      (isPostLikedByUser s p u = true →
        ∀ P, s.posts.find? (fun q => q.id == p) = some P → 1 ≤ P.likes_count) →
      (toggleLikeTimes s p u clocks).posts = s.posts := by
  induction n with
  | zero =>
    intro s p u clocks hlen _ _ _
    have : clocks = [] := List.length_eq_zero.mp (by simpa using hlen)
    subst this
    rfl
  | succ n ih =>
    intro s p u clocks hlen hJ hN hH
    match clocks, hlen with
    | c1 :: c2 :: rest, hlen =>
      obtain ⟨now, ts⟩ := c1
      obtain ⟨now2, ts2⟩ := c2
      have hpair := toggle_pair_posts s p u now ts now2 ts2 hJ hN hH
      have hJ1 : LikesUnique (toggleLike s p u now ts).1 :=
        step_likesUnique s ⟨.toggleLike p u, now, ts⟩ hJ
      have hJ2 : LikesUnique (toggleLike (toggleLike s p u now ts).1 p u now2 ts2).1 :=
        step_likesUnique _ ⟨.toggleLike p u, now2, ts2⟩ hJ1
      have hN2 : CountsNonneg (toggleLike (toggleLike s p u now ts).1 p u now2 ts2).1 := by
        intro P hP
        rw [hpair.1] at hP
        exact hN P hP
      have hlen2 : rest.length = 2 * n := by
        simp only [List.length_cons] at hlen
        omega
      simp only [toggleLikeTimes]
      rw [ih _ p u rest hlen2 hJ2 hN2, hpair.1]
      intro hl P hP
      rw [hpair.2] at hl
      rw [hpair.1] at hP
      exact hH hl P hP
    | [], hlen => simp at hlen
    | [_], hlen => simp at hlen; omega

/-- C4 (counterexample): a Like on (7, 1) was recorded before the post with
id 7 was created, so the post has likes_count 0 while user 1 holds a Like on
it; two consecutive toggleLike(7, 1) calls take the counter from 0 to
max(0, 0 - 1) = 0 and then to 1. -/
theorem two_toggles_change_count :
    (run Store.empty likeBeforePost).posts.map (fun P => (P.id, P.likes_count)) = [(7, 0)] ∧
    (toggleLikeTimes (run Store.empty likeBeforePost) 7 1 [(8, 8), (9, 9)]).posts.map
        (fun P => (P.id, P.likes_count)) = [(7, 1)] := by
  decide

/-- C4 (amended): in every state reached from the empty store, for every
post id p, user id u and n such that u holds no Like on p or the first stored
post with id p has likes_count at least 1, calling toggleLike(p, u) 2n times
in a row (with any clock readings) leaves the posts collection, hence the
likes_count of every stored post with id p, as it was before the calls. -/
theorem even_toggles_keep_count (calls : List Call) (p u n : Nat)
    (clocks : List (Nat × Nat)) (hlen : clocks.length = 2 * n)
    (hH : isPostLikedByUser (run Store.empty calls) p u = false ∨
      ∀ P, (run Store.empty calls).posts.find? (fun q => q.id == p) = some P →
        1 ≤ P.likes_count) :
    (toggleLikeTimes (run Store.empty calls) p u clocks).posts
      = (run Store.empty calls).posts := by
  apply toggleLikeTimes_even n _ p u clocks hlen (reachable_likesUnique calls)
    (reachable_countsNonneg calls)
  intro hl
  rcases hH with h | h
  · rw [h] at hl; cases hl
  · exact h

theorem even_toggles_keep_count_witness :
    (toggleLikeTimes (run Store.empty likedTwice) 10 2 [(20, 20), (21, 22), (23, 23), (24, 24)]).posts
      = (run Store.empty likedTwice).posts :=
  even_toggles_keep_count likedTwice 10 2 2 [(20, 20), (21, 22), (23, 23), (24, 24)]
    (by decide) (Or.inr (by decide))

/-- C5: in every state reached from the empty store and for every
(postId, userId), the liked flag returned by toggleLike is the negation of
isPostLikedByUser evaluated just before the call and equals
isPostLikedByUser evaluated just after it. -/
theorem toggle_liked_flag (calls : List Call) (p u now ts : Nat) :
    (toggleLike (run Store.empty calls) p u now ts).2.liked
        = some (!isPostLikedByUser (run Store.empty calls) p u) ∧
    (toggleLike (run Store.empty calls) p u now ts).2.liked
        = some (isPostLikedByUser (toggleLike (run Store.empty calls) p u now ts).1 p u) := by
  rw [toggleLike_flips _ (reachable_likesUnique calls), toggleLike_reply]
  exact ⟨rfl, rfl⟩

/-! ## Users -/

/-- C6: for every state and every name, email and password: if no stored user
has that email, createUser returns success true (no error key), the users
collection becomes the old one followed by one new record carrying that name,
email and password, and the other collections are untouched; if some stored
user has that email, createUser returns success false with error
'Email already exists' and the store is unchanged. -/
theorem createUser_spec (s : Store) (n e p : String) (now ts : Nat) :
    ((∀ u ∈ s.users, u.email ≠ e) →
      createUser s n e p now ts =
        ({ s with users := s.users ++ [⟨now, n, e, p, ts⟩] }, { success := true })) ∧
    ((∃ u ∈ s.users, u.email = e) →
      createUser s n e p now ts =
        (s, { success := false, error := some "Email already exists" })) := by
  constructor
  · intro h
    have hf : s.users.find? (fun u => u.email == e) = none := by
      rw [List.find?_eq_none]
      intro u hu
      simpa using h u hu
    simp only [createUser, hf]
  · rintro ⟨u, hu, hue⟩
    cases hf : s.users.find? (fun u => u.email == e) with
    | none =>
      have := List.find?_eq_none.mp hf u hu
      simp [hue] at this
    | some v => simp only [createUser, hf]

theorem createUser_spec_witness :
    createUser Store.empty "Alice" "alice@x.com" "h1" 1 2 =
      (aliceStore, { success := true }) ∧
    createUser aliceStore "Eve" "alice@x.com" "h2" 3 4 =
      (aliceStore, { success := false, error := some "Email already exists" }) :=
  ⟨(createUser_spec Store.empty "Alice" "alice@x.com" "h1" 1 2).1 (by decide),
   (createUser_spec aliceStore "Eve" "alice@x.com" "h2" 3 4).2 (by decide)⟩

/-- C7: in every state reached from the empty store by facade operations, no
two stored users have the same email string (compared exactly). -/
theorem emails_nodup (calls : List Call) :
    ((run Store.empty calls).users.map (·.email)).Nodup :=
  run_invariant EmailsUnique step_emailsUnique calls Store.empty emailsUnique_empty

theorem step_users_mem (s : Store) (c : Call) (u : User) (hu : u ∈ s.users) :
    u ∈ (step s c).users := by
  obtain ⟨op, now, ts⟩ := c
  cases op with
  | createUser n e p =>
    simp only [step, createUser]
    split
    · exact hu
    · exact List.mem_append_left _ hu
  | createPost t d g i a v au => exact hu
  | addComment p u x => exact hu
  | toggleLike p u =>
    simp only [step]
    rw [toggleLike_users]
    exact hu

theorem run_users_mem (calls : List Call) (s : Store) (u : User) (hu : u ∈ s.users) :
    u ∈ (run s calls).users := by
  induction calls generalizing s with
  | nil => exact hu
  | cons c cs ih => exact ih (step s c) (step_users_mem s c u hu)

/-- C8: in every state reached from the empty store by a sequence of facade
calls that contains a successful createUser(n, e, h) (read at clock values
now and ts), authenticateUser(e2, h2) returns the record stored by that call
if and only if e2 = e and h2 = h; and when no stored user matches both the
email and the credential hash it returns null. -/
theorem authenticateUser_iff (before after : List Call) (n e h : String) (now ts : Nat)
    (e2 h2 : String)
    (hok : (createUser (run Store.empty before) n e h now ts).2.success = true) :
    (authenticateUser
        (run Store.empty (before ++ ⟨.createUser n e h, now, ts⟩ :: after)) e2 h2
          = some ⟨now, n, e, h, ts⟩ ↔ (e2 = e ∧ h2 = h)) ∧
    ((∀ v ∈ (run Store.empty (before ++ ⟨.createUser n e h, now, ts⟩ :: after)).users,
        ¬ (v.email = e2 ∧ v.password = h2)) →
      authenticateUser
        (run Store.empty (before ++ ⟨.createUser n e h, now, ts⟩ :: after)) e2 h2 = none) := by
  have hmem : (⟨now, n, e, h, ts⟩ : User) ∈
      (run Store.empty (before ++ ⟨.createUser n e h, now, ts⟩ :: after)).users := by
    rw [run_append, run_cons]
    apply run_users_mem
    simp only [step]
    revert hok
    simp only [createUser]
    split
    · intro hok; cases hok
    · intro _; simp
  have huniq := reachable_emailsUnique (before ++ ⟨.createUser n e h, now, ts⟩ :: after)
  generalize run Store.empty (before ++ ⟨.createUser n e h, now, ts⟩ :: after) = s at *
  refine ⟨⟨?_, ?_⟩, ?_⟩
  · intro hfind
    have := List.find?_some hfind
    simp only [Bool.and_eq_true, beq_iff_eq] at this
    exact ⟨this.1.symm, this.2.symm⟩
  · rintro ⟨rfl, rfl⟩
    cases hfind : authenticateUser s e2 h2 with
    | none =>
      have := List.find?_eq_none.mp hfind _ hmem
      simp at this
    | some r =>
      have hr := List.find?_some hfind
      have hrmem := List.mem_of_find?_eq_some hfind
      simp only [Bool.and_eq_true, beq_iff_eq] at hr
      have : r = ⟨now, n, e2, h2, ts⟩ :=
        List.inj_on_of_nodup_map huniq hrmem hmem hr.1
      rw [this]
  · intro hnone
    unfold authenticateUser
    rw [List.find?_eq_none]
    intro v hv
    simpa using hnone v hv

theorem authenticateUser_iff_witness :
    (authenticateUser
        (run Store.empty ([] ++ ⟨.createUser "Alice" "alice@x.com" "h1", 1, 2⟩ ::
          [⟨.createUser "Bob" "bob@x.com" "h1", 3, 4⟩])) "alice@x.com" "h1"
          = some ⟨1, "Alice", "alice@x.com", "h1", 2⟩ ↔
        ("alice@x.com" = "alice@x.com" ∧ "h1" = "h1")) ∧
    ((∀ v ∈ (run Store.empty ([] ++ ⟨.createUser "Alice" "alice@x.com" "h1", 1, 2⟩ ::
          [⟨.createUser "Bob" "bob@x.com" "h1", 3, 4⟩])).users,
        ¬ (v.email = "alice@x.com" ∧ v.password = "h1")) →
      authenticateUser
        (run Store.empty ([] ++ ⟨.createUser "Alice" "alice@x.com" "h1", 1, 2⟩ ::
          [⟨.createUser "Bob" "bob@x.com" "h1", 3, 4⟩])) "alice@x.com" "h1" = none) :=
  authenticateUser_iff [] [⟨.createUser "Bob" "bob@x.com" "h1", 3, 4⟩]
    "Alice" "alice@x.com" "h1" 1 2 "alice@x.com" "h1" (by decide)

/-- C9: for every state and id, getUserById returns null when no stored user
has that id; otherwise it returns the first stored user with that id, with
id, name, email and created_at unchanged and without the password; and two
states whose users differ only in stored passwords give the same result. -/
theorem getUserById_spec (s : Store) (id : Nat) :
    ((∀ u ∈ s.users, u.id ≠ id) → getUserById s id = none) ∧
    (∀ (l1 l2 : List User) (u : User), s.users = l1 ++ u :: l2 →
      (∀ v ∈ l1, v.id ≠ id) → u.id = id →
      getUserById s id = some ⟨u.id, u.name, u.email, u.created_at⟩) ∧
    (∀ s2 : Store, s2.users.map User.withoutPassword = s.users.map User.withoutPassword →
      getUserById s2 id = getUserById s id) := by
  have key : ∀ l : List User,
      (match l.find? (fun u => u.id == id) with
        | some user => some (⟨user.id, user.name, user.email, user.created_at⟩ : PublicUser)
        | none => none) = (l.map User.withoutPassword).find? (fun v => v.id == id) := by
    intro l
    induction l with
    | nil => rfl
    | cons a l ih =>
      by_cases ha : a.id = id
      · simp [List.find?_cons, ha, User.withoutPassword]
      · simp only [List.find?_cons, List.map_cons, User.withoutPassword]
        have hb : (a.id == id) = false := by simpa using ha
        simp only [hb]
        exact ih
  refine ⟨?_, ?_, ?_⟩
  · intro h
    have hf : s.users.find? (fun u => u.id == id) = none := by
      rw [List.find?_eq_none]
      intro u hu
      simpa using h u hu
    simp only [getUserById, hf]
  · intro l1 l2 u hs hl1 hu
    have hf : s.users.find? (fun u => u.id == id) = some u := by
      rw [hs, List.find?_append]
      have : l1.find? (fun u => u.id == id) = none := by
        rw [List.find?_eq_none]
        intro v hv
        simpa using hl1 v hv
      simp [this, hu]
    simp only [getUserById, hf]
  · intro s2 h
    unfold getUserById
    rw [key s2.users, key s.users, h]

theorem getUserById_spec_witness :
    getUserById aliceStore 7 = none ∧
    getUserById aliceStore 1 = some ⟨1, "Alice", "alice@x.com", 2⟩ ∧
    getUserById ⟨[⟨1, "Alice", "alice@x.com", "other", 2⟩], [], [], []⟩ 1
      = getUserById aliceStore 1 :=
  ⟨(getUserById_spec aliceStore 7).1 (by decide),
   (getUserById_spec aliceStore 1).2.1 [] [] ⟨1, "Alice", "alice@x.com", "h1", 2⟩ rfl
     (by decide) rfl,
   (getUserById_spec aliceStore 1).2.2
     ⟨[⟨1, "Alice", "alice@x.com", "other", 2⟩], [], [], []⟩ (by decide)⟩

/-! ## Listing posts -/

theorem step_posts_resetLikes (s : Store) (c : Call) :
    (step s c).posts.map Post.resetLikes
      = (createdPosts [c]).reverse ++ s.posts.map Post.resetLikes := by
  obtain ⟨op, now, ts⟩ := c
  cases op with
  | createUser n e p =>
    simp only [step, createdPosts]
    rw [(createUser_frame s n e p now ts).1]
    rfl
  | createPost t d g i a v au => rfl
  | addComment p u x => rfl
  | toggleLike p u =>
    simp only [step, createdPosts, List.reverse_nil, List.nil_append]
    cases h : isPostLikedByUser s p u
    · rw [toggleLike_not_liked s p u now ts h]
      exact map_updFirst _ incLikes Post.resetLikes (fun a => rfl) s.posts
    · rw [toggleLike_liked s p u now ts h]
      exact map_updFirst _ decLikes Post.resetLikes (fun a => rfl) s.posts

theorem createdPosts_cons (c : Call) (cs : List Call) :
    createdPosts (c :: cs) = createdPosts [c] ++ createdPosts cs := by
  obtain ⟨op, now, ts⟩ := c
  cases op <;> rfl

theorem run_posts_resetLikes (calls : List Call) (s : Store) :
    (run s calls).posts.map Post.resetLikes
      = (createdPosts calls).reverse ++ s.posts.map Post.resetLikes := by
  induction calls generalizing s with
  | nil => rfl
  | cons c cs ih =>
    rw [run_cons, ih, step_posts_resetLikes, createdPosts_cons c cs,
      List.reverse_append, List.append_assoc]

theorem createdPosts_sublist (calls : List Call) :
    ((createdPosts calls).map (·.created_at)).Sublist (clockReadings calls) := by
  induction calls with
  | nil => exact List.Sublist.slnil
  | cons c cs ih =>
    obtain ⟨op, now, ts⟩ := c
    cases op with
    | createPost t d g i a v au =>
      exact List.Sublist.cons _ (List.Sublist.cons₂ _ ih)
    | createUser n e p => exact List.Sublist.cons _ (List.Sublist.cons _ ih)
    | addComment p u x => exact List.Sublist.cons _ (List.Sublist.cons _ ih)
    | toggleLike p u => exact List.Sublist.cons _ (List.Sublist.cons _ ih)

/-- C10: for every sequence of facade operations run from the empty store
with non-decreasing clock readings, getAllPosts returns the created posts,
each exactly once and latest call first (the result, read up to likes_count
and author_name, is the reversed list of the records built by the createPost
calls), and each element's created_at is greater than or equal to that of
every element after it; toggleLike calls in the sequence do not change
this. -/
theorem getAllPosts_newest_first (calls : List Call)
    (hclock : (clockReadings calls).Pairwise (· ≤ ·)) :
    (getAllPosts (run Store.empty calls)).map (fun v => v.toPost.resetLikes)
      = (createdPosts calls).reverse ∧
    (getAllPosts (run Store.empty calls)).Pairwise
      (fun a b => b.created_at ≤ a.created_at) := by
  have hmap : (getAllPosts (run Store.empty calls)).map (fun v => v.toPost.resetLikes)
      = (createdPosts calls).reverse := by
    have := run_posts_resetLikes calls Store.empty
    simp only [Store.empty, List.map_nil, List.append_nil] at this
    rw [← this]
    simp only [getAllPosts, List.map_map]
    rfl
  refine ⟨hmap, ?_⟩
  have hsorted : ((createdPosts calls).map (·.created_at)).Pairwise (· ≤ ·) :=
    hclock.sublist (createdPosts_sublist calls)
  have hrev : (((createdPosts calls).reverse).map (·.created_at)).Pairwise
      (fun a b => b ≤ a) := by
    rw [List.map_reverse, List.pairwise_reverse]
    exact hsorted
  rw [← hmap, List.map_map] at hrev
  exact (List.pairwise_map.mp hrev)

theorem getAllPosts_newest_first_witness :
    (clockReadings postsAndToggles).Pairwise (· ≤ ·) ∧
    (getAllPosts (run Store.empty postsAndToggles)).map (fun v => v.toPost.resetLikes)
      = (createdPosts postsAndToggles).reverse ∧
    (getAllPosts (run Store.empty postsAndToggles)).Pairwise
      (fun a b => b.created_at ≤ a.created_at) :=
  ⟨by decide, getAllPosts_newest_first postsAndToggles (by decide)⟩

/-! ## Looking up one post -/

theorem step_users_append (s : Store) (c : Call) :
    ∃ l, (step s c).users = s.users ++ l := by
  obtain ⟨op, now, ts⟩ := c
  cases op with
  | createUser n e p =>
    simp only [step, createUser]
    split
    · exact ⟨[], by simp⟩
    · exact ⟨_, rfl⟩
  | createPost t d g i a v au => exact ⟨[], by simp [step, createPost]⟩
  | addComment p u x => exact ⟨[], by simp [step, addComment]⟩
  | toggleLike p u =>
    refine ⟨[], ?_⟩
    simp only [step]
    rw [toggleLike_users]
    simp

theorem run_users_append (calls : List Call) (s : Store) :
    ∃ l, (run s calls).users = s.users ++ l := by
  induction calls generalizing s with
  | nil => exact ⟨[], by simp [run]⟩
  | cons c cs ih =>
    obtain ⟨l1, h1⟩ := step_users_append s c
    obtain ⟨l2, h2⟩ := ih (step s c)
    exact ⟨l1 ++ l2, by rw [run_cons, h2, h1, List.append_assoc]⟩

theorem createdPosts_append (xs ys : List Call) :
    createdPosts (xs ++ ys) = createdPosts xs ++ createdPosts ys := by
  induction xs with
  | nil => rfl
  | cons c cs ih =>
    rw [List.cons_append, createdPosts_cons, ih, createdPosts_cons c cs, List.append_assoc]

theorem find_id_resetLikes (l : List Post) (x : Nat) :
    (l.map Post.resetLikes).find? (fun q => q.id == x)
      = (l.find? (fun q => q.id == x)).map Post.resetLikes := by
  induction l with
  | nil => rfl
  | cons a l ih =>
    by_cases h : a.id = x
    · simp [List.find?_cons, Post.resetLikes, h]
    · have hb : (a.id == x) = false := by simpa using h
      simp only [List.map_cons, List.find?_cons, Post.resetLikes, hb]
      exact ih

/-- C11 (counterexample): Alice and Bob register within one clock tick and
both get id 1; a post created with Bob's id as authorId is returned by
getPostById with author_name 'Alice'. -/
theorem author_name_of_colliding_user :
    (run Store.empty sameTickUsers).users.map (fun u => (u.id, u.name))
      = [(1, "Alice"), (1, "Bob")] ∧
    (getPostById (run Store.empty sameTickUsers) 5).map
      (fun v => (v.title, v.author_id, v.author_name)) = some ("Intro", 1, "Alice") := by
  decide

/-- C11 (amended): in every state reached from the empty store by a sequence
in which createUser(n, e, h) succeeded at clock reading now with no earlier
stored user carrying id now, and createPost(t, d, ..., authorId = now) ran
later at clock reading now2 with no later createPost reading now2 again,
getPostById(now2) returns a record whose title is t, whose description is d
and whose author_name is n. -/
theorem getPostById_author (before mid after : List Call) (n e h : String)
    (now ts : Nat) (t d g : String) (i a v : Option String) (now2 ts2 : Nat)
    (hok : (createUser (run Store.empty before) n e h now ts).2.success = true)
    (hfirst : ∀ u ∈ (run Store.empty before).users, u.id ≠ now)
    (hlast : ∀ q ∈ createdPosts after, q.id ≠ now2) :
    ∃ r, getPostById
        (run Store.empty (before ++ ⟨.createUser n e h, now, ts⟩ ::
          (mid ++ ⟨.createPost t d g i a v now, now2, ts2⟩ :: after))) now2 = some r ∧
      r.title = t ∧ r.description = d ∧ r.author_name = n := by
  have husers : ∃ l, (run Store.empty (before ++ ⟨.createUser n e h, now, ts⟩ ::
      (mid ++ ⟨.createPost t d g i a v now, now2, ts2⟩ :: after))).users
        = (run Store.empty before).users ++ (⟨now, n, e, h, ts⟩ : User) :: l := by
    rw [run_append, run_cons]
    obtain ⟨l, hl⟩ := run_users_append
      (mid ++ ⟨.createPost t d g i a v now, now2, ts2⟩ :: after)
      (step (run Store.empty before) ⟨.createUser n e h, now, ts⟩)
    refine ⟨l, ?_⟩
    rw [hl]
    have : (step (run Store.empty before) ⟨.createUser n e h, now, ts⟩).users
        = (run Store.empty before).users ++ [⟨now, n, e, h, ts⟩] := by
      simp only [step]
      revert hok
      simp only [createUser]
      split
      · intro hok; cases hok
      · intro _; rfl
    rw [this, List.append_assoc]
    rfl
  have hposts := run_posts_resetLikes
    (before ++ ⟨.createUser n e h, now, ts⟩ ::
      (mid ++ ⟨.createPost t d g i a v now, now2, ts2⟩ :: after)) Store.empty
  generalize run Store.empty (before ++ ⟨.createUser n e h, now, ts⟩ ::
      (mid ++ ⟨.createPost t d g i a v now, now2, ts2⟩ :: after)) = s at *
  obtain ⟨l, hl⟩ := husers
  have hfindU : s.users.find? (fun u => u.id == now) = some ⟨now, n, e, h, ts⟩ := by
    rw [hl, List.find?_append]
    have : (run Store.empty before).users.find? (fun u => u.id == now) = none := by
      rw [List.find?_eq_none]
      intro u hu
      simpa using hfirst u hu
    simp [this]
  have hcreated : createdPosts (before ++ ⟨.createUser n e h, now, ts⟩ ::
      (mid ++ ⟨.createPost t d g i a v now, now2, ts2⟩ :: after))
        = (createdPosts before ++ createdPosts mid) ++
            (⟨now2, t, d, g, i, a, v, now, ts2, 0⟩ : Post) :: createdPosts after := by
    rw [createdPosts_append, createdPosts_cons, createdPosts_append, createdPosts_cons
      ⟨.createPost t d g i a v now, now2, ts2⟩ after]
    simp [createdPosts]
  rw [hcreated] at hposts
  simp only [Store.empty, List.map_nil, List.append_nil, List.reverse_append,
    List.reverse_cons] at hposts
  have hfindP : (s.posts.map Post.resetLikes).find? (fun q => q.id == now2)
      = some ⟨now2, t, d, g, i, a, v, now, ts2, 0⟩ := by
    rw [hposts, List.append_assoc, List.find?_append]
    have : (createdPosts after).reverse.find? (fun q => q.id == now2) = none := by
      rw [List.find?_eq_none]
      intro q hq
      simpa using hlast q (List.mem_reverse.mp hq)
    simp [this]
  rw [find_id_resetLikes] at hfindP
  cases hq : s.posts.find? (fun q => q.id == now2) with
  | none => rw [hq] at hfindP; cases hfindP
  | some q =>
    rw [hq] at hfindP
    simp only [Option.map_some', Option.some.injEq] at hfindP
    have ht : q.title = t := by
      have := congrArg Post.title hfindP; simpa [Post.resetLikes] using this
    have hd : q.description = d := by
      have := congrArg Post.description hfindP; simpa [Post.resetLikes] using this
    have ha : q.author_id = now := by
      have := congrArg Post.author_id hfindP; simpa [Post.resetLikes] using this
    refine ⟨withAuthor s.users q, ?_, ht, hd, ?_⟩
    · simp only [getPostById, hq]
    · simp only [withAuthor, ha, hfindU]

theorem getPostById_author_witness :
    ∃ r, getPostById
        (run Store.empty ([] ++ ⟨.createUser "Alice" "alice@x.com" "h1", 1, 1⟩ ::
          ([⟨.createUser "Bob" "bob@x.com" "h2", 2, 2⟩] ++
            ⟨.createPost "Intro" "text" "" none none none 1, 5, 5⟩ ::
              [⟨.toggleLike 5 2, 6, 6⟩]))) 5 = some r ∧
      r.title = "Intro" ∧ r.description = "text" ∧ r.author_name = "Alice" :=
  getPostById_author [] [⟨.createUser "Bob" "bob@x.com" "h2", 2, 2⟩] [⟨.toggleLike 5 2, 6, 6⟩]
    "Alice" "alice@x.com" "h1" 1 1 "Intro" "text" "" none none none 5 5
    (by decide) (by decide) (by decide)

/-! ## Listing comments -/

theorem insertSorted_perm {α : Type} (cmp : α → α → Int) (a : α) (l : List α) :
    (insertSorted cmp a l).Perm (a :: l) := by
  induction l with
  | nil => exact List.Perm.refl _
  | cons b l ih =>
    by_cases h : cmp a b ≤ 0
    · rw [insertSorted, if_pos h]
    · rw [insertSorted, if_neg h]
      exact (List.Perm.cons b ih).trans (List.Perm.swap a b l)

theorem sortStable_perm {α : Type} (cmp : α → α → Int) (l : List α) :
    (sortStable cmp l).Perm l := by
  induction l with
  | nil => exact List.Perm.refl _
  | cons a l ih => exact (insertSorted_perm cmp a _).trans (List.Perm.cons a ih)

theorem insertSorted_pairwise {α : Type} (cmp : α → α → Int) (k : α → Nat)
    (hk : ∀ a b, cmp a b ≤ 0 ↔ k a ≤ k b) (a : α) (l : List α)
    (hl : l.Pairwise (fun x y => k x ≤ k y)) :
    (insertSorted cmp a l).Pairwise (fun x y => k x ≤ k y) := by
  induction l with
  | nil => exact List.pairwise_singleton _ _
  | cons b l ih =>
    rw [List.pairwise_cons] at hl
    by_cases h : cmp a b ≤ 0
    · rw [insertSorted, if_pos h, List.pairwise_cons]
      refine ⟨?_, List.pairwise_cons.mpr hl⟩
      intro x hx
      have hab := (hk a b).mp h
      rcases List.mem_cons.mp hx with rfl | hx
      · exact hab
      · exact le_trans hab (hl.1 x hx)
    · rw [insertSorted, if_neg h, List.pairwise_cons]
      refine ⟨?_, ih hl.2⟩
      intro x hx
      have hba : k b ≤ k a := by
        have := (hk a b).not.mp h
        omega
      rcases List.mem_cons.mp ((insertSorted_perm cmp a l).mem_iff.mp hx) with rfl | hx
      · exact hba
      · exact hl.1 x hx

theorem sortStable_pairwise {α : Type} (cmp : α → α → Int) (k : α → Nat)
    (hk : ∀ a b, cmp a b ≤ 0 ↔ k a ≤ k b) (l : List α) :
    (sortStable cmp l).Pairwise (fun x y => k x ≤ k y) := by
  induction l with
  | nil => exact List.Pairwise.nil
  | cons a l ih => exact insertSorted_pairwise cmp k hk a _ ih

theorem filter_insertSorted {α : Type} (cmp : α → α → Int) (k : α → Nat)
    (hk : ∀ a b, cmp a b ≤ 0 ↔ k a ≤ k b) (t : Nat) (a : α) (l : List α) :
    (insertSorted cmp a l).filter (fun x => k x == t)
      = (a :: l).filter (fun x => k x == t) := by
  induction l with
  | nil => rfl
  | cons b l ih =>
    by_cases h : cmp a b ≤ 0
    · rw [insertSorted, if_pos h]
    · rw [insertSorted, if_neg h, List.filter_cons, ih]
      have hba : k b < k a := by
        have := (hk a b).not.mp h
        omega
      by_cases hat : k a = t
      · have hbt : (k b == t) = false := by
          rw [beq_eq_false_iff_ne]; omega
        simp [List.filter_cons, hat, hbt]
      · have hat2 : (k a == t) = false := by
          rw [beq_eq_false_iff_ne]; exact hat
        simp [List.filter_cons, hat2]

theorem filter_sortStable {α : Type} (cmp : α → α → Int) (k : α → Nat)
    (hk : ∀ a b, cmp a b ≤ 0 ↔ k a ≤ k b) (t : Nat) (l : List α) :
    (sortStable cmp l).filter (fun x => k x == t) = l.filter (fun x => k x == t) := by
  induction l with
  | nil => rfl
  | cons a l ih =>
    rw [sortStable, filter_insertSorted cmp k hk, List.filter_cons, ih, List.filter_cons]

theorem sortStable_of_pairwise {α : Type} (cmp : α → α → Int) (l : List α)
    (hl : l.Pairwise (fun x y => cmp x y ≤ 0)) : sortStable cmp l = l := by
  induction l with
  | nil => rfl
  | cons a l ih =>
    rw [List.pairwise_cons] at hl
    rw [sortStable, ih hl.2]
    cases l with
    | nil => rfl
    | cons b l => rw [insertSorted, if_pos (hl.1 b (List.mem_cons_self _ _))]

theorem byCreatedAt_le (a b : CommentView) :
    byCreatedAt a b ≤ 0 ↔ a.created_at ≤ b.created_at := by
  unfold byCreatedAt
  omega

/-- C13: for every state, also one whose stored comments have timestamps out
of insertion order, and every postId, the result of getCommentsByPostId is a
permutation of the stored comments with that post_id (each joined with its
user_name), is sorted by created_at ascending, and keeps comments of equal
created_at in their stored order. -/
theorem getCommentsByPostId_sorted (s : Store) (postId : Nat) :
    (getCommentsByPostId s postId).Perm
      ((s.comments.filter (fun c => c.post_id == postId)).map (withUserName s.users)) ∧
    (getCommentsByPostId s postId).Pairwise (fun a b => a.created_at ≤ b.created_at) ∧
    ∀ t : Nat,
      ((getCommentsByPostId s postId).filter (fun v => v.created_at == t)).map (·.toComment)
        = (s.comments.filter (fun c => c.post_id == postId)).filter
            (fun c => c.created_at == t) := by
  refine ⟨sortStable_perm _ _, ?_, ?_⟩
  · exact sortStable_pairwise byCreatedAt (fun v => v.created_at) byCreatedAt_le _
  · intro t
    unfold getCommentsByPostId
    rw [filter_sortStable byCreatedAt (fun v => v.created_at) byCreatedAt_le t]
    generalize s.comments.filter (fun c => c.post_id == postId) = l
    induction l with
    | nil => rfl
    | cons c l ih =>
      by_cases hc : c.created_at = t
      · simp only [List.map_cons, List.filter_cons, withUserName, hc, beq_self_eq_true,
          if_true, List.cons.injEq, true_and]
        exact ih
      · have hb : (c.created_at == t) = false := by simpa using hc
        simp only [List.map_cons, List.filter_cons, withUserName, hb]
        exact ih

/-- The stable sort applied to the stored comments of a concrete state. -/
theorem getCommentsByPostId_shuffled :
    (getCommentsByPostId shuffledComments 5).map (fun v => (v.content, v.created_at, v.user_name))
      = [("early", 10, "Unknown User"), ("tie", 10, "Alice"), ("late", 30, "Alice")] := by
  decide

theorem step_comments_sublist (s : Store) (c : Call) :
    ∃ l, (step s c).comments = s.comments ++ l ∧
      (l.map (·.created_at)).Sublist (clockReadings [c]) := by
  obtain ⟨op, now, ts⟩ := c
  cases op with
  | createUser n e p =>
    refine ⟨[], ?_, List.nil_sublist _⟩
    simp only [step]
    rw [(createUser_frame s n e p now ts).2.2]
    simp
  | createPost t d g i a v au => exact ⟨[], by simp [step, createPost], List.nil_sublist _⟩
  | addComment p u x =>
    refine ⟨[⟨now, p, u, x, ts⟩], rfl, ?_⟩
    exact List.Sublist.cons _ (List.Sublist.refl _)
  | toggleLike p u =>
    refine ⟨[], ?_, List.nil_sublist _⟩
    simp only [step]
    rw [toggleLike_comments]
    simp

theorem clockReadings_cons (c : Call) (cs : List Call) :
    clockReadings (c :: cs) = clockReadings [c] ++ clockReadings cs := rfl

theorem clockReadings_append (xs ys : List Call) :
    clockReadings (xs ++ ys) = clockReadings xs ++ clockReadings ys := by
  induction xs with
  | nil => rfl
  | cons c cs ih =>
    rw [List.cons_append, clockReadings_cons, ih, clockReadings_cons c cs, List.append_assoc]

theorem run_comments_sublist (calls : List Call) (s : Store) :
    ∃ l, (run s calls).comments = s.comments ++ l ∧
      (l.map (·.created_at)).Sublist (clockReadings calls) := by
  induction calls generalizing s with
  | nil => exact ⟨[], by simp [run], List.nil_sublist _⟩
  | cons c cs ih =>
    obtain ⟨l1, h1, hs1⟩ := step_comments_sublist s c
    obtain ⟨l2, h2, hs2⟩ := ih (step s c)
    refine ⟨l1 ++ l2, by rw [run_cons, h2, h1, List.append_assoc], ?_⟩
    rw [List.map_append, clockReadings_cons]
    exact List.Sublist.append hs1 hs2

/-- C12: for every state reached from the empty store, if the clock readings
of the whole sequence including the new addComment(P, U, text) call are
non-decreasing, then after the call the new comment (joined with U's name) is
the last element of getCommentsByPostId(P), the elements before it are the
previous result of getCommentsByPostId(P) in the same order, and
getCommentsByPostId(Q) is unchanged for every post id Q other than P. -/
theorem addComment_appends (calls : List Call) (P U : Nat) (text : String) (now ts : Nat)
    (hclock : (clockReadings (calls ++ [⟨.addComment P U text, now, ts⟩])).Pairwise (· ≤ ·)) :
    (addComment (run Store.empty calls) P U text now ts).2 = { success := true } ∧
    getCommentsByPostId (addComment (run Store.empty calls) P U text now ts).1 P
      = getCommentsByPostId (run Store.empty calls) P
          ++ [withUserName (run Store.empty calls).users ⟨now, P, U, text, ts⟩] ∧
    ∀ Q, Q ≠ P →
      getCommentsByPostId (addComment (run Store.empty calls) P U text now ts).1 Q
        = getCommentsByPostId (run Store.empty calls) Q := by
  obtain ⟨l, hl0, hsub⟩ := run_comments_sublist calls Store.empty
  have hl : (run Store.empty calls).comments = l := by
    rw [hl0]; rfl
  rw [clockReadings_append, List.pairwise_append] at hclock
  obtain ⟨hsorted, _, hcross⟩ := hclock
  have hcs : ((run Store.empty calls).comments.map (·.created_at)).Pairwise (· ≤ ·) := by
    rw [hl]; exact hsorted.sublist hsub
  have hle : ∀ c ∈ (run Store.empty calls).comments, c.created_at ≤ ts := by
    intro c hc
    rw [hl] at hc
    have hmem : c.created_at ∈ clockReadings calls :=
      hsub.subset (List.mem_map.mpr ⟨c, hc, rfl⟩)
    exact hcross _ hmem ts (by simp [clockReadings])
  generalize run Store.empty calls = s at *
  have hsortedViews : ∀ (cs : List Comment),
      (cs.map (·.created_at)).Pairwise (· ≤ ·) →
      ((cs.map (withUserName s.users))).Pairwise (fun x y => byCreatedAt x y ≤ 0) := by
    intro cs h
    rw [List.pairwise_map] at h ⊢
    exact h.imp (fun {a b} hab => (byCreatedAt_le _ _).mpr hab)
  have hfilt : ∀ Q, (((s.comments ++ [(⟨now, P, U, text, ts⟩ : Comment)]).filter
      (fun c => c.post_id == Q)).map (·.created_at)).Pairwise (· ≤ ·) := by
    intro Q
    refine List.Pairwise.sublist (List.Sublist.map _ (List.filter_sublist _)) ?_
    rw [List.map_append, List.pairwise_append]
    refine ⟨hcs, List.pairwise_singleton _ _, ?_⟩
    intro a ha b hb
    obtain ⟨c, hc, rfl⟩ := List.mem_map.mp ha
    simp only [List.map_cons, List.map_nil, List.mem_singleton] at hb
    subst hb
    exact hle c hc
  have hfilt0 : ∀ Q, ((s.comments.filter (fun c => c.post_id == Q)).map
      (·.created_at)).Pairwise (· ≤ ·) := by
    intro Q
    exact List.Pairwise.sublist (List.Sublist.map _ (List.filter_sublist _)) hcs
  refine ⟨rfl, ?_, ?_⟩
  · simp only [getCommentsByPostId, addComment]
    rw [sortStable_of_pairwise _ _ (hsortedViews _ (hfilt P)),
      sortStable_of_pairwise _ _ (hsortedViews _ (hfilt0 P))]
    simp [List.filter_append, List.filter_cons]
  · intro Q hQ
    simp only [getCommentsByPostId, addComment]
    have hb : (P == Q) = false := by simpa using fun h => hQ h.symm
    simp [List.filter_append, List.filter_cons, hb]

theorem addComment_appends_witness :
    (clockReadings (oneComment ++ [⟨.addComment 5 1 "second", 7, 8⟩])).Pairwise (· ≤ ·) ∧
    (addComment (run Store.empty oneComment) 5 1 "second" 7 8).2 = { success := true } ∧
    getCommentsByPostId (addComment (run Store.empty oneComment) 5 1 "second" 7 8).1 5
      = getCommentsByPostId (run Store.empty oneComment) 5
          ++ [withUserName (run Store.empty oneComment).users ⟨7, 5, 1, "second", 8⟩] ∧
    ∀ Q, Q ≠ 5 →
      getCommentsByPostId (addComment (run Store.empty oneComment) 5 1 "second" 7 8).1 Q
        = getCommentsByPostId (run Store.empty oneComment) Q :=
  ⟨by decide, addComment_appends oneComment 5 1 "second" 7 8 (by decide)⟩

/-- C14: for every state and all arguments, createPost returns success true,
the new record is the first element of the posts collection, it carries the
given title, description, tags, three media payloads and author id with
likes_count 0 (id and created_at are the two clock readings), the remaining
elements are the previous posts in their previous order, and the other
collections are untouched. -/
theorem createPost_spec (s : Store) (t d g : String) (i a v : Option String)
    (au now ts : Nat) :
    (createPost s t d g i a v au now ts).2 = { success := true } ∧
    (createPost s t d g i a v au now ts).1.posts.head?
      = some ⟨now, t, d, g, i, a, v, au, ts, 0⟩ ∧
    (createPost s t d g i a v au now ts).1.posts.tail = s.posts ∧
    (createPost s t d g i a v au now ts).1.users = s.users ∧
    (createPost s t d g i a v au now ts).1.comments = s.comments ∧
    (createPost s t d g i a v au now ts).1.likes = s.likes :=
  ⟨rfl, rfl, rfl, rfl, rfl, rfl⟩

/-! ## The scenario of spec section 8, item 7 -/

/-- C17: from the empty store, with pairwise distinct Date.now() readings and
Bob registering with an email other than Alice's: after
createUser('Alice', 'alice@x.com', h1), createPost('Intro', ...) authored by
Alice and createUser('Bob', ...), Bob's first toggleLike on the post returns
liked true and the post's likes_count is 1, his second toggleLike returns
liked false and likes_count is 0, and after his addComment('Nice post') the
result of getCommentsByPostId for the post has exactly one element, whose
user_name is 'Bob'. -/
theorem scenario_alice_bob (h1 desc tags : String) (img aud vid : Option String)
    (bobEmail h2 : String) (t1 s1 t2 s2 t3 s3 t4 s4 t5 s5 t6 s6 : Nat)
    (hmail : bobEmail ≠ "alice@x.com")
    (hclock : [t1, t2, t3, t4, t5, t6].Nodup) :
    (toggleLike (run Store.empty
        (scenarioSetup h1 desc tags img aud vid bobEmail h2 t1 s1 t2 s2 t3 s3)) t2 t3 t4 s4).2
      = { success := true, liked := some true } ∧
    (toggleLike (run Store.empty
        (scenarioSetup h1 desc tags img aud vid bobEmail h2 t1 s1 t2 s2 t3 s3)) t2 t3 t4 s4).1.posts.map
          (fun p => (p.title, p.likes_count)) = [("Intro", 1)] ∧
    (toggleLike (toggleLike (run Store.empty
        (scenarioSetup h1 desc tags img aud vid bobEmail h2 t1 s1 t2 s2 t3 s3)) t2 t3 t4 s4).1
          t2 t3 t5 s5).2 = { success := true, liked := some false } ∧
    (toggleLike (toggleLike (run Store.empty
        (scenarioSetup h1 desc tags img aud vid bobEmail h2 t1 s1 t2 s2 t3 s3)) t2 t3 t4 s4).1
          t2 t3 t5 s5).1.posts.map (fun p => (p.title, p.likes_count)) = [("Intro", 0)] ∧
    (getCommentsByPostId
        (addComment (toggleLike (toggleLike (run Store.empty
          (scenarioSetup h1 desc tags img aud vid bobEmail h2 t1 s1 t2 s2 t3 s3)) t2 t3 t4 s4).1
            t2 t3 t5 s5).1 t2 t3 "Nice post" t6 s6).1 t2).map
          (fun v => (v.content, v.user_name)) = [("Nice post", "Bob")] := by
  have h13 : t1 ≠ t3 := by
    intro h; subst h
    simp at hclock
  have hm : ("alice@x.com" == bobEmail) = false := by
    rw [beq_eq_false_iff_ne]; exact fun h => hmail h.symm
  have h13b : (t1 == t3) = false := by
    rw [beq_eq_false_iff_ne]; exact h13
  have hs0 : run Store.empty
      (scenarioSetup h1 desc tags img aud vid bobEmail h2 t1 s1 t2 s2 t3 s3)
        = ⟨[⟨t1, "Alice", "alice@x.com", h1, s1⟩, ⟨t3, "Bob", bobEmail, h2, s3⟩],
           [⟨t2, "Intro", desc, tags, img, aud, vid, t1, s2, 0⟩], [], []⟩ := by
    simp [scenarioSetup, run, step, createUser, createPost, Store.empty, hm]
  rw [hs0]
  have hr1 : toggleLike
      ⟨[⟨t1, "Alice", "alice@x.com", h1, s1⟩, ⟨t3, "Bob", bobEmail, h2, s3⟩],
       [⟨t2, "Intro", desc, tags, img, aud, vid, t1, s2, 0⟩], [], []⟩ t2 t3 t4 s4
        = (⟨[⟨t1, "Alice", "alice@x.com", h1, s1⟩, ⟨t3, "Bob", bobEmail, h2, s3⟩],
            [⟨t2, "Intro", desc, tags, img, aud, vid, t1, s2, 1⟩], [],
            [⟨t4, t2, t3, s4⟩]⟩, { success := true, liked := some true }) := by
    simp [toggleLike, findIndex, updateAt, orZero]
  rw [hr1]
  have hr2 : toggleLike
      ⟨[⟨t1, "Alice", "alice@x.com", h1, s1⟩, ⟨t3, "Bob", bobEmail, h2, s3⟩],
       [⟨t2, "Intro", desc, tags, img, aud, vid, t1, s2, 1⟩], [],
       [⟨t4, t2, t3, s4⟩]⟩ t2 t3 t5 s5
        = (⟨[⟨t1, "Alice", "alice@x.com", h1, s1⟩, ⟨t3, "Bob", bobEmail, h2, s3⟩],
            [⟨t2, "Intro", desc, tags, img, aud, vid, t1, s2, 0⟩], [], []⟩,
           { success := true, liked := some false }) := by
    simp [toggleLike, findIndex, updateAt, orZero, likeMatches]
  simp only [hr2]
  simp [addComment, getCommentsByPostId, withUserName, sortStable, insertSorted, h13b]

theorem scenario_alice_bob_witness :
    (toggleLike (run Store.empty
        (scenarioSetup "h1" "hello" "a,b" none none none "bob@x.com" "h2" 1 1 2 2 3 3)) 2 3 4 4).2
      = { success := true, liked := some true } ∧
    (toggleLike (run Store.empty
        (scenarioSetup "h1" "hello" "a,b" none none none "bob@x.com" "h2" 1 1 2 2 3 3)) 2 3 4 4).1.posts.map
          (fun p => (p.title, p.likes_count)) = [("Intro", 1)] ∧
    (toggleLike (toggleLike (run Store.empty
        (scenarioSetup "h1" "hello" "a,b" none none none "bob@x.com" "h2" 1 1 2 2 3 3)) 2 3 4 4).1
          2 3 5 5).2 = { success := true, liked := some false } ∧
    (toggleLike (toggleLike (run Store.empty
        (scenarioSetup "h1" "hello" "a,b" none none none "bob@x.com" "h2" 1 1 2 2 3 3)) 2 3 4 4).1
          2 3 5 5).1.posts.map (fun p => (p.title, p.likes_count)) = [("Intro", 0)] ∧
    (getCommentsByPostId
        (addComment (toggleLike (toggleLike (run Store.empty
          (scenarioSetup "h1" "hello" "a,b" none none none "bob@x.com" "h2" 1 1 2 2 3 3)) 2 3 4 4).1
            2 3 5 5).1 2 3 "Nice post" 6 6).1 2).map
          (fun v => (v.content, v.user_name)) = [("Nice post", "Bob")] :=
  scenario_alice_bob "h1" "hello" "a,b" none none none "bob@x.com" "h2" 1 1 2 2 3 3 4 4 5 5 6 6
    (by decide) (by decide)

/-! ## JSON text: stringify followed by parse -/

theorem digitVal_digitChar (d : Nat) (h : d < 10) : digitVal (digitChar d) = some d := by
  interval_cases d <;> rfl

theorem natDigitsFuel_eq (f : Nat) : ∀ (g n : Nat), n < f → n < g →
    natDigitsFuel f n = natDigitsFuel g n := by
  induction f with
  | zero => intro g n h; omega
  | succ f ih =>
    intro g n hf hg
    cases g with
    | zero => omega
    | succ g =>
      simp only [natDigitsFuel]
      by_cases h : n < 10
      · simp [h]
      · simp only [h, if_false]
        rw [ih g (n / 10) (by omega) (by omega)]

theorem natDigits_eq (n : Nat) :
    natDigits n = if n < 10 then [digitChar n] else natDigits (n / 10) ++ [digitChar (n % 10)] := by
  have h0 : natDigits n = natDigitsFuel (n + 1) n := rfl
  rw [h0, natDigitsFuel]
  by_cases h : n < 10
  · simp [h]
  · simp only [h, if_false]
    rw [natDigitsFuel_eq n (n / 10 + 1) (n / 10) (by omega) (by omega)]
    rfl

theorem natDigits_head (n : Nat) :
    ∃ d cs, natDigits n = digitChar d :: cs ∧ d < 10 ∧ (0 < n → 0 < d) := by
  induction n using Nat.strong_induction_on with
  | _ n ih =>
    rw [natDigits_eq]
    by_cases h : n < 10
    · exact ⟨n, [], by simp [h], h, fun hn => hn⟩
    · obtain ⟨d, cs, hd, hlt, hpos⟩ := ih (n / 10) (by omega)
      refine ⟨d, cs ++ [digitChar (n % 10)], by simp [h, hd], hlt, fun _ => hpos (by omega)⟩

theorem parseDigits_of_numEnd (rest : Text) (acc : Nat) (h : NumEnd rest) :
    parseDigits rest acc = (acc, rest) := by
  cases rest with
  | nil => rfl
  | cons c cs => simp only [NumEnd] at h; simp [parseDigits, h.1]

theorem parseDigits_natDigits (n : Nat) : ∀ (acc : Nat) (rest : Text),
    parseDigits (natDigits n ++ rest) acc
      = parseDigits rest (acc * 10 ^ (natDigits n).length + n) := by
  induction n using Nat.strong_induction_on with
  | _ n ih =>
    intro acc rest
    rw [natDigits_eq]
    by_cases h : n < 10
    · simp [h, parseDigits, digitVal_digitChar n h]
    · simp only [h, if_false, List.append_assoc, List.length_append, List.length_singleton]
      rw [ih (n / 10) (by omega)]
      simp only [List.singleton_append, parseDigits,
        digitVal_digitChar (n % 10) (Nat.mod_lt _ (by norm_num))]
      congr 1
      rw [pow_succ]
      have := Nat.div_add_mod n 10
      nlinarith [this]

theorem parseNat_natDigits (n : Nat) (rest : Text) (h : NumEnd rest) :
    parseNat (natDigits n ++ rest) = some (n, rest) := by
  obtain ⟨d, cs, hd, hlt, hpos⟩ := natDigits_head n
  have hr : (if d = 0 then (0, cs ++ rest) else parseDigits (cs ++ rest) d) = (n, rest) := by
    by_cases hn : n = 0
    · subst hn
      have : natDigits 0 = ['0'] := rfl
      rw [this] at hd
      have hd0 : d = 0 := by
        have h1 := digitVal_digitChar d hlt
        have h2 : digitChar d = '0' := by
          have := (List.cons.inj hd).1; exact this.symm
        rw [h2] at h1
        have : digitVal '0' = some 0 := rfl
        rw [this] at h1
        exact (Option.some.inj h1).symm
      have hcs : cs = [] := (List.cons.inj hd).2.symm
      simp [hd0, hcs]
    · have hdpos : 0 < d := hpos (Nat.pos_of_ne_zero hn)
      have hd0 : d ≠ 0 := by omega
      simp only [hd0, if_false]
      have h1 := parseDigits_natDigits n 0 rest
      rw [hd, List.cons_append] at h1
      simp only [parseDigits, digitVal_digitChar d hlt, Nat.zero_mul, Nat.zero_add] at h1
      rw [h1, parseDigits_of_numEnd rest n h]
  rw [hd, List.cons_append]
  simp only [parseNat, digitVal_digitChar d hlt, hr]
  cases rest with
  | nil => rfl
  | cons c cs2 =>
    simp only [NumEnd] at h
    simp [h.1, h.2.1, h.2.2.1, h.2.2.2]

theorem printInt_head (n : Int) :
    ∃ c cs, printInt n = c :: cs ∧ (c = '-' ∨ ∃ d, d < 10 ∧ c = digitChar d) := by
  cases n with
  | ofNat n =>
    obtain ⟨d, cs, hd, hlt, _⟩ := natDigits_head n
    exact ⟨_, cs, hd, Or.inr ⟨d, hlt, rfl⟩⟩
  | negSucc n => exact ⟨'-', _, rfl, Or.inl rfl⟩

theorem digitChar_ne_minus (d : Nat) : digitChar d ≠ '-' := by
  unfold digitChar
  split <;> decide

theorem parseInt_printInt (n : Int) (rest : Text) (h : NumEnd rest) :
    parseInt (printInt n ++ rest) = some (n, rest) := by
  cases n with
  | ofNat n =>
    obtain ⟨d, cs, hd, hlt, _⟩ := natDigits_head n
    have hp := parseNat_natDigits n rest h
    simp only [printInt]
    rw [hd, List.cons_append] at hp ⊢
    simp only [parseInt, digitChar_ne_minus d, if_false, hp]
    rfl
  | negSucc n =>
    have hp := parseNat_natDigits (n + 1) rest h
    simp only [printInt, List.cons_append, parseInt, if_true, hp]
    rfl
theorem hexVal_hexChar (d : Nat) (h : d < 16) : hexVal (hexChar d) = some d := by
  interval_cases d <;> rfl

theorem parseBody_escapeChar (c : Char) (tail : Text) :
    parseBody (escapeChar c ++ tail) = consChar c (parseBody tail) := by
  unfold escapeChar parseBody
  by_cases h1 : c = '"'
  · subst h1; simp [parseBodyAux, unescape]
  by_cases h2 : c = '\\'
  · subst h2; simp [parseBodyAux, unescape]
  by_cases h3 : c = '\x08'
  · subst h3; simp [parseBodyAux, unescape]
  by_cases h4 : c = '\x0c'
  · subst h4; simp [parseBodyAux, unescape]
  by_cases h5 : c = '\n'
  · subst h5; simp [parseBodyAux, unescape]
  by_cases h6 : c = '\r'
  · subst h6; simp [parseBodyAux, unescape]
  by_cases h7 : c = '\t'
  · subst h7; simp [parseBodyAux, unescape]
  by_cases h8 : c.toNat < 32
  · simp only [h1, h2, h3, h4, h5, h6, h7, h8, if_false, if_true, List.cons_append,
      List.nil_append]
    have hhi : hexVal (hexChar (c.toNat / 16)) = some (c.toNat / 16) :=
      hexVal_hexChar _ (by omega)
    have hlo : hexVal (hexChar (c.toNat % 16)) = some (c.toNat % 16) :=
      hexVal_hexChar _ (by omega)
    have h0 : hexVal '0' = some 0 := rfl
    have hsur : ¬ (0xD800 ≤ c.toNat ∧ c.toNat ≤ 0xDFFF) := by omega
    have hval1 : c.toNat / 16 * 16 + c.toNat % 16 = c.toNat := by omega
    simp [parseBodyAux, h0, hhi, hlo, hval1, hsur]
  · simp only [h1, h2, h3, h4, h5, h6, h7, h8, if_false, List.cons_append, List.nil_append,
      parseBodyAux]

theorem parseBody_quote (s : Text) (rest : Text) :
    parseBody (s.flatMap escapeChar ++ '"' :: rest) = some (s, rest) := by
  induction s with
  | nil => simp [parseBody, parseBodyAux]
  | cons c s ih =>
    rw [List.flatMap_cons, List.append_assoc, parseBody_escapeChar, ih]
    rfl
theorem numEnd_comma (r : Text) : NumEnd (',' :: r) := by
  simp [NumEnd, digitVal]

theorem numEnd_bracket (r : Text) : NumEnd (']' :: r) := by
  simp [NumEnd, digitVal]

theorem numEnd_brace (r : Text) : NumEnd ('}' :: r) := by
  simp [NumEnd, digitVal]

theorem digitChar_not_opener (d : Nat) :
    digitChar d ≠ '"' ∧ digitChar d ≠ '[' ∧ digitChar d ≠ '{' ∧ digitChar d ≠ 'n' ∧
      digitChar d ≠ ']' := by
  unfold digitChar
  split <;> decide

theorem print_head (v : Json) : ∃ c cs, stringify v = c :: cs ∧ c ≠ ']' := by
  cases v with
  | null => exact ⟨'n', ['u', 'l', 'l'], by simp [stringify], by decide⟩
  | num n =>
    obtain ⟨c, cs, h, hc⟩ := printInt_head n
    refine ⟨c, cs, by simp [stringify, h], ?_⟩
    rcases hc with rfl | ⟨d, _, rfl⟩
    · decide
    · exact (digitChar_not_opener d).2.2.2.2
  | str s => exact ⟨'"', s.flatMap escapeChar ++ ['"'], by simp [stringify, quote], by decide⟩
  | arr xs => exact ⟨'[', stringifyElems xs ++ [']'], by simp [stringify], by decide⟩
  | obj kvs => exact ⟨'{', stringifyMembers kvs ++ ['}'], by simp [stringify], by decide⟩

theorem print_length_pos (v : Json) : 0 < (stringify v).length := by
  obtain ⟨c, cs, h, _⟩ := print_head v
  rw [h]; simp

theorem parseValue_num (n : Int) (f : Nat) (rest : Text) (h : NumEnd rest) :
    parseValue (f + 1) (printInt n ++ rest) = some (.num n, rest) := by
  obtain ⟨c, cs, hc, hcase⟩ := printInt_head n
  have hp := parseInt_printInt n rest h
  rw [hc, List.cons_append] at hp ⊢
  have hne : c ≠ '"' ∧ c ≠ '[' ∧ c ≠ '{' ∧ c ≠ 'n' := by
    rcases hcase with rfl | ⟨d, _, rfl⟩
    · decide
    · have := digitChar_not_opener d
      exact ⟨this.1, this.2.1, this.2.2.1, this.2.2.2.1⟩
  simp only [parseValue, hne.1, hne.2.1, hne.2.2.1, hne.2.2.2, if_false, hp]

mutual
theorem parseValue_print : ∀ (v : Json) (f : Nat) (rest : Text),
    (stringify v).length < f → NumEnd rest → parseValue f (stringify v ++ rest) = some (v, rest)
  | .null, f, rest, hf, _ => by
    cases f with
    | zero => omega
    | succ f => simp [stringify, parseValue]
  | .num n, f, rest, hf, hr => by
    cases f with
    | zero => omega
    | succ f => simpa [stringify] using parseValue_num n f rest hr
  | .str s, f, rest, hf, _ => by
    cases f with
    | zero => omega
    | succ f =>
      have := parseBody_quote s rest
      simp [stringify, quote, parseValue, this]
  | .arr [], f, rest, hf, _ => by
    cases f with
    | zero => omega
    | succ f => simp [stringify, stringifyElems, parseValue]
  | .arr (x :: xs), f, rest, hf, _ => by
    cases f with
    | zero => omega
    | succ f =>
      have hlen : (stringifyElems (x :: xs)).length + 1 < f := by
        simp [stringify] at hf
        omega
      have hel := parseElems_print (x :: xs) f rest (by simp) hlen
      obtain ⟨c, cs, hc, hne⟩ := print_head x
      have hpe : stringifyElems (x :: xs) = c :: (cs ++ stringifyElemsTail xs) := by
        simp [stringifyElems, hc]
      rw [hpe] at hel
      simp only [stringify, hpe, List.cons_append, List.append_assoc, List.singleton_append,
        parseValue]
      simp only [show ('[' : Char) ≠ '"' by decide, if_false, if_true, hne,
        List.nil_append]
      rw [List.cons_append, List.append_assoc] at hel
      rw [hel]
  | .obj [], f, rest, hf, _ => by
    cases f with
    | zero => omega
    | succ f => simp [stringify, stringifyMembers, parseValue]
  | .obj (kv :: kvs), f, rest, hf, _ => by
    cases f with
    | zero => omega
    | succ f =>
      have hlen : (stringifyMembers (kv :: kvs)).length + 1 < f := by
        simp [stringify] at hf
        omega
      have hel := parseMembers_print (kv :: kvs) f rest (by simp) hlen
      obtain ⟨k, v⟩ := kv
      have hpe : stringifyMembers ((k, v) :: kvs)
          = '"' :: (k.flatMap escapeChar ++ ['"'] ++ ':' :: (stringify v ++ stringifyMembersTail kvs)) := by
        simp [stringifyMembers, quote]
      rw [hpe] at hel
      simp only [stringify, hpe, List.cons_append, List.append_assoc, List.singleton_append,
        parseValue]
      simp only [show ('{' : Char) ≠ '"' by decide, show ('{' : Char) ≠ '[' by decide,
        show ('"' : Char) ≠ '}' by decide, if_false, if_true]
      simp only [List.cons_append, List.append_assoc, List.singleton_append,
        List.nil_append] at hel ⊢
      rw [hel]
theorem parseElems_print : ∀ (l : List Json) (f : Nat) (rest : Text),
    l ≠ [] → (stringifyElems l).length + 1 < f →
    parseElems f (stringifyElems l ++ ']' :: rest) = some (l, rest)
  | [], _, _, hne, _ => absurd rfl hne
  | [x], f, rest, _, hf => by
    cases f with
    | zero => omega
    | succ f =>
      have hx := parseValue_print x f (']' :: rest)
        (by simp [stringifyElems, stringifyElemsTail] at hf; omega) (numEnd_bracket rest)
      simp [stringifyElems, stringifyElemsTail, parseElems, hx]
  | x :: y :: ys, f, rest, _, hf => by
    cases f with
    | zero => omega
    | succ f =>
      have hpos := print_length_pos x
      have hx := parseValue_print x f (',' :: (stringifyElems (y :: ys) ++ ']' :: rest))
        (by simp [stringifyElems, stringifyElemsTail] at hf; omega) (numEnd_comma _)
      have hrec := parseElems_print (y :: ys) f rest (by simp)
        (by simp [stringifyElems, stringifyElemsTail] at hf ⊢; omega)
      have hp : stringifyElems (x :: y :: ys) ++ ']' :: rest
          = stringify x ++ ',' :: (stringifyElems (y :: ys) ++ ']' :: rest) := by
        simp [stringifyElems, stringifyElemsTail]
      rw [hp]
      simp only [parseElems, hx, if_true, hrec]
theorem parseMembers_print : ∀ (l : List (Text × Json)) (f : Nat) (rest : Text),
    l ≠ [] → (stringifyMembers l).length + 1 < f →
    parseMembers f (stringifyMembers l ++ '}' :: rest) = some (l, rest)
  | [], _, _, hne, _ => absurd rfl hne
  | [(k, v)], f, rest, _, hf => by
    cases f with
    | zero => omega
    | succ f =>
      have hv := parseValue_print v f ('}' :: rest)
        (by simp [stringifyMembers, stringifyMembersTail, quote] at hf; omega) (numEnd_brace rest)
      have hk := parseBody_quote k (':' :: (stringify v ++ '}' :: rest))
      simp [stringifyMembers, stringifyMembersTail, quote, parseMembers, hk, hv]
  | (k, v) :: kv2 :: kvs, f, rest, _, hf => by
    cases f with
    | zero => omega
    | succ f =>
      have hv := parseValue_print v f (',' :: (stringifyMembers (kv2 :: kvs) ++ '}' :: rest))
        (by simp [stringifyMembers, stringifyMembersTail, quote] at hf; omega) (numEnd_comma _)
      have hrec := parseMembers_print (kv2 :: kvs) f rest (by simp)
        (by
          obtain ⟨k2, v2⟩ := kv2
          simp [stringifyMembers, stringifyMembersTail, quote] at hf ⊢; omega)
      have hk := parseBody_quote k
        (':' :: (stringify v ++ ',' :: (stringifyMembers (kv2 :: kvs) ++ '}' :: rest)))
      have hp : stringifyMembers ((k, v) :: kv2 :: kvs) ++ '}' :: rest
          = '"' :: (k.flatMap escapeChar ++ '"' :: ':' ::
              (stringify v ++ ',' :: (stringifyMembers (kv2 :: kvs) ++ '}' :: rest))) := by
        obtain ⟨k2, v2⟩ := kv2
        simp [stringifyMembers, stringifyMembersTail, quote]
      rw [hp]
      simp only [parseMembers, if_true, hk, hv, hrec]
end

/-- JSON.parse undoes JSON.stringify on every value of the fragment. -/
theorem parse_print (v : Json) : parse (stringify v) = some v := by
  have h := parseValue_print v ((stringify v).length + 1) [] (by omega) trivial
  rw [List.append_nil] at h
  simp only [parse, h]

/-! ## Snapshot round trips -/

theorem uint8Elems_map (b : List Nat) (h : ∀ x ∈ b, x < 256) :
    uint8Elems (b.map (fun (x : Nat) => Json.num (x : Int))) = some b := by
  induction b with
  | nil => rfl
  | cons x b ih =>
    have hx : x < 256 := h x (List.mem_cons_self _ _)
    have hb := ih (fun y hy => h y (List.mem_cons_of_mem _ hy))
    have hmod : toUint8 (x : Int) = x := by
      unfold toUint8
      omega
    simp only [List.map_cons, uint8Elems, hb, hmod]

/-- C15: for every byte array b exported by the engine (every element in
0..255, any length including 0), decoding the text saveDatabase stores,
new Uint8Array(JSON.parse(JSON.stringify(Array.from(b)))), yields b again:
the same length and the same bytes. -/
theorem parseBytes_stringifyBytes (b : List Nat) (h : ∀ x ∈ b, x < 256) :
    parseBytes (stringifyBytes b) = some b := by
  unfold parseBytes stringifyBytes
  rw [parse_print]
  exact uint8Elems_map b h

theorem parseBytes_stringifyBytes_witness :
    (∀ x ∈ [83, 81, 76, 105, 0, 255], x < 256) ∧
    stringifyBytes [83, 81, 76, 105, 0, 255] = "[83,81,76,105,0,255]".toList ∧
    parseBytes (stringifyBytes [83, 81, 76, 105, 0, 255]) = some [83, 81, 76, 105, 0, 255] :=
  ⟨by decide, by decide, parseBytes_stringifyBytes [83, 81, 76, 105, 0, 255] (by decide)⟩

/-- The JSON value of each collection is what parsing its text gives back. -/
theorem collections_roundtrip (calls : List Call) (iso : Nat → Text) :
    parse (stringify (.arr ((run Store.empty calls).users.map (User.toJson iso))))
      = some (.arr ((run Store.empty calls).users.map (User.toJson iso))) ∧
    parse (stringify (.arr ((run Store.empty calls).posts.map (Post.toJson iso))))
      = some (.arr ((run Store.empty calls).posts.map (Post.toJson iso))) ∧
    parse (stringify (.arr ((run Store.empty calls).comments.map (Comment.toJson iso))))
      = some (.arr ((run Store.empty calls).comments.map (Comment.toJson iso))) ∧
    parse (stringify (.arr ((run Store.empty calls).likes.map (Like.toJson iso))))
      = some (.arr ((run Store.empty calls).likes.map (Like.toJson iso))) :=
  ⟨parse_print _, parse_print _, parse_print _, parse_print _⟩

set_option maxRecDepth 8000 in
/-- The text written for the posts of a small reachable store. -/
theorem stringify_posts_example :
    String.mk (stringify (.arr ((run Store.empty likeBeforePost).posts.map
        (Post.toJson isoDigits))))
      = "[\x7b\"id\":7,\"title\":\"Intro\",\"description\":\"text\",\"tags\":\"\",\"image_data\":null,\"audio_data\":null,\"video_data\":null,\"author_id\":3,\"created_at\":\"7\",\"likes_count\":0\x7d]" := by
  decide

/-! ## Reads do not write -/

theorem readOnly_pure {α : Type} (a : α) : ReadOnly (pure a : Eff α) :=
  fun _ => rfl

theorem readOnly_bind {α β : Type} (m : Eff α) (f : α → Eff β)
    (hm : ReadOnly m) (hf : ∀ a, ReadOnly (f a)) : ReadOnly (m >>= f) := by
  intro ls
  show (Eff.bind m f ls).2 = ls
  unfold Eff.bind
  have h := hm ls
  cases hr : m ls with
  | mk r ls1 =>
    rw [hr] at h
    simp only at h
    subst h
    cases r with
    | none => rfl
    | some a => exact hf a ls1

theorem readOnly_getItem (k : StorageKey) : ReadOnly (Eff.getItem k) :=
  fun _ => rfl

theorem readOnly_parseWith {α : Type} (decode : Text → Option α) (t : Text) :
    ReadOnly (Eff.parseWith decode t) :=
  fun _ => rfl

theorem readOnly_readUsers (D : Decoders) : ReadOnly (readUsers D) :=
  readOnly_bind _ _ (readOnly_getItem _) (fun _ => readOnly_parseWith _ _)

theorem readOnly_readPosts (D : Decoders) : ReadOnly (readPosts D) :=
  readOnly_bind _ _ (readOnly_getItem _) (fun _ => readOnly_parseWith _ _)

theorem readOnly_readComments (D : Decoders) : ReadOnly (readComments D) :=
  readOnly_bind _ _ (readOnly_getItem _) (fun _ => readOnly_parseWith _ _)

theorem readOnly_readLikes (D : Decoders) : ReadOnly (readLikes D) :=
  readOnly_bind _ _ (readOnly_getItem _) (fun _ => readOnly_parseWith _ _)

/-- C18: the six read operations authenticateUser, getUserById, getAllPosts,
getPostById, getCommentsByPostId and isPostLikedByUser perform no write: for
every localStorage content, whatever JSON.parse makes of the stored texts
(also when it throws) and all arguments, the storage after the call is the
storage before it. -/
theorem reads_leave_storage (D : Decoders) (ls : LocalStorage)
    (email password : String) (userId postId : Nat) :
    (Storage.authenticateUser D email password ls).2 = ls ∧
    (Storage.getUserById D userId ls).2 = ls ∧
    (Storage.getAllPosts D ls).2 = ls ∧
    (Storage.getPostById D postId ls).2 = ls ∧
    (Storage.getCommentsByPostId D postId ls).2 = ls ∧
    (Storage.isPostLikedByUser D postId userId ls).2 = ls := by
  refine ⟨?_, ?_, ?_, ?_, ?_, ?_⟩
  · exact readOnly_bind _ _ (readOnly_readUsers D) (fun _ => readOnly_pure _) ls
  · refine readOnly_bind _ _ (readOnly_readUsers D) (fun users => ?_) ls
    cases users.find? (fun u => u.id == userId) <;> exact readOnly_pure _
  · exact readOnly_bind _ _ (readOnly_readPosts D)
      (fun _ => readOnly_bind _ _ (readOnly_readUsers D) (fun _ => readOnly_pure _)) ls
  · refine readOnly_bind _ _ (readOnly_readPosts D)
      (fun posts => readOnly_bind _ _ (readOnly_readUsers D) (fun _ => ?_)) ls
    cases posts.find? (fun p => p.id == postId) <;> exact readOnly_pure _
  · exact readOnly_bind _ _ (readOnly_readComments D)
      (fun _ => readOnly_bind _ _ (readOnly_readUsers D) (fun _ => readOnly_pure _)) ls
  · exact readOnly_bind _ _ (readOnly_readLikes D) (fun _ => readOnly_pure _) ls

/-- The storage-level reads return what the methods over decoded collections
return, whenever the four texts parse. -/
theorem storage_reads_agree (D : Decoders) (ls : LocalStorage) (s : Store)
    (hs : decodeStore D ls = some s) (email password : String) (userId postId : Nat) :
    (Storage.authenticateUser D email password ls).1 = some (authenticateUser s email password) ∧
    (Storage.getUserById D userId ls).1 = some (getUserById s userId) ∧
    (Storage.getAllPosts D ls).1 = some (getAllPosts s) ∧
    (Storage.getPostById D postId ls).1 = some (getPostById s postId) ∧
    (Storage.getCommentsByPostId D postId ls).1 = some (getCommentsByPostId s postId) ∧
    (Storage.isPostLikedByUser D postId userId ls).1 = some (isPostLikedByUser s postId userId) := by
  unfold decodeStore at hs
  cases hu : D.users (orEmptyArray ls.users) with
  | none => simp [hu] at hs
  | some us =>
    cases hp : D.posts (orEmptyArray ls.posts) with
    | none => simp [hu, hp] at hs
    | some ps =>
      cases hc : D.comments (orEmptyArray ls.comments) with
      | none => simp [hu, hp, hc] at hs
      | some cs =>
        cases hl : D.likes (orEmptyArray ls.likes) with
        | none => simp [hu, hp, hc, hl] at hs
        | some lk =>
          simp only [hu, hp, hc, hl, Option.some.injEq] at hs
          subst hs
          have hU : readUsers D ls = (some us, ls) := by
            unfold readUsers
            simp [Bind.bind, Eff.bind, Eff.getItem, Eff.parseWith, LocalStorage.getItem, hu]
          have hP : readPosts D ls = (some ps, ls) := by
            unfold readPosts
            simp [Bind.bind, Eff.bind, Eff.getItem, Eff.parseWith, LocalStorage.getItem, hp]
          have hC : readComments D ls = (some cs, ls) := by
            unfold readComments
            simp [Bind.bind, Eff.bind, Eff.getItem, Eff.parseWith, LocalStorage.getItem, hc]
          have hL : readLikes D ls = (some lk, ls) := by
            unfold readLikes
            simp [Bind.bind, Eff.bind, Eff.getItem, Eff.parseWith, LocalStorage.getItem, hl]
          refine ⟨?_, ?_, ?_, ?_, ?_, ?_⟩
          · show (Eff.bind _ _ ls).1 = _
            simp only [Eff.bind, hU]
            rfl
          · show (Eff.bind _ _ ls).1 = _
            simp only [Eff.bind, hU, getUserById]
            cases us.find? (fun u => u.id == userId) <;> rfl
          · show (Eff.bind _ _ ls).1 = _
            simp only [Eff.bind, hP]
            show (Eff.bind _ _ ls).1 = _
            simp only [Eff.bind, hU]
            rfl
          · show (Eff.bind _ _ ls).1 = _
            simp only [Eff.bind, hP]
            show (Eff.bind _ _ ls).1 = _
            simp only [Eff.bind, hU, getPostById]
            cases ps.find? (fun p => p.id == postId) <;> rfl
          · show (Eff.bind _ _ ls).1 = _
            simp only [Eff.bind, hC]
            show (Eff.bind _ _ ls).1 = _
            simp only [Eff.bind, hU]
            rfl
          · show (Eff.bind _ _ ls).1 = _
            simp only [Eff.bind, hL]
            rfl

/-! ## Backend selection -/

theorem programStep_db_none {Db : Type} (E : SqlEngine Db)
    (relational : Db → FacadeCall → Db) (m : Manager Db) (op : ProgramOp Db)
    (hm : m.db = none) (hop : op.isImport = false) :
    (programStep E relational m op).db = none := by
  cases op with
  | facade c => simp [programStep, hm]
  | saveDatabase => exact hm
  | createTables => simp [programStep, hm]
  | exportDatabase => exact hm
  | autoSave => exact hm
  | importDatabase file engine => simp [ProgramOp.isImport] at hop

theorem foldl_programStep_db_none {Db : Type} (E : SqlEngine Db)
    (relational : Db → FacadeCall → Db) (ops : List (ProgramOp Db)) (m : Manager Db)
    (hm : m.db = none) (hops : ∀ op ∈ ops, op.isImport = false) :
    (ops.foldl (programStep E relational) m).db = none := by
  induction ops generalizing m with
  | nil => exact hm
  | cons op ops ih =>
    rw [List.foldl_cons]
    exact ih _ (programStep_db_none E relational m op hm (hops op (List.mem_cons_self _ _)))
      (fun o ho => hops o (List.mem_cons_of_mem _ ho))

theorem initDatabase_of_failure {Db : Type} (env : InitEnv Db) (m : Manager Db)
    (ls : LocalStorage)
    (hfail : env.sql = none ∨
      ∃ E c cs, env.sql = some E ∧ ls.database = some (c :: cs) ∧
        (env.bytesOfJson (c :: cs) = none ∨
          ∃ b, env.bytesOfJson (c :: cs) = some b ∧ E.openBytes b = none)) :
    initDatabase env m ls = (initFallbackStorage m ls, false) := by
  rcases hfail with h | ⟨E, c, cs, hE, hdb, hdec⟩
  · simp only [initDatabase, h]
  · rcases hdec with hj | ⟨b, hj, ho⟩
    · simp only [initDatabase, hE, LocalStorage.getItem, hdb, hj]
    · simp only [initDatabase, hE, LocalStorage.getItem, hdb, hj, ho]

/-- C19 (counterexample): the engine loads but the saved snapshot is not
JSON, so initDatabase returns false and leaves db null; importing a database
file afterwards makes importDatabase assign the new database to
dbManager.db, which is then non-null. -/
theorem import_installs_engine_after_fallback :
    (initDatabase corruptSnapshotEnv Manager.new corruptSnapshotStorage).2 = false ∧
    (initDatabase corruptSnapshotEnv Manager.new corruptSnapshotStorage).1.1.db = none ∧
    (programStep bytesEngine (fun d _ => d)
        (initDatabase corruptSnapshotEnv Manager.new corruptSnapshotStorage).1.1
        (.importDatabase (some [83, 81, 76]) (some bytesEngine))).db = some [83, 81, 76] := by
  decide

/-- C19 (amended): if initDatabase fails because the engine does not load or
because the saved snapshot does not decode, it returns false with db = null
and isInitialized = true, and db stays null under every later sequence of
facade calls, saveDatabase, createTables, exportDatabase and auto-save runs;
importDatabase is the one operation that can install a relational database
afterwards. -/
theorem fallback_permanent_without_import {Db : Type} (env : InitEnv Db) (ls : LocalStorage)
    (hfail : env.sql = none ∨
      ∃ E c cs, env.sql = some E ∧ ls.database = some (c :: cs) ∧
        (env.bytesOfJson (c :: cs) = none ∨
          ∃ b, env.bytesOfJson (c :: cs) = some b ∧ E.openBytes b = none)) :
    (initDatabase env Manager.new ls).2 = false ∧
    (initDatabase env Manager.new ls).1.1.db = none ∧
    (initDatabase env Manager.new ls).1.1.isInitialized = true ∧
    ∀ (E : SqlEngine Db) (relational : Db → FacadeCall → Db) (ops : List (ProgramOp Db)),
      (∀ op ∈ ops, op.isImport = false) →
      (ops.foldl (programStep E relational) (initDatabase env Manager.new ls).1.1).db = none := by
  rw [initDatabase_of_failure env Manager.new ls hfail]
  refine ⟨rfl, rfl, rfl, ?_⟩
  intro E relational ops hops
  exact foldl_programStep_db_none E relational ops _ rfl hops

theorem fallback_permanent_without_import_witness :
    (initDatabase corruptSnapshotEnv Manager.new corruptSnapshotStorage).2 = false ∧
    (initDatabase corruptSnapshotEnv Manager.new corruptSnapshotStorage).1.1.db = none ∧
    (initDatabase corruptSnapshotEnv Manager.new corruptSnapshotStorage).1.1.isInitialized = true ∧
    ∀ (E : SqlEngine (List Nat)) (relational : List Nat → FacadeCall → List Nat)
      (ops : List (ProgramOp (List Nat))),
      (∀ op ∈ ops, op.isImport = false) →
      (ops.foldl (programStep E relational)
        (initDatabase corruptSnapshotEnv Manager.new corruptSnapshotStorage).1.1).db = none :=
  fallback_permanent_without_import corruptSnapshotEnv corruptSnapshotStorage
    (Or.inr ⟨bytesEngine, 'o', ['o', 'p', 's'], rfl, rfl, Or.inl (by decide)⟩)

/-- C20 (counterexample): the engine loads and the snapshot under
'roklearn_database' is the text 'oops', which JSON.parse rejects;
initDatabase returns false, db is null and no database was saved: the
snapshot slot still holds 'oops' and the four fallback keys were set to
'[]'. -/
theorem corrupt_snapshot_falls_back :
    initDatabase corruptSnapshotEnv Manager.new corruptSnapshotStorage
      = (({ db := none, isInitialized := true },
          { database := some ['o', 'o', 'p', 's'], users := some ['[', ']'],
            posts := some ['[', ']'], comments := some ['[', ']'],
            likes := some ['[', ']'] }), false) := by
  decide

/-- C20 (amended): when the engine loads but the saved snapshot under
'roklearn_database' fails to decode (JSON.parse throws or the engine rejects
the bytes), initDatabase takes the outer catch: it runs initFallbackStorage,
which sets isInitialized and creates the missing fallback keys, it leaves db
as it was (null after construction), it neither creates a fresh database nor
runs createTables (the snapshot slot is untouched), and it returns false. -/
theorem corrupt_snapshot_uses_fallback {Db : Type} (env : InitEnv Db) (E : SqlEngine Db)
    (ls : LocalStorage) (c : Char) (cs : Text)
    (hsql : env.sql = some E) (hsaved : ls.database = some (c :: cs))
    (hdec : env.bytesOfJson (c :: cs) = none ∨
      ∃ b, env.bytesOfJson (c :: cs) = some b ∧ E.openBytes b = none) :
    initDatabase env Manager.new ls = (initFallbackStorage Manager.new ls, false) ∧
    (initDatabase env Manager.new ls).1.1.db = none ∧
    (initDatabase env Manager.new ls).1.1.isInitialized = true ∧
    (initDatabase env Manager.new ls).1.2.database = ls.database := by
  have h := initDatabase_of_failure env Manager.new ls
    (Or.inr ⟨E, c, cs, hsql, hsaved, hdec⟩)
  rw [h]
  refine ⟨rfl, rfl, rfl, ?_⟩
  simp only [initFallbackStorage, ensureKey, LocalStorage.setItem]
  repeat' split
  all_goals rfl

theorem corrupt_snapshot_uses_fallback_witness :
    initDatabase corruptSnapshotEnv Manager.new corruptSnapshotStorage
      = (initFallbackStorage Manager.new corruptSnapshotStorage, false) ∧
    (initDatabase corruptSnapshotEnv Manager.new corruptSnapshotStorage).1.1.db = none ∧
    (initDatabase corruptSnapshotEnv Manager.new corruptSnapshotStorage).1.1.isInitialized = true ∧
    (initDatabase corruptSnapshotEnv Manager.new corruptSnapshotStorage).1.2.database
      = corruptSnapshotStorage.database :=
  corrupt_snapshot_uses_fallback corruptSnapshotEnv bytesEngine corruptSnapshotStorage
    'o' ['o', 'p', 's'] rfl rfl (Or.inl (by decide))

/-! ## Dangling references, counter floor, id collisions, record lifecycle -/

theorem resolvesTo_find (users : List User) (id : Nat) :
    ResolvesTo users id
      (match users.find? (fun u => u.id == id) with
        | some a => a.name
        | none => "Unknown User") := by
  constructor
  · intro h
    have hf : users.find? (fun u => u.id == id) = none := by
      rw [List.find?_eq_none]
      intro u hu
      simpa using h u hu
    rw [hf]
  · intro l1 l2 u hs hl1 hu
    have hf : users.find? (fun u => u.id == id) = some u := by
      rw [hs, List.find?_append]
      have : l1.find? (fun u => u.id == id) = none := by
        rw [List.find?_eq_none]
        intro v hv
        simpa using hl1 v hv
      simp [this, hu]
    rw [hf]

/-- The names resolved in a store with dangling and colliding references. -/
theorem dangling_references_example :
    (getAllPosts danglingStore).map (fun v => (v.title, v.author_name))
      = [("Intro", "Unknown User"), ("Second", "Alice")] ∧
    (getCommentsByPostId danglingStore 6).map (fun v => (v.content, v.user_name))
      = [("hi", "Alice"), ("anon", "Unknown User")] ∧
    (toggleLike danglingStore 77 88 20 20).2 = { success := true, liked := some true } := by
  decide

/-- C22: in every state reached from the empty store by facade operations
every post's likes_count is a non-negative integer; and in every state,
when toggleLike finds a Like for (p, u) and removes it, the stored post it
updates (the first one with id p), whose counter is c, gets the counter
max(0, c - 1) and is otherwise unchanged. -/
theorem likes_count_floor :
    (∀ (calls : List Call), ∀ P ∈ (run Store.empty calls).posts, 0 ≤ P.likes_count) ∧
    (∀ (s : Store) (p u now ts : Nat) (P : Post),
      isPostLikedByUser s p u = true →
      s.posts.find? (fun q => q.id == p) = some P →
      (toggleLike s p u now ts).1.posts.find? (fun q => q.id == p)
        = some { P with likes_count := max 0 (P.likes_count - 1) }) := by
  refine ⟨fun calls => reachable_countsNonneg calls, ?_⟩
  intro s p u now ts P hl hP
  rw [toggleLike_find, hP, hl]
  simp [decLikes, orZero_eq]

theorem likes_count_floor_witness :
    (∀ P ∈ (run Store.empty likeBeforePost).posts, 0 ≤ P.likes_count) ∧
    (toggleLike (run Store.empty likeBeforePost) 7 1 8 8).1.posts.find? (fun q => q.id == 7)
        = some { (⟨7, "Intro", "text", "", none, none, none, 3, 7, 0⟩ : Post) with
                 likes_count := max 0 ((0 : Int) - 1) } :=
  ⟨likes_count_floor.1 likeBeforePost,
   likes_count_floor.2 (run Store.empty likeBeforePost) 7 1 8 8
     ⟨7, "Intro", "text", "", none, none, none, 3, 7, 0⟩ (by decide) (by decide)⟩

/-- C25: two createUser calls with different emails made at the same clock
reading both return success and store two users with the same id; from then
on, whatever facade operations follow, getUserById of that id returns the
first of them, never the second. -/
theorem user_id_collision :
    (createUser Store.empty "Alice" "alice@x.com" "h1" 1 1).2 = { success := true } ∧
    (createUser (createUser Store.empty "Alice" "alice@x.com" "h1" 1 1).1
        "Bob" "bob@x.com" "h2" 1 1).2 = { success := true } ∧
    (run Store.empty sameTickPair).users
      = [⟨1, "Alice", "alice@x.com", "h1", 1⟩, ⟨1, "Bob", "bob@x.com", "h2", 1⟩] ∧
    ∀ calls : List Call,
      getUserById (run (run Store.empty sameTickPair) calls) 1
        = some ⟨1, "Alice", "alice@x.com", 1⟩ := by
  refine ⟨by decide, by decide, by decide, ?_⟩
  intro calls
  obtain ⟨l, hl⟩ := run_users_append calls (run Store.empty sameTickPair)
  have hu : (run Store.empty sameTickPair).users
      = [⟨1, "Alice", "alice@x.com", "h1", 1⟩, ⟨1, "Bob", "bob@x.com", "h2", 1⟩] := by
    decide
  rw [hu] at hl
  simp [getUserById, hl]

/-- C26: for every state and every facade operation that writes (the reads
leave the whole storage as it is), the users collection before the call is an
initial segment of the users collection after it, and so is the comments
collection: no stored user or comment is updated, reordered or deleted. -/
theorem users_and_comments_only_grow (s : Store) (c : Call) :
    (∃ l, (step s c).users = s.users ++ l) ∧
    (∃ l, (step s c).comments = s.comments ++ l) := by
  refine ⟨step_users_append s c, ?_⟩
  obtain ⟨l, hl, _⟩ := step_comments_sublist s c
  exact ⟨l, hl⟩

/-! ## hashPassword -/

theorem toInt32_modEq (x : Int) : toInt32 x % 2 ^ 32 = x % 2 ^ 32 := by
  unfold toInt32
  split
  · exact Int.emod_emod_of_dvd x (dvd_refl _)
  · omega

theorem toInt32_range (x : Int) : -(2 ^ 31) ≤ toInt32 x ∧ toInt32 x < 2 ^ 31 := by
  unfold toInt32
  have h1 : 0 ≤ x % 2 ^ 32 := Int.emod_nonneg x (by norm_num)
  have h2 : x % 2 ^ 32 < 2 ^ 32 := Int.emod_lt_of_pos x (by norm_num)
  split <;> omega

theorem toInt32_congr (x y : Int) (h : x % 2 ^ 32 = y % 2 ^ 32) : toInt32 x = toInt32 y := by
  unfold toInt32
  rw [h]

theorem toInt32_of_range (x : Int) (h1 : -(2 ^ 31) ≤ x) (h2 : x < 2 ^ 31) : toInt32 x = x := by
  unfold toInt32
  split <;> omega

theorem hashStep_eq (h : Int) (c : CodeUnit) :
    hashStep h c = toInt32 (31 * h + ((c : Nat) : Int)) := by
  unfold hashStep shiftLeft5
  apply toInt32_congr
  have h1 := toInt32_modEq (toInt32 h * 2 ^ 5)
  have h2 := toInt32_modEq h
  omega

theorem foldl_hashStep (cs : List CodeUnit) : ∀ h : Int,
    (cs.foldl hashStep h) % 2 ^ 32 = (h * 31 ^ cs.length + weightedSum cs) % 2 ^ 32 := by
  induction cs with
  | nil => intro h; simp [weightedSum]
  | cons c cs ih =>
    intro h
    rw [List.foldl_cons, ih, hashStep_eq]
    have h1 : toInt32 (31 * h + ((c : Nat) : Int)) ≡ 31 * h + ((c : Nat) : Int) [ZMOD 2 ^ 32] :=
      toInt32_modEq _
    have e : h * 31 ^ (c :: cs).length + weightedSum (c :: cs)
        = (31 * h + ((c : Nat) : Int)) * 31 ^ cs.length + weightedSum cs := by
      simp only [weightedSum, List.length_cons]
      ring
    rw [e]
    exact Int.ModEq.add (Int.ModEq.mul_right _ h1) (Int.ModEq.refl _)

theorem foldl_hashStep_range (cs : List CodeUnit) : ∀ h : Int, -(2 ^ 31) ≤ h → h < 2 ^ 31 →
    -(2 ^ 31) ≤ cs.foldl hashStep h ∧ cs.foldl hashStep h < 2 ^ 31 := by
  induction cs with
  | nil => intro h h1 h2; exact ⟨h1, h2⟩
  | cons c cs ih =>
    intro h _ _
    rw [List.foldl_cons]
    have hr := toInt32_range ((shiftLeft5 h - h) + ((c : Nat) : Int))
    exact ih (hashStep h c) hr.1 hr.2

theorem hashValue_eq (password : List CodeUnit) :
    hashValue password = toInt32 (weightedSum password) := by
  have hr := foldl_hashStep_range password 0 (by norm_num) (by norm_num)
  have hm := foldl_hashStep password 0
  rw [zero_mul, zero_add] at hm
  have h1 : toInt32 (hashValue password) = hashValue password :=
    toInt32_of_range _ hr.1 hr.2
  rw [← h1]
  exact toInt32_congr _ _ hm

/-- C27: for every string p with UTF-16 code units c_0 .. c_(n-1),
hashPassword(p) is the decimal string of the sum over i of c_i * 31^(n-1-i)
taken modulo 2^32 and mapped into [-2^31, 2^31 - 1]; that value lies in this
range and is congruent to the sum modulo 2^32; and hashPassword('') is
'0'. -/
theorem hashPassword_spec (p : List CodeUnit) :
    hashPassword p = printInt (toInt32 (weightedSum p)) ∧
    -(2 ^ 31) ≤ toInt32 (weightedSum p) ∧ toInt32 (weightedSum p) < 2 ^ 31 ∧
    toInt32 (weightedSum p) % 2 ^ 32 = weightedSum p % 2 ^ 32 ∧
    hashPassword [] = ['0'] := by
  refine ⟨?_, (toInt32_range _).1, (toInt32_range _).2, toInt32_modEq _, by decide⟩
  unfold hashPassword
  rw [hashValue_eq]

set_option maxRecDepth 20000 in
/-- The hashes of 'abc' and of 'zzzzzz', the latter past the 32-bit range. -/
theorem hashPassword_examples :
    hashPassword [97, 98, 99] = "96354".toList ∧
    hashPassword [122, 122, 122, 122, 122, 122] = "-685785664".toList := by
  decide

/-! ## isValidEmail -/

theorem mem_notSpaceAt (x : List EmailChar) :
    x ∈ notSpaceAt.matches' ↔ ∃ a, Plain a ∧ x = [a] := by
  unfold notSpaceAt
  rw [RegularExpression.matches'_add, Language.mem_add, RegularExpression.matches'_char,
    RegularExpression.matches'_char]
  constructor
  · rintro (h | h)
    · exact ⟨.dot, Or.inl rfl, h⟩
    · exact ⟨.other, Or.inr rfl, h⟩
  · rintro ⟨a, ha | ha, rfl⟩
    · subst ha; exact Or.inl rfl
    · subst ha; exact Or.inr rfl

theorem mem_oneOrMore (x : List EmailChar) :
    x ∈ (oneOrMore notSpaceAt).matches' ↔ x ≠ [] ∧ ∀ a ∈ x, Plain a := by
  unfold oneOrMore
  rw [RegularExpression.matches'_mul, RegularExpression.matches'_star, Language.mem_mul]
  constructor
  · rintro ⟨a, ha, b, hb, rfl⟩
    obtain ⟨c, hc, rfl⟩ := (mem_notSpaceAt a).mp ha
    refine ⟨by simp, ?_⟩
    intro d hd
    rcases List.mem_append.mp hd with hd | hd
    · rw [List.mem_singleton] at hd; subst hd; exact hc
    · obtain ⟨L, rfl, hL⟩ := Language.mem_kstar.mp hb
      obtain ⟨y, hy, hdy⟩ := List.mem_flatten.mp hd
      obtain ⟨c2, hc2, rfl⟩ := (mem_notSpaceAt y).mp (hL y hy)
      rw [List.mem_singleton] at hdy; subst hdy; exact hc2
  · rintro ⟨hne, hall⟩
    cases x with
    | nil => exact absurd rfl hne
    | cons a t =>
      refine ⟨[a], (mem_notSpaceAt _).mpr ⟨a, hall a (List.mem_cons_self _ _), rfl⟩, t, ?_, rfl⟩
      refine Language.mem_kstar.mpr ⟨t.map (fun c => [c]), ?_, ?_⟩
      · clear hall hne
        induction t with
        | nil => rfl
        | cons b t ih => simp [List.flatten_cons, ← ih]
      · intro y hy
        obtain ⟨c, hc, rfl⟩ := List.mem_map.mp hy
        exact (mem_notSpaceAt _).mpr ⟨c, hall c (List.mem_cons_of_mem _ hc), rfl⟩

theorem mem_emailRegex (x : List EmailChar) :
    x ∈ emailRegex.matches' ↔
      ∃ l1 l2 l3, x = l1 ++ .atSign :: (l2 ++ .dot :: l3) ∧
        (l1 ≠ [] ∧ ∀ a ∈ l1, Plain a) ∧ (l2 ≠ [] ∧ ∀ a ∈ l2, Plain a) ∧
        (l3 ≠ [] ∧ ∀ a ∈ l3, Plain a) := by
  unfold emailRegex
  simp only [RegularExpression.matches'_mul, Language.mem_mul, RegularExpression.matches'_char]
  constructor
  · rintro ⟨a, ⟨b, ⟨c, ⟨d, hd, e, he, rfl⟩, f, hf, rfl⟩, g, hg, rfl⟩, h, hh, rfl⟩
    have he' : e = [EmailChar.atSign] := he
    have hg' : g = [EmailChar.dot] := hg
    subst he' hg'
    exact ⟨d, f, h, by simp, (mem_oneOrMore d).mp hd, (mem_oneOrMore f).mp hf,
      (mem_oneOrMore h).mp hh⟩
  · rintro ⟨l1, l2, l3, rfl, h1, h2, h3⟩
    refine ⟨l1 ++ [.atSign] ++ l2 ++ [.dot], ⟨l1 ++ [.atSign] ++ l2,
      ⟨l1 ++ [.atSign], ⟨l1, (mem_oneOrMore l1).mpr h1, [.atSign], rfl, rfl⟩,
        l2, (mem_oneOrMore l2).mpr h2, rfl⟩, [.dot], rfl, rfl⟩,
      l3, (mem_oneOrMore l3).mpr h3, by simp⟩
theorem classify_cases (c : Char) :
    (isWhiteSpace c = true ∧ classify c = .space) ∨
    (isWhiteSpace c = false ∧ c = '@' ∧ classify c = .atSign) ∨
    (isWhiteSpace c = false ∧ c ≠ '@' ∧ c = '.' ∧ classify c = .dot) ∨
    (isWhiteSpace c = false ∧ c ≠ '@' ∧ c ≠ '.' ∧ classify c = .other) := by
  unfold classify
  by_cases h1 : isWhiteSpace c = true
  · exact Or.inl ⟨h1, by rw [if_pos h1]⟩
  · have h1f : isWhiteSpace c = false := by simpa using h1
    by_cases h2 : c = '@'
    · exact Or.inr (Or.inl ⟨h1f, h2, by rw [if_neg h1, if_pos h2]⟩)
    · by_cases h3 : c = '.'
      · exact Or.inr (Or.inr (Or.inl ⟨h1f, h2, h3, by rw [if_neg h1, if_neg h2, if_pos h3]⟩))
      · exact Or.inr (Or.inr (Or.inr ⟨h1f, h2, h3, by rw [if_neg h1, if_neg h2, if_neg h3]⟩))

theorem classify_plain (c : Char) :
    Plain (classify c) ↔ isWhiteSpace c = false ∧ c ≠ '@' := by
  unfold Plain
  rcases classify_cases c with ⟨h1, h⟩ | ⟨h1, h2, h⟩ | ⟨h1, h2, h3, h⟩ | ⟨h1, h2, h3, h⟩
  · rw [h]; simp [h1]
  · rw [h]; simp [h2]
  · rw [h]; simp [h1, h2]
  · rw [h]; simp [h1, h2]

theorem classify_atSign (c : Char) : classify c = .atSign ↔ c = '@' := by
  rcases classify_cases c with ⟨h1, h⟩ | ⟨h1, h2, h⟩ | ⟨h1, h2, h3, h⟩ | ⟨h1, h2, h3, h⟩
  · constructor
    · intro h4; rw [h] at h4; cases h4
    · intro h4; rw [h4] at h1; exact absurd h1 (by decide)
  · rw [h]; simp [h2]
  · rw [h]; simp [h2]
  · rw [h]; simp [h2]

theorem classify_dot (c : Char) : classify c = .dot ↔ c = '.' := by
  rcases classify_cases c with ⟨h1, h⟩ | ⟨h1, h2, h⟩ | ⟨h1, h2, h3, h⟩ | ⟨h1, h2, h3, h⟩
  · constructor
    · intro h4; rw [h] at h4; cases h4
    · intro h4; rw [h4] at h1; exact absurd h1 (by decide)
  · constructor
    · intro h4; rw [h] at h4; cases h4
    · intro h4; rw [h4] at h2; exact absurd h2 (by decide)
  · rw [h]; simp [h3]
  · rw [h]; simp [h3]

theorem plain_map_classify (l : Text) :
    (∀ a ∈ l.map classify, Plain a) ↔ ∀ c ∈ l, isWhiteSpace c = false ∧ c ≠ '@' := by
  constructor
  · intro h c hc
    exact (classify_plain c).mp (h _ (List.mem_map.mpr ⟨c, hc, rfl⟩))
  · intro h a ha
    obtain ⟨c, hc, rfl⟩ := List.mem_map.mp ha
    exact (classify_plain c).mpr (h c hc)

/-- C28: for every string e, isValidEmail(e) is true if and only if e
contains no whitespace character, contains exactly one '@', has at least one
character before the '@', and the part after the '@' contains a '.' that is
neither its first nor its last character. -/
theorem isValidEmail_iff (e : Text) :
    isValidEmail e = true ↔
      (∀ c ∈ e, isWhiteSpace c = false) ∧ e.count '@' = 1 ∧
      ∃ loc dom, e = loc ++ '@' :: dom ∧ loc ≠ [] ∧
        ∃ A B, dom = A ++ '.' :: B ∧ A ≠ [] ∧ B ≠ [] := by
  unfold isValidEmail
  rw [RegularExpression.rmatch_iff_matches', mem_emailRegex]
  constructor
  · rintro ⟨l1, l2, l3, hx, ⟨h1n, h1⟩, ⟨h2n, h2⟩, ⟨h3n, h3⟩⟩
    obtain ⟨e1, r1, rfl, rfl, hr1⟩ := List.map_eq_append_iff.mp hx
    obtain ⟨c1, r2, rfl, hc1, hr2⟩ := List.map_eq_cons_iff.mp hr1
    obtain ⟨e2, r3, rfl, rfl, hr3⟩ := List.map_eq_append_iff.mp hr2
    obtain ⟨c2, e3, rfl, hc2, rfl⟩ := List.map_eq_cons_iff.mp hr3
    have hc1' := (classify_atSign c1).mp hc1
    have hc2' := (classify_dot c2).mp hc2
    subst hc1' hc2'
    have p1 := (plain_map_classify e1).mp h1
    have p2 := (plain_map_classify e2).mp h2
    have p3 := (plain_map_classify e3).mp h3
    have n1 : e1.count '@' = 0 := List.count_eq_zero.mpr (fun h => (p1 _ h).2 rfl)
    have n2 : e2.count '@' = 0 := List.count_eq_zero.mpr (fun h => (p2 _ h).2 rfl)
    have n3 : e3.count '@' = 0 := List.count_eq_zero.mpr (fun h => (p3 _ h).2 rfl)
    refine ⟨?_, ?_, e1, e2 ++ '.' :: e3, rfl, ?_, e2, e3, rfl, ?_, ?_⟩
    · intro c hc
      simp only [List.mem_append, List.mem_cons] at hc
      rcases hc with hc | rfl | hc | rfl | hc
      · exact (p1 c hc).1
      · decide
      · exact (p2 c hc).1
      · decide
      · exact (p3 c hc).1
    · simp [List.count_append, List.count_cons, n1, n2, n3]
    · intro h; subst h; exact h1n rfl
    · intro h; subst h; exact h2n rfl
    · intro h; subst h; exact h3n rfl
  · rintro ⟨hws, hcount, loc, dom, rfl, hloc, A, B, rfl, hA, hB⟩
    have hc : loc.count '@' = 0 ∧ A.count '@' = 0 ∧ B.count '@' = 0 := by
      simp [List.count_append, List.count_cons] at hcount
      omega
    have q : ∀ l : Text, l.count '@' = 0 → (∀ c ∈ l, c ∈ loc ++ '@' :: (A ++ '.' :: B)) →
        ∀ a ∈ l.map classify, Plain a := by
      intro l hl hsub
      rw [plain_map_classify]
      intro c hcl
      refine ⟨hws c (hsub c hcl), ?_⟩
      rintro rfl
      exact List.count_eq_zero.mp hl hcl
    refine ⟨loc.map classify, A.map classify, B.map classify, ?_, ⟨?_, ?_⟩, ⟨?_, ?_⟩, ⟨?_, ?_⟩⟩
    · simp [(classify_atSign '@').mpr rfl, (classify_dot '.').mpr rfl]
    · simpa using hloc
    · exact q loc hc.1 (fun c h => by simp [h])
    · simpa using hA
    · exact q A hc.2.1 (fun c h => by simp [h])
    · simpa using hB
    · exact q B hc.2.2 (fun c h => by simp [h])

/-- Strings the pattern accepts and rejects. -/
theorem isValidEmail_examples :
    isValidEmail "a@b.c".toList = true ∧ isValidEmail "a@b..c".toList = true ∧
    isValidEmail "a@b".toList = false ∧ isValidEmail "a@.c".toList = false ∧
    isValidEmail "a@b.".toList = false ∧ isValidEmail "@b.c".toList = false ∧
    isValidEmail "a b@x.c".toList = false ∧ isValidEmail "a@b@x.c".toList = false := by
  decide

/-! ## The relational branch -/

/-- The relational toggleLike never reports a new Like: whatever the engine
answers, the returned object does not carry liked true. -/
theorem relational_toggleLike_never_liked {Db : Type} (Q : SqlStatements Db) (db : Db)
    (postId userId : Nat) :
    (Relational.toggleLike Q db postId userId).2.liked ≠ some true := by
  unfold Relational.toggleLike
  simp only [arrayTruthy, if_true]
  split
  · simp
  · split
    · simp
    · split <;> simp

/-- C23 (code at the failing input): on a database holding post 1 with
likes_count 0 and no Like row, toggleLike(1, 2) finds no row, yet takes the
branch for an existing Like: nothing is inserted, likes_count becomes -1 and
the call returns success true with liked false. -/
theorem relational_toggle_on_unliked_post :
    Relational.toggleLike (tableStatements 200) unlikedDb 1 2
      = (⟨[⟨1, "Alice", "alice@x.com", "h1", 100⟩, ⟨2, "Bob", "bob@x.com", "h2", 101⟩],
          [⟨1, "Intro", "text", "", none, none, none, 1, 102, -1⟩], [], []⟩,
         { success := true, liked := some false }) := by
  decide

/-- The relational authenticateUser returns the array handed back by
`stmt.get` whenever the query runs, so it never returns null then. -/
theorem relational_authenticate_never_null {Db : Type} (Q : SqlStatements Db) (db : Db)
    (email password : String) (row : List SqlValue)
    (h : Q.get db selectUserSql [.text email, .text password] = .ok row) :
    Relational.authenticateUser Q db email password = some row := by
  simp [Relational.authenticateUser, h, arrayTruthy]

/-- C24 (code at the failing input): with Alice stored under password hash
'h1', authenticateUser('alice@x.com', 'wrong') returns the empty array, not
null; with the right hash it returns the array of the row's column values. -/
theorem relational_authenticate_wrong_password :
    Relational.authenticateUser (tableStatements 200) unlikedDb "alice@x.com" "wrong"
      = some [] ∧
    Relational.authenticateUser (tableStatements 200) unlikedDb "alice@x.com" "h1"
      = some [.int 1, .text "Alice", .text "alice@x.com", .text "h1", .int 100] := by
  decide

/-! ## Reading the stored texts back -/

theorem asNat_num (n : Nat) : asNat (.num (n : Int)) = some n := by
  simp [asNat]

theorem asString_str (s : String) : asString (.str s.toList) = some s := rfl

theorem asString_data (s : String) : asString (.str s.data) = some s := rfl

theorem asMedia_jsonOfMedia (m : Option String) : asMedia (jsonOfMedia m) = some m := by
  cases m <;> rfl

theorem user_ofJson_toJson (iso : Nat → Text) (unIso : Text → Option Nat)
    (hinv : ∀ t, unIso (iso t) = some t) (u : User) :
    User.ofJson unIso (User.toJson iso u) = some u := by
  cases u
  simp [User.ofJson, User.toJson, expectKey, asNat_num, asString_str, asString_data, asTime, hinv]

theorem post_ofJson_toJson (iso : Nat → Text) (unIso : Text → Option Nat)
    (hinv : ∀ t, unIso (iso t) = some t) (p : Post) :
    Post.ofJson unIso (Post.toJson iso p) = some p := by
  cases p
  simp [Post.ofJson, Post.toJson, expectKey, asNat_num, asString_str, asString_data, asMedia_jsonOfMedia,
    asInt, asTime, hinv]

theorem comment_ofJson_toJson (iso : Nat → Text) (unIso : Text → Option Nat)
    (hinv : ∀ t, unIso (iso t) = some t) (c : Comment) :
    Comment.ofJson unIso (Comment.toJson iso c) = some c := by
  cases c
  simp [Comment.ofJson, Comment.toJson, expectKey, asNat_num, asString_str, asString_data, asTime, hinv]

theorem like_ofJson_toJson (iso : Nat → Text) (unIso : Text → Option Nat)
    (hinv : ∀ t, unIso (iso t) = some t) (l : Like) :
    Like.ofJson unIso (Like.toJson iso l) = some l := by
  cases l
  simp [Like.ofJson, Like.toJson, expectKey, asNat_num, asTime, hinv]

theorem readAll_map {α : Type} (f : Json → Option α) (g : α → Json)
    (h : ∀ a, f (g a) = some a) (l : List α) : readAll f (l.map g) = some l := by
  induction l with
  | nil => rfl
  | cons a l ih => simp only [List.map_cons, readAll, h a, ih]

theorem readCollection_stringify {α : Type} (f : Json → Option α) (g : α → Json)
    (h : ∀ a, f (g a) = some a) (l : List α) :
    readCollection f (stringify (.arr (l.map g))) = some l := by
  unfold readCollection
  rw [parse_print]
  exact readAll_map f g h l

theorem unIsoDigits_isoDigits (t : Nat) : unIsoDigits (isoDigits t) = some t := by
  have h := parseNat_natDigits t [] trivial
  rw [List.append_nil] at h
  simp only [unIsoDigits, isoDigits, h]

/-! ## Stored texts read back as records; placeholder names -/

/-- C16: for every state reached from the empty store by facade operations
(so also the empty store, a store with one user, post, comment and like, and
a store with several posts and overlapping likes), each of the four
collections c satisfies JSON.parse(JSON.stringify(c)) = c: reading the
written text back gives the same records in the same order with the same
fields and values, null media payloads included. Timestamps are written as
text by any rendering that can be read back, as toISOString can. -/
theorem collections_survive_json (calls : List Call) (iso : Nat → Text)
    (unIso : Text → Option Nat) (hinv : ∀ t, unIso (iso t) = some t) :
    readCollection (User.ofJson unIso) (stringifyUsers iso (run Store.empty calls).users)
      = some (run Store.empty calls).users ∧
    readCollection (Post.ofJson unIso) (stringifyPosts iso (run Store.empty calls).posts)
      = some (run Store.empty calls).posts ∧
    readCollection (Comment.ofJson unIso)
        (stringifyComments iso (run Store.empty calls).comments)
      = some (run Store.empty calls).comments ∧
    readCollection (Like.ofJson unIso) (stringifyLikes iso (run Store.empty calls).likes)
      = some (run Store.empty calls).likes :=
  ⟨readCollection_stringify _ _ (user_ofJson_toJson iso unIso hinv) _,
   readCollection_stringify _ _ (post_ofJson_toJson iso unIso hinv) _,
   readCollection_stringify _ _ (comment_ofJson_toJson iso unIso hinv) _,
   readCollection_stringify _ _ (like_ofJson_toJson iso unIso hinv) _⟩

theorem collections_survive_json_witness :
    (∀ t, unIsoDigits (isoDigits t) = some t) ∧
    readCollection (User.ofJson unIsoDigits)
        (stringifyUsers isoDigits (run Store.empty busyTrace).users)
      = some (run Store.empty busyTrace).users ∧
    readCollection (Post.ofJson unIsoDigits)
        (stringifyPosts isoDigits (run Store.empty busyTrace).posts)
      = some (run Store.empty busyTrace).posts ∧
    readCollection (Comment.ofJson unIsoDigits)
        (stringifyComments isoDigits (run Store.empty busyTrace).comments)
      = some (run Store.empty busyTrace).comments ∧
    readCollection (Like.ofJson unIsoDigits)
        (stringifyLikes isoDigits (run Store.empty busyTrace).likes)
      = some (run Store.empty busyTrace).likes :=
  ⟨unIsoDigits_isoDigits,
   collections_survive_json busyTrace isoDigits unIsoDigits unIsoDigits_isoDigits⟩

set_option maxRecDepth 20000 in
/-- The likes and the comments of a store with overlapping likes, written and
read back. -/
theorem read_back_example :
    String.mk (stringifyLikes isoDigits (run Store.empty busyTrace).likes)
      = "[\x7b\"id\":12,\"post_id\":10,\"user_id\":1,\"created_at\":\"12\"\x7d,\x7b\"id\":13,\"post_id\":10,\"user_id\":2,\"created_at\":\"13\"\x7d,\x7b\"id\":14,\"post_id\":11,\"user_id\":1,\"created_at\":\"14\"\x7d]" ∧
    readCollection (Like.ofJson unIsoDigits)
        (stringifyLikes isoDigits (run Store.empty busyTrace).likes)
      = some [⟨12, 10, 1, 12⟩, ⟨13, 10, 2, 13⟩, ⟨14, 11, 1, 14⟩] ∧
    readCollection (Comment.ofJson unIsoDigits)
        (stringifyComments isoDigits (run Store.empty busyTrace).comments)
      = some [⟨15, 10, 1, "Nice post", 15⟩] ∧
    readCollection (User.ofJson unIsoDigits) (stringifyUsers isoDigits Store.empty.users)
      = some [] := by
  decide

theorem placeholderExactly_find (users : List User) (id : Nat) :
    PlaceholderExactly users id
      (match users.find? (fun u => u.id == id) with
        | some a => a.name
        | none => "Unknown User") := by
  intro hnames
  cases hf : users.find? (fun u => u.id == id) with
  | none =>
    simp only [true_iff]
    intro u hu
    simpa using List.find?_eq_none.mp hf u hu
  | some a =>
    have hmem := List.mem_of_find?_eq_some hf
    have hid : a.id = id := by simpa using List.find?_some hf
    simp only
    constructor
    · intro h
      exact absurd h (hnames a hmem)
    · intro h
      exact absurd hid (h a hmem)

/-- C21 (counterexample): a user registered under the name 'Unknown User'
writes a post and a comment; the three reads show the placeholder text for
records whose referenced user id does match a stored user. -/
theorem stored_author_shown_as_placeholder :
    (run Store.empty placeholderNamed).users.map (fun u => (u.id, u.name))
      = [(1, "Unknown User")] ∧
    (getAllPosts (run Store.empty placeholderNamed)).map (fun v => (v.author_id, v.author_name))
      = [(1, "Unknown User")] ∧
    (getPostById (run Store.empty placeholderNamed) 5).map (fun v => (v.author_id, v.author_name))
      = some (1, "Unknown User") ∧
    (getCommentsByPostId (run Store.empty placeholderNamed) 5).map
        (fun v => (v.user_id, v.user_name)) = [(1, "Unknown User")] := by
  decide

/-- C21 (amended): for every state, getAllPosts returns every stored post in
stored order, getPostById returns the first stored post with the id (null
when there is none) and getCommentsByPostId returns every stored comment of
the post, none dropped for a dangling reference; each returned record
carries as author_name / user_name the placeholder 'Unknown User' when its
referenced user id matches no stored user and the first matching user's name
otherwise, so that, when no stored user is named 'Unknown User', exactly the
records with a dangling reference carry the placeholder; and createPost,
addComment and toggleLike return success true for all arguments, also when
the author, post or user id matches no stored record. -/
theorem dangling_references_placeholder (s : Store) :
    ((getAllPosts s).map (·.toPost) = s.posts ∧
      ∀ v ∈ getAllPosts s,
        ResolvesTo s.users v.author_id v.author_name ∧
        PlaceholderExactly s.users v.author_id v.author_name) ∧
    (∀ p, (getPostById s p).map (·.toPost) = s.posts.find? (fun q => q.id == p) ∧
      ∀ v, getPostById s p = some v →
        ResolvesTo s.users v.author_id v.author_name ∧
        PlaceholderExactly s.users v.author_id v.author_name) ∧
    (∀ p, ((getCommentsByPostId s p).map (·.toComment)).Perm
        (s.comments.filter (fun c => c.post_id == p)) ∧
      ∀ v ∈ getCommentsByPostId s p,
        ResolvesTo s.users v.user_id v.user_name ∧
        PlaceholderExactly s.users v.user_id v.user_name) ∧
    (∀ t d g i a v au now ts, (createPost s t d g i a v au now ts).2.success = true) ∧
    (∀ p u x now ts, (addComment s p u x now ts).2.success = true) ∧
    (∀ p u now ts, (toggleLike s p u now ts).2.success = true) := by
  refine ⟨⟨?_, ?_⟩, ?_, ?_, ?_, ?_, ?_⟩
  · simp only [getAllPosts, List.map_map]
    exact (List.map_congr_left (fun p _ => rfl)).trans (List.map_id _)
  · intro v hv
    obtain ⟨p, _, rfl⟩ := List.mem_map.mp hv
    exact ⟨resolvesTo_find s.users p.author_id, placeholderExactly_find s.users p.author_id⟩
  · intro p
    unfold getPostById
    cases hf : s.posts.find? (fun q => q.id == p) with
    | none => exact ⟨rfl, fun v hv => by cases hv⟩
    | some q =>
      refine ⟨rfl, ?_⟩
      intro v hv
      simp only [Option.some.injEq] at hv
      subst hv
      exact ⟨resolvesTo_find s.users q.author_id, placeholderExactly_find s.users q.author_id⟩
  · intro p
    constructor
    · have h := (sortStable_perm byCreatedAt
        ((s.comments.filter (fun c => c.post_id == p)).map (withUserName s.users))).map
          (·.toComment)
      rw [List.map_map] at h
      have hid : (s.comments.filter (fun c => c.post_id == p)).map
          ((·.toComment) ∘ withUserName s.users)
            = s.comments.filter (fun c => c.post_id == p) :=
        (List.map_congr_left (fun c _ => rfl)).trans (List.map_id _)
      rw [hid] at h
      exact h
    · intro v hv
      have hv2 := (sortStable_perm byCreatedAt _).mem_iff.mp hv
      obtain ⟨c, _, rfl⟩ := List.mem_map.mp hv2
      exact ⟨resolvesTo_find s.users c.user_id, placeholderExactly_find s.users c.user_id⟩
  · intro t d g i a v au now ts; rfl
  · intro p u x now ts; rfl
  · intro p u now ts
    rw [toggleLike_reply]

theorem dangling_references_placeholder_witness :
    (∀ u ∈ danglingStore.users, u.name ≠ "Unknown User") ∧
    (getAllPosts danglingStore).map (·.toPost) = danglingStore.posts ∧
    (∀ v ∈ getAllPosts danglingStore,
      v.author_name = "Unknown User" ↔ ∀ u ∈ danglingStore.users, u.id ≠ v.author_id) ∧
    ((getCommentsByPostId danglingStore 6).map (·.toComment)).Perm
      (danglingStore.comments.filter (fun c => c.post_id == 6)) :=
  ⟨by decide, (dangling_references_placeholder danglingStore).1.1,
   fun v hv => ((dangling_references_placeholder danglingStore).1.2 v hv).2 (by decide),
   ((dangling_references_placeholder danglingStore).2.2.1 6).1⟩

end Rok
